import Mathlib

/-!
# Image snapshot writer (`vm/image_snapshot.cc`)

A shallow embedding of the image writer of the Dart VM: the content index
trait (`ObjectOffsetTrait`), the offset allocator (`ImageWriter`), the data
section writer (`WriteROData`), the blob text writer
(`BlobImageWriter::WriteText`), the symbol names (`AssemblyCodeNamer`), the
entry loop of the assembly text writer (`AssemblyImageWriter::WriteText`), the
driver (`ImageWriter::Write`) and the image reader (`ImageReader`).

Conventions.
* `intptr_t` / `uword` values that only ever hold sizes and offsets are `Nat`;
  the narrowing return types (`int32_t`, `uint32_t`) and target words are
  modelled with explicit reduction modulo a power of two.
* `ASSERT` is a debug-only check and is not part of the embedded behaviour;
  `FATAL` and a failed `RELEASE_ASSERT` abort and are modelled by `none`.
* Raw memory behind a pointer is a function from byte offsets to bytes; words
  are little-endian.
* The two builds (`IS_SIMARM_X64` defined or not) are one definition each,
  branching on the flag of the configuration.
-/

namespace dart

/-! ## Configuration and the borrowed object model -/

/-- Class ids that the image writer distinguishes; every other class id is
`kOtherCid n`. -/
inductive ClassId where
  | kCompressedStackMapsCid
  | kOneByteStringCid
  | kTwoByteStringCid
  | kCodeSourceMapCid
  | kPcDescriptorsCid
  | kInstructionsCid
  | kOtherCid (n : Nat)
  deriving DecidableEq

/-- Build configuration: the preprocessor switches and the constants that the
translation unit takes from headers which are not part of it. -/
structure Config where
  /-- Flag `IS_SIMARM_X64`: host and target word sizes differ. -/
  IS_SIMARM_X64 : Bool
  /-- Flag `DART_PRECOMPILER`. -/
  DART_PRECOMPILER : Bool
  /-- Host `kWordSize` = `sizeof(uword)`. -/
  kWordSize : Nat
  /-- Target word size `compiler::target::kWordSize`. -/
  targetWordSize : Nat
  /-- Host `kObjectAlignment`. -/
  kObjectAlignment : Nat
  /-- Target alignment `compiler::target::ObjectAlignment::kObjectAlignment`. -/
  targetObjectAlignment : Nat
  /-- Constant `kMaxObjectAlignment`. -/
  kMaxObjectAlignment : Nat
  /-- Constant `Image::kHeaderSize`. -/
  kHeaderSize : Nat
  /-- Constant `Image::kHeaderFields`. -/
  kHeaderFields : Nat
  /-- Host `Instructions::HeaderSize()`. -/
  InstructionsHeaderSize : Nat
  /-- Target `compiler::target::Instructions::HeaderSize()`. -/
  targetInstructionsHeaderSize : Nat
  /-- Constant `String::kSizeofRawString`. -/
  kSizeofRawString : Nat
  /-- Flag `HASH_IN_OBJECT_HEADER`. -/
  HASH_IN_OBJECT_HEADER : Bool := false
  /-- Bit position `RawObject::kOldAndNotMarkedBit`. -/
  kOldAndNotMarkedBit : Nat := 1
  /-- Bit position `RawObject::kNewBit`. -/
  kNewBit : Nat := 2
  /-- Bit position `RawObject::kOldBit`. -/
  kOldBit : Nat := 3
  /-- Bit position `RawObject::kOldAndNotRememberedBit`. -/
  kOldAndNotRememberedBit : Nat := 4
  /-- Function `RawObject::SizeTag::update(size, tag)`. -/
  SizeTagUpdate : Nat → Nat → Nat := fun _ tag => tag
  /-- Constant `compiler::Assembler::GetBreakInstructionFiller()` (the default
  is the x64 value, `int3` in every byte). -/
  BreakInstructionFiller : Nat := 0xCCCCCCCCCCCCCCCC
  /-- Size `sizeof(RawObject)` of the object header. -/
  sizeofRawObject : Nat
  /-- The numeric value of a class id (`classid_t`). -/
  ClassIdValue : ClassId → Nat
  /-- Function `CombineHashes(hash, other_hash)` of `vm/hash.h`. -/
  CombineHashes : Nat → Nat → Nat
  /-- Function `FinalizeHash(hash, hashbits)` of `vm/hash.h`. -/
  FinalizeHash : Nat → Nat → Nat

/-- Modelled from the spec: the borrowed heap object (`RawObject`, declared in
`raw_object.h`, which is not among the sources): a type tag, a byte length, a
header word and the raw bytes of the object. `addr` is the identity of the
object (`RawObject::ToAddr`), `mem i` is the byte stored at `addr + i`.
`length_` is the length field of the variable-length classes
(`payload_size()`, `Smi::Value(length_)`, `length_`, `Instructions::Size`). -/
structure RawObject where
  addr : Nat
  tags_ : Nat
  class_id : ClassId
  heap_size : Nat
  length_ : Nat := 0
  flags_and_size_ : Nat := 0
  hash_ : Nat := 0
  unchecked_entrypoint_pc_offset_ : Nat := 0
  mem : Nat → Nat := fun _ => 0

/-- Accessor `RawObject::GetClassId`. -/
def RawObject.GetClassId (obj : RawObject) : ClassId := obj.class_id

/-- Accessor `RawObject::HeapSize`. -/
def RawObject.HeapSize (obj : RawObject) : Nat := obj.heap_size

/-- Modelled from the spec: the owner of a code block ("class, function, type,
or hard-coded stub identity"), as `AssemblyCodeNamer::AssemblyNameFor` sees
it: null, a class with the buffer of `Class::Name().ToCString()`, an abstract
type with the string of `StubNameForType`, a function with the buffer of
`ToQualifiedCString()`, or an object of another kind. -/
inductive CodeOwner where
  | null
  | cls (name : List Char)
  | abstractType (stub_name : List Char)
  | function (qualified_name : List Char)
  | other

/-- Modelled from the spec: a compiled code block (`RawCode`): its machine
code object, the pc offsets of its descriptors of kind `kBSSRelocation`,
in iteration order ("list of (kind, offset) relocation descriptors"), and its
owner. -/
structure RawCode where
  addr : Nat
  instructions_ : RawObject
  bss_relocations : List Nat := []
  owner_ : CodeOwner := CodeOwner.null

/-- Accessor `Code::InstructionsOf`. -/
def Code.InstructionsOf (code : RawCode) : RawObject := code.instructions_

/-- Modelled from the spec: the identity→offset table of the heap
(`Heap::GetObjectId` / `Heap::SetObjectId`), keyed by object identity; an
object without an entry has id 0. -/
structure Heap where
  object_ids : Nat → Nat

/-- Accessor `Heap::GetObjectId`. -/
def Heap.GetObjectId (heap : Heap) (obj : RawObject) : Nat := heap.object_ids obj.addr

/-- Mutator `Heap::SetObjectId`. -/
def Heap.SetObjectId (heap : Heap) (obj : RawObject) (id : Nat) : Heap :=
  { object_ids := Function.update heap.object_ids obj.addr id }

/-- Conversion of an `intptr_t` holding `n` to the `int32_t` return type. -/
def toInt32 (n : Nat) : Int := Int.bmod (n : Int) (2 ^ 32)

/-- Conversion of an `intptr_t` holding `n` to the `uint32_t` return type. -/
def toUint32 (n : Nat) : Nat := n % 2 ^ 32

/-- Helper `Utils::RoundUp(x, n)` for a power of two `n`. -/
def RoundUp (x n : Nat) : Nat := (x + n - 1) / n * n

/-! ## Offset allocator -/

/-- Entry `ImageWriter::ObjectData`. -/
structure ObjectData where
  raw_obj_ : RawObject

/-- Entry `ImageWriter::InstructionsData`: code-backed (`raw_insns_`,
`raw_code_`) or raw trampoline (`trampoline_bytes`, `trampline_length`); a
null pointer is `none`. -/
structure InstructionsData where
  raw_insns_ : Option RawObject
  raw_code_ : Option RawCode
  text_offset_ : Nat
  trampoline_bytes : Option (Nat → Nat)
  trampline_length : Nat

/-- Constructor `InstructionsData(insns, code, text_offset)`. -/
def InstructionsData.ofCode (insns : RawObject) (code : RawCode) (text_offset : Nat) :
    InstructionsData :=
  { raw_insns_ := some insns, raw_code_ := some code, text_offset_ := text_offset,
    trampoline_bytes := none, trampline_length := 0 }

/-- Constructor `InstructionsData(trampoline_bytes, trampline_length, text_offset)`. -/
def InstructionsData.ofTrampoline (bytes : Nat → Nat) (len : Nat) (text_offset : Nat) :
    InstructionsData :=
  { raw_insns_ := none, raw_code_ := none, text_offset_ := text_offset,
    trampoline_bytes := some bytes, trampline_length := len }

/-- State of an `ImageWriter`, together with the heap it points to. -/
structure ImageWriter where
  heap_ : Heap
  next_data_offset_ : Nat
  next_text_offset_ : Nat
  objects_ : List ObjectData
  instructions_ : List InstructionsData

/-- Modelled from the spec: `ImageWriter::ResetOffsets` (defined in
`image_snapshot.h`, which is not among the sources): both cursors restart
right after the section header ("offset 0 is reserved as unassigned
sentinel", "text length of exactly 64 plus header") and both entry lists are
cleared. -/
def ImageWriter.ResetOffsets (cfg : Config) (w : ImageWriter) : ImageWriter :=
  { w with next_data_offset_ := cfg.kHeaderSize, next_text_offset_ := cfg.kHeaderSize,
           objects_ := [], instructions_ := [] }

/-- Constructor `ImageWriter::ImageWriter(Heap*)` (the name of the structure
is taken, hence `Construct`). -/
def ImageWriter.Construct (cfg : Config) (heap : Heap) : ImageWriter :=
  ImageWriter.ResetOffsets cfg
    { heap_ := heap, next_data_offset_ := 0, next_text_offset_ := 0,
      objects_ := [], instructions_ := [] }

/-- Static helper `CompressedStackMapsSizeInSnapshot`. -/
def CompressedStackMapsSizeInSnapshot (cfg : Config) (payload_size : Nat) : Nat :=
  RoundUp (cfg.targetWordSize + 4 + payload_size) cfg.targetObjectAlignment

/-- Static helper `StringPayloadSize`; `OneByteString::kBytesPerElement` is 1
and `TwoByteString::kBytesPerElement` is 2. -/
def StringPayloadSize (len : Nat) (isOneByteString : Bool) : Nat :=
  len * (if isOneByteString then 1 else 2)

/-- Static helper `StringSizeInSnapshot`. -/
def StringSizeInSnapshot (cfg : Config) (len : Nat) (isOneByteString : Bool) : Nat :=
  RoundUp (cfg.kSizeofRawString / 2 + StringPayloadSize len isOneByteString)
    cfg.targetObjectAlignment

/-- Static helper `CodeSourceMapSizeInSnapshot`. -/
def CodeSourceMapSizeInSnapshot (cfg : Config) (len : Nat) : Nat :=
  RoundUp (2 * cfg.targetWordSize + len) cfg.targetObjectAlignment

/-- Static helper `PcDescriptorsSizeInSnapshot`. -/
def PcDescriptorsSizeInSnapshot (cfg : Config) (len : Nat) : Nat :=
  RoundUp (2 * cfg.targetWordSize + len) cfg.targetObjectAlignment

/-- Static helper `InstructionsSizeInSnapshot`. -/
def InstructionsSizeInSnapshot (cfg : Config) (len : Nat) : Nat :=
  RoundUp (cfg.targetInstructionsHeaderSize + len) cfg.targetObjectAlignment

/-- Method `ImageWriter::SizeInSnapshot`; `none` is the `FATAL1` abort. -/
def SizeInSnapshot (cfg : Config) (raw_object : RawObject) : Option Nat :=
  if cfg.IS_SIMARM_X64 then
    match raw_object.GetClassId with
    | .kCompressedStackMapsCid =>
        some (CompressedStackMapsSizeInSnapshot cfg raw_object.length_)
    | .kOneByteStringCid => some (StringSizeInSnapshot cfg raw_object.length_ true)
    | .kTwoByteStringCid => some (StringSizeInSnapshot cfg raw_object.length_ false)
    | .kCodeSourceMapCid => some (CodeSourceMapSizeInSnapshot cfg raw_object.length_)
    | .kPcDescriptorsCid => some (PcDescriptorsSizeInSnapshot cfg raw_object.length_)
    | .kInstructionsCid => some (InstructionsSizeInSnapshot cfg raw_object.length_)
    | .kOtherCid _ => none
  else
    some raw_object.HeapSize

/-- Method `ImageWriter::GetTextOffsetFor`: the returned `int32_t` and the new
writer state; `none` when `SizeInSnapshot` aborts. -/
def GetTextOffsetFor (cfg : Config) (w : ImageWriter) (instructions : RawObject)
    (code : RawCode) : Option (Int × ImageWriter) :=
  let offset := w.heap_.GetObjectId instructions
  if offset ≠ 0 then
    some (toInt32 offset, w)
  else
    let offset := w.next_text_offset_
    let heap := w.heap_.SetObjectId instructions offset
    match SizeInSnapshot cfg instructions with
    | none => none
    | some size =>
      some (toInt32 offset,
        { w with heap_ := heap,
                 next_text_offset_ := w.next_text_offset_ + size,
                 instructions_ :=
                   w.instructions_ ++ [InstructionsData.ofCode instructions code offset] })

/-- Method `ImageWriter::GetDataOffsetFor`: the returned `uint32_t` and the new
writer state; `none` when `SizeInSnapshot` aborts. -/
def GetDataOffsetFor (cfg : Config) (w : ImageWriter) (raw_object : RawObject) :
    Option (Nat × ImageWriter) :=
  match SizeInSnapshot cfg raw_object with
  | none => none
  | some snap_size =>
    let offset := w.next_data_offset_
    some (toUint32 offset,
      { w with next_data_offset_ := w.next_data_offset_ + snap_size,
               objects_ := w.objects_ ++ [{ raw_obj_ := raw_object }] })

/-- Command `ImageWriterCommand` with its two operations. -/
inductive ImageWriterCommand where
  | InsertInstructionOfCode (expected_offset : Nat) (code : RawCode)
  | InsertBytesOfTrampoline (expected_offset : Nat) (buffer : Nat → Nat) (buffer_length : Nat)

/-- One iteration of the loop of `ImageWriter::PrepareForSerialization`. -/
def PrepareForSerializationStep (cfg : Config) (w : ImageWriter) :
    ImageWriterCommand → Option ImageWriter
  | .InsertInstructionOfCode _ code =>
    let instructions := Code.InstructionsOf code
    let offset := w.next_text_offset_
    match SizeInSnapshot cfg instructions with
    | none => none
    | some size =>
      some { w with instructions_ :=
                      w.instructions_ ++ [InstructionsData.ofCode instructions code offset],
                    next_text_offset_ := w.next_text_offset_ + size,
                    heap_ := w.heap_.SetObjectId instructions offset }
  | .InsertBytesOfTrampoline _ trampoline_bytes trampoline_length =>
    let offset := w.next_text_offset_
    some { w with instructions_ :=
                    w.instructions_ ++
                      [InstructionsData.ofTrampoline trampoline_bytes trampoline_length offset],
                  next_text_offset_ := w.next_text_offset_ + trampoline_length }

/-- Loop of `ImageWriter::PrepareForSerialization` over the command list. -/
def PrepareForSerializationLoop (cfg : Config) :
    ImageWriter → List ImageWriterCommand → Option ImageWriter
  | w, [] => some w
  | w, inst :: rest =>
    match PrepareForSerializationStep cfg w inst with
    | none => none
    | some w1 => PrepareForSerializationLoop cfg w1 rest

/-- Method `ImageWriter::PrepareForSerialization`; a null command array is
`none`. -/
def PrepareForSerialization (cfg : Config) (w : ImageWriter) :
    Option (List ImageWriterCommand) → Option ImageWriter
  | none => some w
  | some commands => PrepareForSerializationLoop cfg w commands

/-! ## Concrete inputs used by the examples -/

/-- Same-word-size 64-bit build. -/
def exampleConfig : Config :=
  { IS_SIMARM_X64 := false, DART_PRECOMPILER := true, kWordSize := 8, targetWordSize := 8,
    kObjectAlignment := 16, targetObjectAlignment := 16, kMaxObjectAlignment := 16,
    kHeaderSize := 16, kHeaderFields := 2, InstructionsHeaderSize := 16,
    targetInstructionsHeaderSize := 16, kSizeofRawString := 16,
    sizeofRawObject := 8,
    ClassIdValue := fun cid => match cid with
      | ClassId.kOtherCid n => n
      | _ => 0,
    CombineHashes := fun hash other => (hash + other) % 2 ^ 32,
    FinalizeHash := fun hash hashbits => hash % 2 ^ hashbits }

/-- Cross-word-size build: 64-bit host, 32-bit target. -/
def exampleCrossConfig : Config :=
  { IS_SIMARM_X64 := true, DART_PRECOMPILER := true, kWordSize := 8, targetWordSize := 4,
    kObjectAlignment := 16, targetObjectAlignment := 8, kMaxObjectAlignment := 16,
    kHeaderSize := 16, kHeaderFields := 2, InstructionsHeaderSize := 16,
    targetInstructionsHeaderSize := 12, kSizeofRawString := 24,
    sizeofRawObject := 8,
    ClassIdValue := fun cid => match cid with
      | ClassId.kOtherCid n => n
      | _ => 0,
    CombineHashes := fun hash other => (hash + other) % 2 ^ 32,
    FinalizeHash := fun hash hashbits => hash % 2 ^ hashbits }

/-- Heap in which no object has an id yet. -/
def exampleHeap : Heap := { object_ids := fun _ => 0 }

/-- Instructions object of 32 bytes (16 header bytes, 16 payload bytes). -/
def exampleInstructions : RawObject :=
  { addr := 4096, tags_ := 0, class_id := ClassId.kInstructionsCid, heap_size := 32,
    length_ := 16 }

/-- Code block owning `exampleInstructions`. -/
def exampleCode : RawCode := { addr := 8192, instructions_ := exampleInstructions }

/-- Read-only data object of 32 bytes. -/
def exampleObject : RawObject :=
  { addr := 12288, tags_ := 0, class_id := ClassId.kPcDescriptorsCid, heap_size := 32,
    length_ := 10 }

/-! ## Registration sequences -/

/-- A registration request issued by a client of the writer: a data object
(`GetDataOffsetFor`), a code block (`GetTextOffsetFor`) or a command list
(`PrepareForSerialization`). -/
inductive Registration where
  | data (raw_object : RawObject)
  | text (instructions : RawObject) (code : RawCode)
  | commands (cmds : List ImageWriterCommand)

/-- Performs one registration; the list holds the data offset returned by
`GetDataOffsetFor`, if that is what was called. -/
def Register (cfg : Config) (w : ImageWriter) : Registration → Option (ImageWriter × List Nat)
  | .data raw_object => (GetDataOffsetFor cfg w raw_object).map (fun r => (r.2, [r.1]))
  | .text instructions code =>
    (GetTextOffsetFor cfg w instructions code).map (fun r => (r.2, []))
  | .commands cmds => (PrepareForSerialization cfg w (some cmds)).map (fun w1 => (w1, []))

/-- Performs a sequence of registrations in order, collecting the data offsets
returned along the way in registration order. -/
def RegisterAll (cfg : Config) : ImageWriter → List Registration → Option (ImageWriter × List Nat)
  | w, [] => some (w, [])
  | w, r :: rest =>
    match Register cfg w r with
    | none => none
    | some (w1, out) =>
      match RegisterAll cfg w1 rest with
      | none => none
      | some (w2, outs) => some (w2, out ++ outs)

/-- The text offsets recorded in the instructions entry list, in order. -/
def ImageWriter.textOffsets (w : ImageWriter) : List Nat :=
  w.instructions_.map (fun e => e.text_offset_)

/-- The snapshot size of the object, when defined, is a positive multiple of
the target object alignment. -/
def ObjectSizeOk (cfg : Config) (raw_object : RawObject) : Prop :=
  ∀ size, SizeInSnapshot cfg raw_object = some size →
    0 < size ∧ cfg.targetObjectAlignment ∣ size

/-- The payload inserted by the command has a size that is a positive multiple
of the target object alignment. -/
def CommandSizeOk (cfg : Config) : ImageWriterCommand → Prop
  | .InsertInstructionOfCode _ code => ObjectSizeOk cfg (Code.InstructionsOf code)
  | .InsertBytesOfTrampoline _ _ buffer_length =>
    0 < buffer_length ∧ cfg.targetObjectAlignment ∣ buffer_length

/-- Every payload of the registration has a size that is a positive multiple
of the target object alignment. -/
def RegistrationSizeOk (cfg : Config) : Registration → Prop
  | .data raw_object => ObjectSizeOk cfg raw_object
  | .text instructions _ => ObjectSizeOk cfg instructions
  | .commands cmds => ∀ c ∈ cmds, CommandSizeOk cfg c

/-- Invariant of the text section: the cursor is aligned, the recorded offsets
are strictly increasing, lie below the cursor and are aligned. -/
def TextInv (A : Nat) (w : ImageWriter) : Prop :=
  A ∣ w.next_text_offset_ ∧ w.textOffsets.Pairwise (· < ·) ∧
    ∀ o ∈ w.textOffsets, o < w.next_text_offset_ ∧ A ∣ o

/-- A trampoline of four zero bytes followed by `exampleCode`. -/
def exampleMisalignedCommands : List ImageWriterCommand :=
  [ImageWriterCommand.InsertBytesOfTrampoline 0 (fun _ => 0) 4,
   ImageWriterCommand.InsertInstructionOfCode 4 exampleCode]

/-- Three registrations: a data object, a code block and a command list with
one trampoline of 16 bytes. -/
def exampleRegistrations : List Registration :=
  [Registration.data exampleObject,
   Registration.text exampleInstructions exampleCode,
   Registration.commands [ImageWriterCommand.InsertBytesOfTrampoline 0 (fun _ => 0) 16]]

/-- The writer state after `exampleRegistrations` on a fresh writer. -/
def exampleRegistered : ImageWriter :=
  { heap_ := exampleHeap.SetObjectId exampleInstructions 16,
    next_data_offset_ := 48,
    next_text_offset_ := 64,
    objects_ := [{ raw_obj_ := exampleObject }],
    instructions_ := [InstructionsData.ofCode exampleInstructions exampleCode 16,
                      InstructionsData.ofTrampoline (fun _ => 0) 16 48] }

/-! ## Output stream and the data section writer -/

/-- Modelled from the spec: the growable output buffer (`WriteStream`, declared
in `datastream.h`, which is not among the sources): the bytes of the buffer
and the current position; `Position()` and `bytes_written()` are both the
distance of the current position from the start of the buffer. -/
structure WriteStream where
  buffer : Nat → Nat
  current : Nat

/-- Accessor `WriteStream::Position`. -/
def WriteStream.Position (s : WriteStream) : Nat := s.current

/-- Accessor `WriteStream::bytes_written`. -/
def WriteStream.bytes_written (s : WriteStream) : Nat := s.current

/-- Mutator `WriteStream::SetPosition`. -/
def WriteStream.SetPosition (s : WriteStream) (value : Nat) : WriteStream :=
  { s with current := value }

/-- Method `WriteStream::WriteBytes(addr, len)`: copies `len` bytes of the
memory `src` to the current position and advances it. -/
def WriteStream.WriteBytes (s : WriteStream) (src : Nat → Nat) (len : Nat) : WriteStream :=
  { buffer := fun p =>
      if s.current ≤ p ∧ p < s.current + len then src (p - s.current) else s.buffer p,
    current := s.current + len }

/-- Byte `i` of the little-endian representation of `value`. -/
def littleEndianByte (value i : Nat) : Nat := value / 256 ^ i % 256

/-- Method `WriteStream::WriteFixed<T>(value)` for an integer type of `size`
bytes (little-endian host). -/
def WriteStream.WriteFixed (s : WriteStream) (size value : Nat) : WriteStream :=
  s.WriteBytes (littleEndianByte value) size

/-- Method `WriteStream::WriteWord`. -/
def WriteStream.WriteWord (cfg : Config) (s : WriteStream) (value : Nat) : WriteStream :=
  s.WriteFixed cfg.kWordSize value

/-- Method `WriteStream::WriteTargetWord`. -/
def WriteStream.WriteTargetWord (cfg : Config) (s : WriteStream) (value : Nat) : WriteStream :=
  s.WriteFixed cfg.targetWordSize value

/-- Method `WriteStream::Align(alignment)`: zero-fills up to the next multiple
of `alignment`. -/
def WriteStream.Align (s : WriteStream) (alignment : Nat) : WriteStream :=
  { buffer := fun p =>
      if s.current ≤ p ∧ p < RoundUp s.current alignment then 0 else s.buffer p,
    current := RoundUp s.current alignment }

/-- Little-endian load of `size` bytes at `addr` (`*reinterpret_cast<T*>(addr)`). -/
def readFixed (mem : Nat → Nat) (addr : Nat) : Nat → Nat
  | 0 => 0
  | size + 1 => mem addr + 256 * readFixed mem (addr + 1) size

/-- Method `BitField<uword, bool, position, 1>::update(value, original)`. -/
def BitFieldUpdate (position : Nat) (value : Bool) (original : Nat) : Nat :=
  ((if value then 1 else 0) <<< position) |||
    (original ^^^ (original &&& (1 <<< position)))

/-- The word-copy loop at the end of `ImageWriter::WriteROData` (same-word-size
build): `cursor` and `end_` are byte offsets from the start of the object; the
first argument bounds the number of iterations (`end_ - start` suffices since
every iteration advances by a word). -/
def WriteRODataWords (cfg : Config) (obj : RawObject) (end_ : Nat) :
    Nat → Nat → WriteStream → WriteStream
  | 0, _, s => s
  | fuel + 1, cursor, s =>
    if cursor < end_ then
      WriteRODataWords cfg obj end_ fuel (cursor + cfg.kWordSize)
        (s.WriteWord cfg (readFixed obj.mem cursor cfg.kWordSize))
    else s

/-- Body of the loop of `ImageWriter::WriteROData` for one object; `none` is a
`FATAL1` or a failed `RELEASE_ASSERT`. A `Smi` field is written as its raw
word (the value shifted left by one). -/
def WriteRODataObject (cfg : Config) (stream : WriteStream) (obj : RawObject) :
    Option WriteStream :=
  let start := 0
  let end_ := start + obj.HeapSize
  let marked_tags := obj.tags_
  let marked_tags := BitFieldUpdate cfg.kOldBit true marked_tags
  let marked_tags := BitFieldUpdate cfg.kOldAndNotMarkedBit false marked_tags
  let marked_tags := BitFieldUpdate cfg.kOldAndNotRememberedBit true marked_tags
  let marked_tags := BitFieldUpdate cfg.kNewBit false marked_tags
  let marked_tags :=
    if cfg.HASH_IN_OBJECT_HEADER then marked_tags ||| (obj.hash_ <<< 32) else marked_tags
  if cfg.IS_SIMARM_X64 then
    match obj.GetClassId with
    | .kCompressedStackMapsCid =>
      let payload_size := obj.length_
      let size_in_bytes := CompressedStackMapsSizeInSnapshot cfg payload_size
      let marked_tags := cfg.SizeTagUpdate (size_in_bytes * 2) marked_tags
      let stream := stream.WriteTargetWord cfg marked_tags
      let stream := stream.WriteFixed 4 obj.flags_and_size_
      let stream := stream.WriteBytes (fun i => obj.mem (cfg.kWordSize + 4 + i)) payload_size
      some (stream.Align cfg.targetObjectAlignment)
    | .kOneByteStringCid | .kTwoByteStringCid =>
      if obj.hash_ = 0 then none
      else
        let isOneByteString := decide (obj.GetClassId = ClassId.kOneByteStringCid)
        let size_in_bytes := StringSizeInSnapshot cfg obj.length_ isOneByteString
        let marked_tags := cfg.SizeTagUpdate (size_in_bytes * 2) marked_tags
        let stream := stream.WriteTargetWord cfg marked_tags
        let stream := stream.WriteTargetWord cfg (obj.length_ <<< 1)
        let stream := stream.WriteTargetWord cfg (obj.hash_ <<< 1)
        let stream := stream.WriteBytes (fun i => obj.mem (start + cfg.kSizeofRawString + i))
          (StringPayloadSize obj.length_ isOneByteString)
        some (stream.Align cfg.targetObjectAlignment)
    | .kCodeSourceMapCid =>
      let size_in_bytes := CodeSourceMapSizeInSnapshot cfg obj.length_
      let marked_tags := cfg.SizeTagUpdate (size_in_bytes * 2) marked_tags
      let stream := stream.WriteTargetWord cfg marked_tags
      let stream := stream.WriteTargetWord cfg obj.length_
      let stream := stream.WriteBytes (fun i => obj.mem (2 * cfg.kWordSize + i)) obj.length_
      some (stream.Align cfg.targetObjectAlignment)
    | .kPcDescriptorsCid =>
      let size_in_bytes := PcDescriptorsSizeInSnapshot cfg obj.length_
      let marked_tags := cfg.SizeTagUpdate (size_in_bytes * 2) marked_tags
      let stream := stream.WriteTargetWord cfg marked_tags
      let stream := stream.WriteTargetWord cfg obj.length_
      let stream := stream.WriteBytes (fun i => obj.mem (2 * cfg.kWordSize + i)) obj.length_
      some (stream.Align cfg.targetObjectAlignment)
    | _ => none
  else
    let stream := stream.WriteWord cfg marked_tags
    let start := start + cfg.kWordSize
    some (WriteRODataWords cfg obj end_ (end_ - start) start stream)

/-- The loop of `ImageWriter::WriteROData` over `objects_`. -/
def WriteRODataObjects (cfg : Config) : WriteStream → List ObjectData → Option WriteStream
  | stream, [] => some stream
  | stream, data :: rest =>
    match WriteRODataObject cfg stream data.raw_obj_ with
    | none => none
    | some stream1 => WriteRODataObjects cfg stream1 rest

/-- Method `ImageWriter::WriteROData`. -/
def WriteROData (cfg : Config) (w : ImageWriter) (stream : WriteStream) : Option WriteStream :=
  let stream := stream.Align cfg.kMaxObjectAlignment
  let stream := stream.WriteWord cfg w.next_data_offset_
  let stream := stream.Align cfg.kMaxObjectAlignment
  WriteRODataObjects cfg stream w.objects_

/-- Sum of the snapshot sizes of the data entries. -/
def SnapshotSizeSum (cfg : Config) : List ObjectData → Nat
  | [] => 0
  | data :: rest => (SizeInSnapshot cfg data.raw_obj_).getD 0 + SnapshotSizeSum cfg rest

/-- Constraints between the constants of a build that the data section layout
relies on: non-zero word size and alignments, the section header is one word
rounded up to `kMaxObjectAlignment` (the `ASSERT` after the header of
`WriteROData`), and in the cross-word-size build the target alignment divides
`kMaxObjectAlignment` and half of `String::kSizeofRawString` is three target
words. -/
def DataLayoutOk (cfg : Config) : Prop :=
  0 < cfg.kWordSize ∧ 0 < cfg.kMaxObjectAlignment ∧
    RoundUp cfg.kWordSize cfg.kMaxObjectAlignment = cfg.kHeaderSize ∧
    (cfg.IS_SIMARM_X64 = true →
      0 < cfg.targetObjectAlignment ∧ cfg.targetObjectAlignment ∣ cfg.kMaxObjectAlignment ∧
        3 * cfg.targetWordSize = cfg.kSizeofRawString / 2)

/-- Well-formedness of a data object: in the same-word-size build its heap size
is a positive multiple of the word size; in the cross-word-size build it is of
one of the four supported data classes and a string has its hash computed. -/
def DataObjectOk (cfg : Config) (obj : RawObject) : Prop :=
  if cfg.IS_SIMARM_X64 then
    (obj.GetClassId = ClassId.kCompressedStackMapsCid ∨
      ((obj.GetClassId = ClassId.kOneByteStringCid ∨ obj.GetClassId = ClassId.kTwoByteStringCid)
        ∧ obj.hash_ ≠ 0) ∨
      obj.GetClassId = ClassId.kCodeSourceMapCid ∨
      obj.GetClassId = ClassId.kPcDescriptorsCid)
  else
    0 < obj.HeapSize ∧ cfg.kWordSize ∣ obj.HeapSize

/-- The stream `s1` continues `s`: the position did not move back and the bytes
below the old position are unchanged. -/
def WriteStream.Extends (s s1 : WriteStream) : Prop :=
  s.current ≤ s1.current ∧ ∀ p, p < s.current → s1.buffer p = s.buffer p

/-- One-byte string "abcde" with its hash computed. -/
def exampleString : RawObject :=
  { addr := 16384, tags_ := 0, class_id := ClassId.kOneByteStringCid, heap_size := 32,
    length_ := 5, hash_ := 77,
    mem := fun i => if 24 ≤ i ∧ i < 29 then 97 + (i - 24) else 0 }

/-- Two data registrations in the cross-word-size build. -/
def exampleDataRegistrations : List Registration :=
  [Registration.data exampleObject, Registration.data exampleString]

/-- The writer state after `exampleDataRegistrations` on a fresh writer of the
cross-word-size build: the entries take 24 and 24 bytes. -/
def exampleDataWriter : ImageWriter :=
  { heap_ := exampleHeap,
    next_data_offset_ := 64,
    next_text_offset_ := 16,
    objects_ := [{ raw_obj_ := exampleObject }, { raw_obj_ := exampleString }],
    instructions_ := [] }

/-- A clustered stream holding three bytes already. -/
def exampleStream : WriteStream := { buffer := fun _ => 0, current := 3 }

/-! ## Blob backend -/

/-- Modelled from the spec: the linkable-object collaborator (`Elf`, declared
in `elf.h`, which is not among the sources): `next_memory_offset()`, the
static symbols added so far (section, name, offset) and the text sections
handed over (name, bytes, length). -/
structure Elf where
  next_memory_offset : Nat
  next_section_index : Nat := 0
  static_symbols : List (Nat × String × Nat) := []
  text_sections : List (String × (Nat → Nat) × Nat) := []

/-- Method `Elf::AddStaticSymbol`. -/
def Elf.AddStaticSymbol (elf : Elf) (section_index : Nat) (name : String) (offset : Nat) : Elf :=
  { elf with static_symbols := elf.static_symbols ++ [(section_index, name, offset)] }

/-- Method `Elf::AddText`. -/
def Elf.AddText (elf : Elf) (name : String) (bytes : Nat → Nat) (size : Nat) : Elf :=
  { elf with text_sections := elf.text_sections ++ [(name, bytes, size)] }

/-- Modelled from the spec: the debug-info collaborator (`Dwarf`): the code
blocks added so far with their base address (`add_code(code, [base_address])`). -/
structure Dwarf where
  codes : List (RawCode × Nat) := []

/-- Method `Dwarf::AddCode(code, offset)`. -/
def Dwarf.AddCode (dwarf : Dwarf) (code : RawCode) (offset : Nat) : Dwarf :=
  { codes := dwarf.codes ++ [(code, offset)] }

/-- State of a `BlobImageWriter`: the base `ImageWriter` and its own members. -/
structure BlobImageWriter where
  writer : ImageWriter
  instructions_blob_stream_ : WriteStream
  elf_ : Option Elf
  dwarf_ : Option Dwarf
  bss_base_ : Int

/-- The part of the state that the entry loop of `BlobImageWriter::WriteText`
changes: the blob stream, the two collaborators and the local `text_offset`. -/
structure BlobTextState where
  stream : WriteStream
  elf_ : Option Elf
  dwarf_ : Option Dwarf
  text_offset : Nat

/-- Truncation of an integer to the signed `compiler::target::word`. -/
def toTargetWord (cfg : Config) (u : Int) : Int := Int.bmod u (256 ^ cfg.targetWordSize)

/-- Conversion of a signed word to the `uword` argument of `WriteTargetWord`,
reduced to the bytes that are written. -/
def toTargetUword (cfg : Config) (x : Int) : Nat :=
  (x % ((256 ^ cfg.targetWordSize : Nat) : Int)).toNat

/-- The `while (iterator.MoveNext())` loop of `BlobImageWriter::WriteText` over
the pc offsets of the descriptors of kind `kBSSRelocation`. -/
def BlobPatchRelocations (cfg : Config) (bss_base_ : Int) (segment_base : Nat)
    (payload_stream_start : Nat) (insns : RawObject) : List Nat → WriteStream → WriteStream
  | [], stream => stream
  | reloc_offset :: rest, stream =>
    let addend := toTargetWord cfg
      (readFixed insns.mem (cfg.InstructionsHeaderSize + reloc_offset) cfg.targetWordSize)
    let stream := stream.SetPosition (payload_stream_start + reloc_offset)
    let offset := toTargetWord cfg
      (bss_base_ - ((segment_base + payload_stream_start + reloc_offset : Nat) : Int) + addend)
    let stream := stream.WriteTargetWord cfg (toTargetUword cfg offset)
    BlobPatchRelocations cfg bss_base_ segment_base payload_stream_start insns rest stream

/-- The `#if defined(IS_SIMARM_X64) ... #else ... #endif` block of the entry
loop of `BlobImageWriter::WriteText` that writes the header and the payload of
a code-backed entry: the stream, `payload_stream_start` and `text_offset`
after it. -/
def BlobWriteInstructions (cfg : Config) (stream0 : WriteStream) (text_offset : Nat)
    (insns : RawObject) (marked_tags : Nat) : WriteStream × Nat × Nat :=
  let payload_size :=
    RoundUp (cfg.targetInstructionsHeaderSize + insns.length_) cfg.targetObjectAlignment
      - cfg.targetInstructionsHeaderSize
  let object_end := cfg.InstructionsHeaderSize + payload_size
  if cfg.IS_SIMARM_X64 then
    let start_offset := stream0.bytes_written
    let size_in_bytes := InstructionsSizeInSnapshot cfg insns.length_
    let marked_tags := cfg.SizeTagUpdate (size_in_bytes * 2) marked_tags
    let stream := stream0.WriteTargetWord cfg marked_tags
    let stream := stream.WriteFixed 4 insns.flags_and_size_
    let stream := stream.WriteFixed 4 insns.unchecked_entrypoint_pc_offset_
    let payload_stream_start := stream.Position
    let stream :=
      stream.WriteBytes (fun j => insns.mem (cfg.InstructionsHeaderSize + j)) insns.length_
    let stream := stream.Align cfg.targetObjectAlignment
    let end_offset := stream.bytes_written
    (stream, payload_stream_start, text_offset + (end_offset - start_offset))
  else
    let payload_stream_start := stream0.Position + cfg.InstructionsHeaderSize
    let stream := stream0.WriteWord cfg marked_tags
    let object_start := cfg.kWordSize
    let stream :=
      stream.WriteBytes (fun j => insns.mem (object_start + j)) (object_end - object_start)
    (stream, payload_stream_start, text_offset + cfg.kWordSize + (object_end - object_start))

/-- The relocation block of the entry loop (`if (elf_ != nullptr) { ... }`):
patches every relocation and restores the stream position. -/
def BlobPatchEntry (cfg : Config) (bss_base_ : Int) (segment_base : Nat)
    (payload_stream_start : Nat) (insns : RawObject) (code : RawCode)
    (stream : WriteStream) : WriteStream :=
  let current_stream_position := stream.Position
  let stream := BlobPatchRelocations cfg bss_base_ segment_base payload_stream_start
    insns code.bss_relocations stream
  stream.SetPosition current_stream_position

/-- Body of the entry loop of `BlobImageWriter::WriteText` for entry `i`;
`namer` is `AssemblyCodeNamer::AssemblyNameFor`. Dereferencing a null
`insns_` or `code_` is `none`. -/
def BlobWriteTextEntry (cfg : Config) (namer : Nat → RawCode → String) (bss_base_ : Int)
    (segment_base : Nat) (i : Nat) (st : BlobTextState) (data : InstructionsData) :
    Option BlobTextState :=
  match data.trampoline_bytes with
  | some trampoline_bytes =>
    some { st with stream := st.stream.WriteBytes trampoline_bytes data.trampline_length,
                   text_offset := st.text_offset + data.trampline_length }
  | none =>
    match data.raw_insns_, data.raw_code_ with
    | some insns, some code =>
      let dwarf_ :=
        if cfg.DART_PRECOMPILER then
          match st.elf_, st.dwarf_ with
          | some _, some dwarf =>
            some (dwarf.AddCode code
              (segment_base + (st.stream.bytes_written + cfg.InstructionsHeaderSize)))
          | _, _ => st.dwarf_
        else st.dwarf_
      let marked_tags := insns.tags_
      let marked_tags := BitFieldUpdate cfg.kOldBit true marked_tags
      let marked_tags := BitFieldUpdate cfg.kOldAndNotMarkedBit false marked_tags
      let marked_tags := BitFieldUpdate cfg.kOldAndNotRememberedBit true marked_tags
      let marked_tags := BitFieldUpdate cfg.kNewBit false marked_tags
      let marked_tags :=
        if cfg.HASH_IN_OBJECT_HEADER then marked_tags ||| (insns.hash_ <<< 32)
        else marked_tags
      let written := BlobWriteInstructions cfg st.stream st.text_offset insns marked_tags
      let stream := written.1
      let payload_stream_start := written.2.1
      let text_offset := written.2.2
      if cfg.DART_PRECOMPILER then
        let elf_ :=
          match st.elf_, st.dwarf_ with
          | some elf, some _ =>
            some (elf.AddStaticSymbol elf.next_section_index (namer i code)
              (segment_base + payload_stream_start))
          | _, _ => st.elf_
        let stream :=
          match st.elf_ with
          | some _ =>
            BlobPatchEntry cfg bss_base_ segment_base payload_stream_start insns code stream
          | none => stream
        some { stream := stream, elf_ := elf_, dwarf_ := dwarf_, text_offset := text_offset }
      else
        some { stream := stream, elf_ := st.elf_, dwarf_ := dwarf_, text_offset := text_offset }
    | _, _ => none

/-- The entry loop of `BlobImageWriter::WriteText`, from index `i` on. -/
def BlobWriteTextLoop (cfg : Config) (namer : Nat → RawCode → String) (bss_base_ : Int)
    (segment_base : Nat) : Nat → BlobTextState → List InstructionsData → Option BlobTextState
  | _, st, [] => some st
  | i, st, data :: rest =>
    match BlobWriteTextEntry cfg namer bss_base_ segment_base i st data with
    | none => none
    | some st1 => BlobWriteTextLoop cfg namer bss_base_ segment_base (i + 1) st1 rest

/-- The reserved header words written by the `for` loop after the two header
fields; `count` is `header_words - Image::kHeaderFields`. -/
def WriteReservedHeaderWords (cfg : Config) : Nat → WriteStream → WriteStream
  | 0, stream => stream
  | count + 1, stream => WriteReservedHeaderWords cfg count (stream.WriteTargetWord cfg 0)

/-- The local `segment_base` of `BlobImageWriter::WriteText`. -/
def BlobSegmentBase (cfg : Config) (bw : BlobImageWriter) : Nat :=
  match (if cfg.DART_PRECOMPILER then bw.elf_ else none) with
  | some elf => elf.next_memory_offset
  | none => 0

/-- The state at the start of the entry loop of `BlobImageWriter::WriteText`:
the section header has been written. -/
def BlobWriteTextHeader (cfg : Config) (bw : BlobImageWriter) : BlobTextState :=
  let instructions_length := bw.writer.next_text_offset_
  let segment_base := BlobSegmentBase cfg bw
  let stream := bw.instructions_blob_stream_.WriteTargetWord cfg instructions_length
  let stream :=
    if cfg.DART_PRECOMPILER then
      stream.WriteTargetWord cfg
        (match bw.elf_ with
         | some _ => toTargetUword cfg (bw.bss_base_ - (segment_base : Int))
         | none => 0)
    else stream.WriteTargetWord cfg 0
  let header_words := cfg.kHeaderSize / cfg.targetWordSize
  let stream := WriteReservedHeaderWords cfg (header_words - cfg.kHeaderFields) stream
  { stream := stream, elf_ := bw.elf_, dwarf_ := bw.dwarf_, text_offset := 0 }

/-- Method `BlobImageWriter::WriteText`; a trampoline buffer is released once
written (`trampoline_bytes = nullptr`). -/
def BlobWriteText (cfg : Config) (namer : Nat → RawCode → String) (bw : BlobImageWriter)
    (vm : Bool) : Option BlobImageWriter :=
  match BlobWriteTextLoop cfg namer bw.bss_base_ (BlobSegmentBase cfg bw) 0
      (BlobWriteTextHeader cfg bw) bw.writer.instructions_ with
  | none => none
  | some st =>
    let instructions_symbol :=
      if vm then "_kDartVmSnapshotInstructions" else "_kDartIsolateSnapshotInstructions"
    let elf_ :=
      if cfg.DART_PRECOMPILER then
        match st.elf_ with
        | some elf =>
          some (elf.AddText instructions_symbol st.stream.buffer st.stream.bytes_written)
        | none => none
      else st.elf_
    some { bw with
      writer := { bw.writer with
        instructions_ := bw.writer.instructions_.map (fun data =>
          { data with trampoline_bytes := none }) },
      instructions_blob_stream_ := st.stream,
      elf_ := elf_,
      dwarf_ := st.dwarf_ }

/-- An entry as built by one of the two constructors of `InstructionsData`: a
trampoline buffer, or an instructions object together with its code. -/
def EntryOk (data : InstructionsData) : Prop :=
  data.trampoline_bytes.isSome = true ∨
    (data.raw_insns_.isSome = true ∧ data.raw_code_.isSome = true)

/-- The value of `payload_stream_start` for a code-backed entry whose first
byte goes to stream position `position`. -/
def PayloadStreamStart (cfg : Config) (position : Nat) : Nat :=
  if cfg.IS_SIMARM_X64 then position + cfg.targetWordSize + 4 + 4
  else position + cfg.InstructionsHeaderSize

/-- Instructions object of 16 payload bytes whose payload word at offset 8
holds the addend 40. -/
def exampleRelocInstructions : RawObject :=
  { addr := 20480, tags_ := 0, class_id := ClassId.kInstructionsCid, heap_size := 32,
    length_ := 16, mem := fun i => if i = 24 then 40 else 0 }

/-- Code block with one BSS relocation at payload offset 8. -/
def exampleRelocCode : RawCode :=
  { addr := 24576, instructions_ := exampleRelocInstructions, bss_relocations := [8] }

/-- A trampoline of 16 bytes. -/
def exampleTrampolineEntry : InstructionsData :=
  InstructionsData.ofTrampoline (fun _ => 204) 16 16

/-- The code-backed entry of `exampleRelocCode`. -/
def exampleRelocEntry : InstructionsData :=
  InstructionsData.ofCode exampleRelocInstructions exampleRelocCode 32

/-- A symbol namer that ignores its arguments. -/
def exampleNamer : Nat → RawCode → String := fun _ _ => "Precompiled_example"

/-- A linkable-object collaborator whose next memory offset is 4096. -/
def exampleElf : Elf := { next_memory_offset := 4096 }

/-- Blob writer with a trampoline and a relocated code block, with or without
the linkable-object collaborator. -/
def exampleBlobWriter (elf : Option Elf) : BlobImageWriter :=
  { writer :=
      { heap_ := exampleHeap, next_data_offset_ := 16, next_text_offset_ := 64, objects_ := [],
        instructions_ := [exampleTrampolineEntry, exampleRelocEntry] },
    instructions_blob_stream_ := { buffer := fun _ => 0, current := 0 },
    elf_ := elf, dwarf_ := none, bss_base_ := 65536 }

/-! ## Content index trait -/

/-- Pair `ObjectOffsetPair`: an object and the offset assigned to it. -/
structure ObjectOffsetPair where
  object : RawObject
  offset : Nat

/-- The loop of `ObjectOffsetTrait::Hashcode`: `cursor` and `end_` are byte
offsets from the start of the object; the first argument bounds the number
of iterations (`end_ - body` suffices since every iteration advances by 4). -/
def HashcodeLoop (cfg : Config) (obj : RawObject) (end_ : Nat) : Nat → Nat → Nat → Nat
  | 0, _, hash => hash
  | fuel + 1, cursor, hash =>
    if cursor < end_ then
      HashcodeLoop cfg obj end_ fuel (cursor + 4)
        (cfg.CombineHashes hash (readFixed obj.mem cursor 4))
    else hash

/-- Function `ObjectOffsetTrait::Hashcode`. -/
def ObjectOffsetTrait.Hashcode (cfg : Config) (key : RawObject) : Nat :=
  let obj := key
  let body := cfg.sizeofRawObject
  let end_ := obj.HeapSize
  let hash := cfg.ClassIdValue obj.GetClassId
  let hash := HashcodeLoop cfg obj end_ (end_ - body) body hash
  cfg.FinalizeHash hash 30

/-- Function `memcmp` on `n` bytes at `p1` of `m1` and at `p2` of `m2`: zero
when equal, otherwise the sign of the first difference. -/
def memcmp (m1 : Nat → Nat) (p1 : Nat) (m2 : Nat → Nat) (p2 : Nat) : Nat → Int
  | 0 => 0
  | n + 1 =>
    if m1 p1 < m2 p2 then -1
    else if m2 p2 < m1 p1 then 1
    else memcmp m1 (p1 + 1) m2 (p2 + 1) n

/-- Function `ObjectOffsetTrait::IsKeyEqual`; `body_size` is a `uword`, so the
subtraction wraps modulo the word size. -/
def ObjectOffsetTrait.IsKeyEqual (cfg : Config) (pair : ObjectOffsetPair) (key : RawObject) :
    Bool :=
  let a := pair.object
  let b := key
  if a.GetClassId ≠ b.GetClassId then false
  else
    let heap_size := a.HeapSize
    if b.HeapSize ≠ heap_size then false
    else
      let body_a := cfg.sizeofRawObject
      let body_b := cfg.sizeofRawObject
      let body_size :=
        (heap_size + 256 ^ cfg.kWordSize - cfg.sizeofRawObject) % 256 ^ cfg.kWordSize
      decide (0 = memcmp a.mem body_a b.mem body_b body_size)

/-- Modelled from the spec: the Content Index (`ObjectOffsetMap`, an
instance of the hash map template of `hash_map.h`, which is not among the
sources): pairs in insertion order; a lookup returns the offset of the first
pair in the bucket of the key's hash whose key is equal to the looked-up key
("keyed by (type tag, byte length, byte content excluding header)"). -/
structure ObjectOffsetMap where
  pairs : List ObjectOffsetPair

/-- Modelled from the spec: insertion into the Content Index. -/
def ObjectOffsetMap.Insert (map : ObjectOffsetMap) (pair : ObjectOffsetPair) : ObjectOffsetMap :=
  { pairs := map.pairs ++ [pair] }

/-- Modelled from the spec: lookup in the Content Index. -/
def ObjectOffsetMap.LookupValue (cfg : Config) (map : ObjectOffsetMap) (key : RawObject) :
    Option Nat :=
  (map.pairs.find? (fun pair =>
    ObjectOffsetTrait.Hashcode cfg pair.object == ObjectOffsetTrait.Hashcode cfg key &&
      ObjectOffsetTrait.IsKeyEqual cfg pair key)).map (fun pair => pair.offset)

/-- Two strings "hi" at different addresses, one of them pre-marked. -/
def exampleKeyA : RawObject :=
  { addr := 28672, tags_ := 0, class_id := ClassId.kOneByteStringCid, heap_size := 16,
    length_ := 2, mem := fun i => if i = 8 then 104 else if i = 9 then 105 else 0 }

/-- The second copy of the string, with a marked header. -/
def exampleKeyB : RawObject :=
  { addr := 32768, tags_ := 24, class_id := ClassId.kOneByteStringCid, heap_size := 16,
    length_ := 2,
    mem := fun i => if i = 0 then 24 else if i = 8 then 104 else if i = 9 then 105 else 0 }

/-! ## Image reader -/

/-- Helper `Utils::IsAligned(x, n)` for a power of two `n`. -/
def IsAligned (x n : Nat) : Bool := x % n == 0

/-- State of an `ImageReader`: the two base pointers, as addresses. -/
structure ImageReader where
  data_image_ : Nat
  instructions_image_ : Nat

/-- Method `ImageReader::VerifyAlignment`: `none` is `ApiError::null()`, `some`
is the `ApiError` with the given message. -/
def ImageReader.VerifyAlignment (cfg : Config) (reader : ImageReader) : Option String :=
  if !IsAligned reader.data_image_ cfg.kObjectAlignment ||
      !IsAligned reader.instructions_image_ cfg.kMaxObjectAlignment then
    some "Snapshot is misaligned"
  else none

/-- Modelled from the spec: `RawObject::FromAddr` (declared in `raw_object.h`,
which is not among the sources). An object pointer is identified with the
address of the object it points to ("a pointer computed as `base + offset`");
the tag bit of the pointer representation is not modelled. -/
def RawObject.FromAddr (addr : Nat) : Nat := addr

/-- Method `ImageReader::GetInstructionsAt`; the sum is a `uword` and wraps
around at the size of the address space. -/
def ImageReader.GetInstructionsAt (cfg : Config) (reader : ImageReader) (offset : Nat) : Nat :=
  RawObject.FromAddr ((reader.instructions_image_ + offset) % 256 ^ cfg.kWordSize)

/-- Method `ImageReader::GetObjectAt`; the sum is a `uword` and wraps around
at the size of the address space. -/
def ImageReader.GetObjectAt (cfg : Config) (reader : ImageReader) (offset : Nat) : Nat :=
  RawObject.FromAddr ((reader.data_image_ + offset) % 256 ^ cfg.kWordSize)

/-- A reader whose two images are mapped at aligned addresses. -/
def exampleReader : ImageReader := { data_image_ := 65536, instructions_image_ := 131072 }

/-! ## More concrete inputs -/

/-- A plain mutable list: a class outside the serializable set. -/
def exampleArray : RawObject :=
  { addr := 36864, tags_ := 0, class_id := ClassId.kOtherCid 78, heap_size := 32, length_ := 2 }

/-- The writer state after registering `exampleArray` on a fresh writer of the
same-word-size build. -/
def exampleArrayWriter : ImageWriter :=
  { heap_ := exampleHeap, next_data_offset_ := 48, next_text_offset_ := 16,
    objects_ := [{ raw_obj_ := exampleArray }], instructions_ := [] }

/-- Instructions object with 40 payload bytes and 64 bytes on the heap. -/
def exampleInstructions40 : RawObject :=
  { addr := 40960, tags_ := 0, class_id := ClassId.kInstructionsCid, heap_size := 64,
    length_ := 40 }

/-- Code block owning `exampleInstructions40`. -/
def exampleCode40 : RawCode := { addr := 45056, instructions_ := exampleInstructions40 }

/-! ## Symbol names -/

/-- The test in the loop of `EnsureAssemblerIdentifier`: an ASCII letter or
digit. -/
def IsAssemblerAlnum (c : Char) : Bool :=
  (decide ('a' ≤ c) && decide (c ≤ 'z')) || (decide ('A' ≤ c) && decide (c ≤ 'Z')) ||
    (decide ('0' ≤ c) && decide (c ≤ '9'))

/-- Function `EnsureAssemblerIdentifier` on the characters of the buffer
`label`: the loop stops at the terminating NUL (or at the end of the list)
and leaves what follows untouched. -/
def EnsureAssemblerIdentifier : List Char → List Char
  | [] => []
  | c :: rest =>
    if c = Char.ofNat 0 then c :: rest
    else if IsAssemblerAlnum c then c :: EnsureAssemblerIdentifier rest
    else '_' :: EnsureAssemblerIdentifier rest

/-- The C string held by a buffer: the characters before the first NUL, which
is what a `%s` conversion prints. -/
def CString (buffer : List Char) : List Char :=
  buffer.takeWhile (fun c => c != Char.ofNat 0)

/-- Modelled from the spec: the stub slots of the `ObjectStore` that
`NameOfStubIsolateSpecificStub` compares a code block with; each holds the
identity of a code block. -/
structure ObjectStore where
  build_method_extractor_code : Nat
  null_error_stub_with_fpu_regs_stub : Nat
  null_error_stub_without_fpu_regs_stub : Nat
  stack_overflow_stub_with_fpu_regs_stub : Nat
  stack_overflow_stub_without_fpu_regs_stub : Nat
  write_barrier_wrappers_stub : Nat
  array_write_barrier_stub : Nat

/-- Static function `NameOfStubIsolateSpecificStub`; `nullptr` is `none`. -/
def NameOfStubIsolateSpecificStub (object_store : ObjectStore) (code : RawCode) :
    Option String :=
  if code.addr = object_store.build_method_extractor_code then
    some "_iso_stub_BuildMethodExtractorStub"
  else if code.addr = object_store.null_error_stub_with_fpu_regs_stub then
    some "_iso_stub_NullErrorSharedWithFPURegsStub"
  else if code.addr = object_store.null_error_stub_without_fpu_regs_stub then
    some "_iso_stub_NullErrorSharedWithoutFPURegsStub"
  else if code.addr = object_store.stack_overflow_stub_with_fpu_regs_stub then
    some "_iso_stub_StackOverflowStubWithFPURegsStub"
  else if code.addr = object_store.stack_overflow_stub_without_fpu_regs_stub then
    some "_iso_stub_StackOverflowStubWithoutFPURegsStub"
  else if code.addr = object_store.write_barrier_wrappers_stub then
    some "_iso_stub_WriteBarrierWrappersStub"
  else if code.addr = object_store.array_write_barrier_stub then
    some "_iso_stub_ArrayWriteBarrierStub"
  else none

/-- State of an `AssemblyCodeNamer`: the object store, and the table behind
`StubCode::NameOfStub` (by instructions object; `nullptr` is `none`). The
handles `owner_`, `string_` and `insns_` are scratch space. -/
structure AssemblyCodeNamer where
  store_ : ObjectStore
  NameOfStub : RawObject → Option (List Char)

/-- Method `AssemblyCodeNamer::AssemblyNameFor`: the characters of the string
built by `OS::SCreate`; the index is printed in decimal (`%" Pd "`). `none`
is the `UNREACHABLE()` branch, or a stub without a name (formatting a null
pointer). -/
def AssemblyCodeNamer.AssemblyNameFor (namer : AssemblyCodeNamer) (code_index : Nat)
    (code : RawCode) : Option (List Char) :=
  match code.owner_ with
  | CodeOwner.null =>
    match namer.NameOfStub code.instructions_ with
    | some name => some (String.toList "Precompiled_Stub_" ++ CString name)
    | none =>
      match NameOfStubIsolateSpecificStub namer.store_ code with
      | some name => some (String.toList "Precompiled__" ++ CString name.toList)
      | none => none
  | CodeOwner.cls name =>
    let name := EnsureAssemblerIdentifier name
    some (String.toList "Precompiled_AllocationStub_" ++ CString name ++ String.toList "_" ++
      Nat.toDigits 10 code_index)
  | CodeOwner.abstractType name => some (String.toList "Precompiled_" ++ CString name)
  | CodeOwner.function name =>
    let name := EnsureAssemblerIdentifier name
    some (String.toList "Precompiled_" ++ CString name ++ String.toList "_" ++
      Nat.toDigits 10 code_index)
  | CodeOwner.other => none

/-- An object store whose stub slots hold the identities 1 to 7. -/
def exampleObjectStore : ObjectStore :=
  { build_method_extractor_code := 1, null_error_stub_with_fpu_regs_stub := 2,
    null_error_stub_without_fpu_regs_stub := 3, stack_overflow_stub_with_fpu_regs_stub := 4,
    stack_overflow_stub_without_fpu_regs_stub := 5, write_barrier_wrappers_stub := 6,
    array_write_barrier_stub := 7 }

/-- A namer that knows no shared stub. -/
def exampleCodeNamer : AssemblyCodeNamer :=
  { store_ := exampleObjectStore, NameOfStub := fun _ => none }

/-- A code block owned by the function `A.f<T>`; the buffer holds the NUL
terminator and a stale character after it. -/
def exampleFunctionCode : RawCode :=
  { addr := 49152, instructions_ := exampleInstructions,
    owner_ := CodeOwner.function ['A', '.', 'f', '<', 'T', '>', Char.ofNat 0, '!'] }

/-! ## Assembly backend -/

/-- One line of the assembly stream: a word literal (`WriteWordLiteralText`),
the relocation expression `bss_symbol - (.) + addend`, a label, or any other
directive. -/
inductive AssemblyLine where
  | wordLiteral (value : Nat)
  | bssRelocation (bss_symbol : String) (addend : Nat)
  | label (name : List Char)
  | directive (text : String)
  deriving DecidableEq

/-- Modelled from the spec: `AssemblyImageWriter::WriteWordLiteralText`
(defined in `image_snapshot.h`, which is not among the sources): appends one
word-literal directive holding the value as a target word. -/
def WriteWordLiteralText (cfg : Config) (out : List AssemblyLine) (value : Nat) :
    List AssemblyLine :=
  out ++ [AssemblyLine.wordLiteral (value % 256 ^ cfg.targetWordSize)]

/-- The loop of `AssemblyImageWriter::WriteByteSequence`: `cursor` and `end_`
are offsets into the memory `mem`; the first argument bounds the number of
iterations (`end_ - start` suffices, every iteration advances by a word). -/
def AssemblyWriteByteSequenceLoop (cfg : Config) (mem : Nat → Nat) (end_ : Nat) :
    Nat → Nat → List AssemblyLine → List AssemblyLine
  | 0, _, out => out
  | fuel + 1, cursor, out =>
    if cursor < end_ then
      AssemblyWriteByteSequenceLoop cfg mem end_ fuel (cursor + cfg.targetWordSize)
        (WriteWordLiteralText cfg out (readFixed mem cursor cfg.targetWordSize))
    else out

/-- Method `AssemblyImageWriter::WriteByteSequence(start, end)`: the stream
and the returned `end - start`. -/
def AssemblyWriteByteSequence (cfg : Config) (mem : Nat → Nat) (start end_ : Nat)
    (out : List AssemblyLine) : List AssemblyLine × Nat :=
  (AssemblyWriteByteSequenceLoop cfg mem end_ (end_ - start) start out, end_ - start)

/-- Modelled from the spec: `Dwarf::AddCode(code)` of the assembly path
("optionally forward the code to the debug-info collaborator"): records the
code block and returns its index. -/
def Dwarf.AddCodeIndex (dwarf : Dwarf) (code : RawCode) : Nat × Dwarf :=
  (dwarf.codes.length, { codes := dwarf.codes ++ [(code, 0)] })

/-- The payload loop of `AssemblyImageWriter::WriteText` in the precompiler
build: `cursor` is `cursor - payload_start`, the list holds the pc offsets
that the relocation iterator has not returned yet (its head is
`next_reloc_offset`, the empty list is the sentinel `-1`); the first argument
bounds the number of iterations. -/
def AssemblyWritePayload (cfg : Config) (bss_symbol : String) (insns : RawObject)
    (payload_size : Nat) : Nat → Nat → List Nat → List AssemblyLine → List AssemblyLine
  | 0, _, _, out => out
  | fuel + 1, cursor, relocs, out =>
    if cursor < payload_size then
      let data := readFixed insns.mem (cfg.InstructionsHeaderSize + cursor) cfg.targetWordSize
      match relocs with
      | next_reloc_offset :: rest =>
        if cursor = next_reloc_offset then
          AssemblyWritePayload cfg bss_symbol insns payload_size fuel
            (cursor + cfg.targetWordSize) rest
            (out ++ [AssemblyLine.bssRelocation bss_symbol data])
        else
          AssemblyWritePayload cfg bss_symbol insns payload_size fuel
            (cursor + cfg.targetWordSize) relocs (WriteWordLiteralText cfg out data)
      | [] =>
        AssemblyWritePayload cfg bss_symbol insns payload_size fuel
          (cursor + cfg.targetWordSize) [] (WriteWordLiteralText cfg out data)
    else out

/-- The padding loop `while (alignment_size > 0)` of
`AssemblyImageWriter::WriteText`: the stream and `text_offset` after it. The
counter is a host `uword`, so the subtraction wraps around; the first argument
bounds the number of iterations and `none` means that the loop is still
running after that many. -/
def AssemblyWritePadding (cfg : Config) :
    Nat → Nat → List AssemblyLine → Nat → Option (List AssemblyLine × Nat)
  | 0, alignment_size, out, text_offset =>
    if alignment_size > 0 then none else some (out, text_offset)
  | fuel + 1, alignment_size, out, text_offset =>
    if alignment_size > 0 then
      AssemblyWritePadding cfg fuel
        ((alignment_size + 256 ^ cfg.kWordSize - cfg.targetWordSize) % 256 ^ cfg.kWordSize)
        (WriteWordLiteralText cfg out cfg.BreakInstructionFiller)
        (text_offset + cfg.targetWordSize)
    else some (out, text_offset)

/-- The part of the state that the entry loop of
`AssemblyImageWriter::WriteText` changes: the assembly stream, the debug-info
collaborator and the local `text_offset`. -/
structure AssemblyTextState where
  assembly_stream_ : List AssemblyLine
  dwarf_ : Option Dwarf
  text_offset : Nat

/-- Step 1 of the entry loop of `AssemblyImageWriter::WriteText` for a
code-backed entry: the object header and the fixed fields; the stream and
`text_offset` after it. -/
def AssemblyWriteHeader (cfg : Config) (out : List AssemblyLine) (text_offset : Nat)
    (insns : RawObject) : List AssemblyLine × Nat :=
  let marked_tags := insns.tags_
  let marked_tags := BitFieldUpdate cfg.kOldBit true marked_tags
  let marked_tags := BitFieldUpdate cfg.kOldAndNotMarkedBit false marked_tags
  let marked_tags := BitFieldUpdate cfg.kOldAndNotRememberedBit true marked_tags
  let marked_tags := BitFieldUpdate cfg.kNewBit false marked_tags
  let marked_tags :=
    if cfg.HASH_IN_OBJECT_HEADER then marked_tags ||| (insns.hash_ <<< 32) else marked_tags
  if cfg.IS_SIMARM_X64 then
    let size_in_bytes := InstructionsSizeInSnapshot cfg insns.length_
    let marked_tags := cfg.SizeTagUpdate (size_in_bytes * 2) marked_tags
    let out := WriteWordLiteralText cfg out marked_tags
    let text_offset := text_offset + cfg.targetWordSize
    let out := WriteWordLiteralText cfg out insns.flags_and_size_
    let text_offset := text_offset + cfg.targetWordSize
    let out := WriteWordLiteralText cfg out insns.unchecked_entrypoint_pc_offset_
    let text_offset := text_offset + cfg.targetWordSize
    (out, text_offset)
  else
    let object_start := 0
    let payload_start := cfg.InstructionsHeaderSize
    let out := WriteWordLiteralText cfg out marked_tags
    let object_start := object_start + cfg.kWordSize
    let text_offset := text_offset + cfg.kWordSize
    let written := AssemblyWriteByteSequence cfg insns.mem object_start payload_start out
    (written.1, text_offset + written.2)

/-- The `#ifdef DART_PRECOMPILER` block before step 2 of the entry loop: the
index used in the label (`dwarf_index`) and the debug-info collaborator. -/
def AssemblyAddCode (cfg : Config) (i : Nat) (dwarf_ : Option Dwarf) (code : RawCode) :
    Nat × Option Dwarf :=
  if cfg.DART_PRECOMPILER then
    match dwarf_ with
    | some dwarf => ((dwarf.AddCodeIndex code).1, some (dwarf.AddCodeIndex code).2)
    | none => (i, none)
  else (i, dwarf_)

/-- Step 3 of the entry loop: the payload, from `payload_start` to
`payload_end`; the stream and `text_offset` after it. -/
def AssemblyWritePayloadStep (cfg : Config) (bss_symbol : String) (insns : RawObject)
    (code : RawCode) (out : List AssemblyLine) (text_offset : Nat) :
    List AssemblyLine × Nat :=
  let payload_start := cfg.InstructionsHeaderSize
  let payload_size := RoundUp insns.length_ cfg.targetWordSize
  let payload_end := payload_start + payload_size
  if cfg.DART_PRECOMPILER then
    (AssemblyWritePayload cfg bss_symbol insns payload_size payload_size 0
      code.bss_relocations out, text_offset + payload_size)
  else
    let written := AssemblyWriteByteSequence cfg insns.mem payload_start payload_end out
    (written.1, text_offset + written.2)

/-- Step 4 of the entry loop: the padding from the payload end to the object
end. -/
def AssemblyWriteAlignment (cfg : Config) (insns : RawObject) (out : List AssemblyLine)
    (text_offset : Nat) : Option (List AssemblyLine × Nat) :=
  let payload_size := RoundUp insns.length_ cfg.targetWordSize
  let unaligned_size := cfg.targetInstructionsHeaderSize + payload_size
  let alignment_size := RoundUp unaligned_size cfg.targetObjectAlignment - unaligned_size
  AssemblyWritePadding cfg alignment_size alignment_size out text_offset

/-- Body of the entry loop of `AssemblyImageWriter::WriteText` for entry `i`
(`bss_symbol` exists in the precompiler build only). `none` is the
dereference of a null `insns_` or `code_`, a code block without a name, or a
padding loop that does not come to its end. The calls of `profile_writer_`
only feed the size profile and are left out. -/
def AssemblyWriteTextEntry (cfg : Config) (namer : AssemblyCodeNamer) (bss_symbol : String)
    (i : Nat) (st : AssemblyTextState) (data : InstructionsData) :
    Option AssemblyTextState :=
  match data.trampoline_bytes with
  | some trampoline_bytes =>
    let start := 0
    let end_ := start + data.trampline_length
    let written := AssemblyWriteByteSequence cfg trampoline_bytes start end_ st.assembly_stream_
    some { st with assembly_stream_ := written.1, text_offset := st.text_offset + written.2 }
  | none =>
    match data.raw_insns_, data.raw_code_ with
    | some insns, some code =>
      let header := AssemblyWriteHeader cfg st.assembly_stream_ st.text_offset insns
      let added := AssemblyAddCode cfg i st.dwarf_ code
      let dwarf_index := added.1
      match namer.AssemblyNameFor dwarf_index code with
      | none => none
      | some name =>
        let out := header.1 ++ [AssemblyLine.label name]
        let payload := AssemblyWritePayloadStep cfg bss_symbol insns code out header.2
        match AssemblyWriteAlignment cfg insns payload.1 payload.2 with
        | none => none
        | some padded =>
          some { assembly_stream_ := padded.1, dwarf_ := added.2, text_offset := padded.2 }
    | _, _ => none

/-- The entry loop of `AssemblyImageWriter::WriteText`, from index `i` on. The
section header before it, the frame-unwind directives around it and the data
section after it do not depend on the entries and are left out, and so is the
release of a trampoline buffer once it is written, which does not show in the
output. -/
def AssemblyWriteTextLoop (cfg : Config) (namer : AssemblyCodeNamer) (bss_symbol : String) :
    Nat → AssemblyTextState → List InstructionsData → Option AssemblyTextState
  | _, st, [] => some st
  | i, st, data :: rest =>
    match AssemblyWriteTextEntry cfg namer bss_symbol i st data with
    | none => none
    | some st1 => AssemblyWriteTextLoop cfg namer bss_symbol (i + 1) st1 rest

/-! ## The driver `ImageWriter::Write` -/

/-- The first loop of `ImageWriter::Write`: every entry that is not a
trampoline has the object id of its instructions reset to 0. The handles
`insns_`, `code_` and `obj_` created here are the same objects as the raw
pointers; a code-backed entry without instructions is `none`. The heap of the
current isolate is the heap that the writer was constructed with. -/
def WriteResetObjectIds (heap : Heap) : List InstructionsData → Option Heap
  | [] => some heap
  | data :: rest =>
    let is_trampoline := data.trampoline_bytes.isSome
    if is_trampoline then WriteResetObjectIds heap rest
    else
      match data.raw_insns_ with
      | none => none
      | some insns => WriteResetObjectIds (heap.SetObjectId insns 0) rest

/-- Method `ImageWriter::Write`. The virtual `WriteText` of the backend is a
parameter: it receives the writer and the clustered stream and returns the
writer together with the output of the backend. The result is the writer, the
clustered stream with the data section appended, and that output. The member
`offset_space_` only feeds the size profile and is not part of the state. -/
def ImageWriter.Write {β : Type} (cfg : Config)
    (WriteText : ImageWriter → WriteStream → Bool → Option (ImageWriter × β))
    (w : ImageWriter) (clustered_stream : WriteStream) (vm : Bool) :
    Option (ImageWriter × WriteStream × β) :=
  match WriteResetObjectIds w.heap_ w.instructions_ with
  | none => none
  | some heap =>
    let w := { w with heap_ := heap }
    match WriteROData cfg w clustered_stream with
    | none => none
    | some clustered_stream =>
      match WriteText w clustered_stream vm with
      | none => none
      | some written => some (written.1, clustered_stream, written.2)

/-- The virtual `WriteText` of a `BlobImageWriter` whose own members are those
of `bw`. -/
def BlobImageWriter.WriteText (cfg : Config) (namer : Nat → RawCode → String)
    (bw : BlobImageWriter) (w : ImageWriter) (_clustered_stream : WriteStream) (vm : Bool) :
    Option (ImageWriter × BlobImageWriter) :=
  match BlobWriteText cfg namer { bw with writer := w } vm with
  | none => none
  | some bw1 => some (bw1.writer, bw1)

/-! ## Expected output of the writers -/

/-- The four bit updates of the header, in the order in which each of the
three writers applies them, and the fold of the cached hash. -/
def MarkedTags (cfg : Config) (tags hash : Nat) : Nat :=
  let marked_tags := BitFieldUpdate cfg.kOldBit true tags
  let marked_tags := BitFieldUpdate cfg.kOldAndNotMarkedBit false marked_tags
  let marked_tags := BitFieldUpdate cfg.kOldAndNotRememberedBit true marked_tags
  let marked_tags := BitFieldUpdate cfg.kNewBit false marked_tags
  if cfg.HASH_IN_OBJECT_HEADER then marked_tags ||| (hash <<< 32) else marked_tags

/-- The header that a writer emits for an object of snapshot size
`size_in_bytes`: the marked header, with the size tag recalculated in the
cross-word-size build. -/
def EmittedTags (cfg : Config) (tags hash size_in_bytes : Nat) : Nat :=
  if cfg.IS_SIMARM_X64 then cfg.SizeTagUpdate (size_in_bytes * 2) (MarkedTags cfg tags hash)
  else MarkedTags cfg tags hash

/-- The line expected for payload word `k`: the relocation expression when the
offset of the word is a relocation position, a literal otherwise. -/
def PayloadLine (cfg : Config) (bss_symbol : String) (insns : RawObject) (relocs : List Nat)
    (k : Nat) : AssemblyLine :=
  let data :=
    readFixed insns.mem (cfg.InstructionsHeaderSize + k * cfg.targetWordSize) cfg.targetWordSize
  if k * cfg.targetWordSize ∈ relocs then AssemblyLine.bssRelocation bss_symbol data
  else AssemblyLine.wordLiteral (data % 256 ^ cfg.targetWordSize)

/-- Constraints between the constants of a build that the text entries of the
assembly backend rely on: the target word size is positive and divides the
target alignment and the target instructions header size, the padding counter
fits a host word, and the header written in step 1 has the target header size
(three target words in the cross-word-size build; host and target agree
otherwise). -/
def TextLayoutOk (cfg : Config) : Prop :=
  0 < cfg.targetWordSize ∧ 0 < cfg.targetObjectAlignment ∧
    cfg.targetWordSize ∣ cfg.targetObjectAlignment ∧
    cfg.targetWordSize ∣ cfg.targetInstructionsHeaderSize ∧
    cfg.targetObjectAlignment ≤ 256 ^ cfg.kWordSize ∧
    (if cfg.IS_SIMARM_X64 then 3 * cfg.targetWordSize = cfg.targetInstructionsHeaderSize
     else cfg.kWordSize ≤ cfg.InstructionsHeaderSize ∧
       cfg.InstructionsHeaderSize = cfg.targetInstructionsHeaderSize)

/-- Code block of the function `A.f<T>` with one BSS relocation at payload
offset 8. -/
def exampleAssemblyCode : RawCode :=
  { addr := 57344, instructions_ := exampleRelocInstructions, bss_relocations := [8],
    owner_ := CodeOwner.function ['A', '.', 'f', '<', 'T', '>', Char.ofNat 0, '!'] }

/-- The same code block with its two relocation positions 8 and 0 listed in
descending order. -/
def exampleUnsortedCode : RawCode :=
  { exampleAssemblyCode with bss_relocations := [8, 0] }

/-- The same code block with a relocation position in the middle of the first
payload word. -/
def exampleUnalignedCode : RawCode :=
  { exampleAssemblyCode with bss_relocations := [4] }

/-- Instructions object of 20 payload bytes: heap size 48 with header size 16
and alignment 16. -/
def exampleInstructions20 : RawObject :=
  { addr := 61440, tags_ := 0, class_id := ClassId.kInstructionsCid, heap_size := 48,
    length_ := 20, mem := fun i => if i = 16 then 7 else 0 }

/-- Code block of `exampleInstructions20`, owned by the class `List`. -/
def exampleCode20 : RawCode :=
  { addr := 65536, instructions_ := exampleInstructions20,
    owner_ := CodeOwner.cls ['L', 'i', 's', 't'] }

/-- The state at the start of the entry loop of the examples. -/
def exampleAssemblyState : AssemblyTextState :=
  { assembly_stream_ := [], dwarf_ := none, text_offset := 0 }

/-! ## Expected result of a command list -/

/-- The size that a command adds to the text section: `SizeInSnapshot` of the
instructions for a code block (0 where it is undefined), the buffer length
for a trampoline. -/
def CommandSize (cfg : Config) : ImageWriterCommand → Nat
  | .InsertInstructionOfCode _ code => (SizeInSnapshot cfg (Code.InstructionsOf code)).getD 0
  | .InsertBytesOfTrampoline _ _ buffer_length => buffer_length

/-- The sum of the sizes of the commands of a list. -/
def CommandSizeSum (cfg : Config) : List ImageWriterCommand → Nat
  | [] => 0
  | c :: rest => CommandSize cfg c + CommandSizeSum cfg rest

/-- The entry that a command appends when the text cursor is `offset`. -/
def CommandEntry (offset : Nat) : ImageWriterCommand → InstructionsData
  | .InsertInstructionOfCode _ code =>
    InstructionsData.ofCode (Code.InstructionsOf code) code offset
  | .InsertBytesOfTrampoline _ buffer buffer_length =>
    InstructionsData.ofTrampoline buffer buffer_length offset

/-- The entries expected for a command list processed from the text cursor
`start` on: each command gets the cursor left by the commands before it. -/
def CommandEntries (cfg : Config) : Nat → List ImageWriterCommand → List InstructionsData
  | _, [] => []
  | start, c :: rest =>
    CommandEntry start c :: CommandEntries cfg (start + CommandSize cfg c) rest

/-- The snapshot size of the instructions that the command inserts is defined
(no fatal error). -/
def CommandSizeDefined (cfg : Config) : ImageWriterCommand → Prop
  | .InsertInstructionOfCode _ code =>
    (SizeInSnapshot cfg (Code.InstructionsOf code)).isSome = true
  | .InsertBytesOfTrampoline _ _ _ => True

/-- Two commands do not insert the same instructions object (what the
`ASSERT` on the object id in `PrepareForSerialization` requires of a later
command). -/
def DistinctInstructions : ImageWriterCommand → ImageWriterCommand → Prop
  | .InsertInstructionOfCode _ code1, .InsertInstructionOfCode _ code2 =>
    (Code.InstructionsOf code1).addr ≠ (Code.InstructionsOf code2).addr
  | _, _ => True

/-- A command list: a code block, a trampoline of 8 bytes and another code
block, with the offsets expected relative to the initial cursor. -/
def exampleCommands : List ImageWriterCommand :=
  [ImageWriterCommand.InsertInstructionOfCode 0 exampleCode40,
   ImageWriterCommand.InsertBytesOfTrampoline 64 (fun _ => 204) 8,
   ImageWriterCommand.InsertInstructionOfCode 72 exampleCode20]

/-- A state of the blob entry loop with the linkable-object collaborator
present: 32 bytes written, text offset 16. -/
def exampleBlobState : BlobTextState :=
  { stream := { buffer := fun _ => 0, current := 32 }, elf_ := some exampleElf,
    dwarf_ := none, text_offset := 16 }

/-! ## Theorems: offset allocator -/

theorem toInt32_of_lt (n : Nat) (h : n < 2 ^ 31) : toInt32 n = (n : Int) := by
  have h2 : n < 2147483648 := by norm_num at h; exact h
  unfold toInt32 Int.bmod
  have h1 : ((n : Int)) % ((2 ^ 32 : Nat) : Int) = (n : Int) := by
    apply Int.emod_eq_of_lt
    · omega
    · norm_num
      omega
  rw [h1]
  have h3 : (n : Int) < (((2 ^ 32 : Nat) : Int) + 1) / 2 := by
    norm_num
    omega
  simp only [h3, if_true]

theorem toUint32_of_lt (n : Nat) (h : n < 2 ^ 32) : toUint32 n = n := by
  unfold toUint32
  exact Nat.mod_eq_of_lt h

theorem SizeInSnapshot_instructions (cfg : Config) (o : RawObject)
    (hcid : o.GetClassId = ClassId.kInstructionsCid) :
    SizeInSnapshot cfg o =
      some (if cfg.IS_SIMARM_X64 then InstructionsSizeInSnapshot cfg o.length_ else o.HeapSize) := by
  unfold SizeInSnapshot
  split <;> simp [hcid]

/-- C1, as stated, fails: in the writer state `w` reached by one registration
of `exampleInstructions` on a fresh writer, two further calls in a row both
return 16 and leave the entry list as long as it was in `w`, so over these two
calls it did not grow by one entry. -/
theorem registered_identity_no_growth_example :
    ∃ (w : ImageWriter) (r1 r2 : Int × ImageWriter),
      GetTextOffsetFor exampleConfig (ImageWriter.Construct exampleConfig exampleHeap)
        exampleInstructions exampleCode = some (16, w) ∧
      GetTextOffsetFor exampleConfig w exampleInstructions exampleCode = some r1 ∧
      GetTextOffsetFor exampleConfig r1.2 exampleInstructions exampleCode = some r2 ∧
      r1.1 = 16 ∧ r2.1 = 16 ∧
      r2.2.instructions_.length = w.instructions_.length ∧
      r2.2.instructions_.length ≠ w.instructions_.length + 1 :=
  ⟨_, _, _, rfl, rfl, rfl, rfl, rfl, rfl, by decide⟩

/-- C1 (amended): for an instructions object and a writer whose text cursor is
non-zero, two calls of `GetTextOffsetFor` in a row return the same offset, the
second call leaves the whole writer state unchanged, and over the two calls the
entry list gains exactly one code-backed entry when the identity had no
offset before, and nothing at all when it already had one. -/
theorem GetTextOffsetFor_twice (cfg : Config) (w : ImageWriter) (instructions : RawObject)
    (code : RawCode) (hcid : instructions.GetClassId = ClassId.kInstructionsCid)
    (hcur : w.next_text_offset_ ≠ 0) :
    ∃ offset w1,
      GetTextOffsetFor cfg w instructions code = some (offset, w1) ∧
      GetTextOffsetFor cfg w1 instructions code = some (offset, w1) ∧
      (w.heap_.GetObjectId instructions = 0 →
        w1.instructions_ =
          w.instructions_ ++ [InstructionsData.ofCode instructions code w.next_text_offset_]) ∧
      (w.heap_.GetObjectId instructions ≠ 0 → w1 = w) := by
  by_cases h : w.heap_.GetObjectId instructions = 0
  · refine ⟨toInt32 w.next_text_offset_,
      { w with heap_ := w.heap_.SetObjectId instructions w.next_text_offset_,
               next_text_offset_ := w.next_text_offset_ +
                 (if cfg.IS_SIMARM_X64 then InstructionsSizeInSnapshot cfg instructions.length_
                  else instructions.HeapSize),
               instructions_ := w.instructions_ ++
                 [InstructionsData.ofCode instructions code w.next_text_offset_] },
      ?_, ?_, ?_, ?_⟩
    · simp only [GetTextOffsetFor, h, ne_eq, not_true_eq_false, if_false,
        SizeInSnapshot_instructions cfg instructions hcid]
    · simp [GetTextOffsetFor, Heap.GetObjectId, Heap.SetObjectId, hcur]
    · intro _
      rfl
    · intro h2
      exact absurd h h2
  · refine ⟨toInt32 (w.heap_.GetObjectId instructions), w, ?_, ?_, ?_, ?_⟩
    · simp [GetTextOffsetFor, h]
    · simp [GetTextOffsetFor, h]
    · intro h2
      exact absurd h2 h
    · intro _
      rfl

/-- Witness for `GetTextOffsetFor_twice` on a freshly constructed writer. -/
theorem GetTextOffsetFor_twice_witness :
    ∃ offset w1,
      GetTextOffsetFor exampleConfig (ImageWriter.Construct exampleConfig exampleHeap)
        exampleInstructions exampleCode = some (offset, w1) ∧
      GetTextOffsetFor exampleConfig w1 exampleInstructions exampleCode = some (offset, w1) ∧
      ((ImageWriter.Construct exampleConfig exampleHeap).heap_.GetObjectId
          exampleInstructions = 0 →
        w1.instructions_ =
          (ImageWriter.Construct exampleConfig exampleHeap).instructions_ ++
            [InstructionsData.ofCode exampleInstructions exampleCode
              (ImageWriter.Construct exampleConfig exampleHeap).next_text_offset_]) ∧
      ((ImageWriter.Construct exampleConfig exampleHeap).heap_.GetObjectId
          exampleInstructions ≠ 0 →
        w1 = ImageWriter.Construct exampleConfig exampleHeap) :=
  GetTextOffsetFor_twice exampleConfig (ImageWriter.Construct exampleConfig exampleHeap)
    exampleInstructions exampleCode rfl (by decide)

/-- C2: for an instructions object whose identity has object id 0 (and a text
cursor that the `int32_t` result can hold), `GetTextOffsetFor` returns the text
cursor before the call, advances the text cursor by `SizeInSnapshot`, appends
one code-backed entry carrying that offset at the end of the entry list,
records identity→offset (other identities keep their id) and leaves the data
cursor and the data entry list unchanged. -/
theorem GetTextOffsetFor_unassigned (cfg : Config) (w : ImageWriter) (instructions : RawObject)
    (code : RawCode) (hcid : instructions.GetClassId = ClassId.kInstructionsCid)
    (hid : w.heap_.GetObjectId instructions = 0) (hfit : w.next_text_offset_ < 2 ^ 31) :
    ∃ size w1,
      SizeInSnapshot cfg instructions = some size ∧
      GetTextOffsetFor cfg w instructions code = some ((w.next_text_offset_ : Int), w1) ∧
      w1.next_text_offset_ = w.next_text_offset_ + size ∧
      w1.instructions_ =
        w.instructions_ ++ [InstructionsData.ofCode instructions code w.next_text_offset_] ∧
      w1.heap_.GetObjectId instructions = w.next_text_offset_ ∧
      (∀ other : RawObject, other.addr ≠ instructions.addr →
        w1.heap_.GetObjectId other = w.heap_.GetObjectId other) ∧
      w1.next_data_offset_ = w.next_data_offset_ ∧
      w1.objects_ = w.objects_ := by
  refine ⟨_, { w with heap_ := w.heap_.SetObjectId instructions w.next_text_offset_,
                      next_text_offset_ := w.next_text_offset_ +
                        (if cfg.IS_SIMARM_X64 then
                           InstructionsSizeInSnapshot cfg instructions.length_
                         else instructions.HeapSize),
                      instructions_ := w.instructions_ ++
                        [InstructionsData.ofCode instructions code w.next_text_offset_] },
    SizeInSnapshot_instructions cfg instructions hcid, ?_, rfl, rfl, ?_, ?_, rfl, rfl⟩
  · simp only [GetTextOffsetFor, hid, ne_eq, not_true_eq_false, if_false,
      SizeInSnapshot_instructions cfg instructions hcid, toInt32_of_lt _ hfit]
  · simp [Heap.GetObjectId, Heap.SetObjectId]
  · intro other hne
    simp [Heap.GetObjectId, Heap.SetObjectId, Function.update, hne]

/-- Witness for `GetTextOffsetFor_unassigned` on a freshly constructed writer. -/
theorem GetTextOffsetFor_unassigned_witness :
    ∃ size w1,
      SizeInSnapshot exampleCrossConfig exampleInstructions = some size ∧
      GetTextOffsetFor exampleCrossConfig
          (ImageWriter.Construct exampleCrossConfig exampleHeap) exampleInstructions
          exampleCode =
        some (((ImageWriter.Construct exampleCrossConfig exampleHeap).next_text_offset_ : Int),
          w1) ∧
      w1.next_text_offset_ =
        (ImageWriter.Construct exampleCrossConfig exampleHeap).next_text_offset_ + size ∧
      w1.instructions_ =
        (ImageWriter.Construct exampleCrossConfig exampleHeap).instructions_ ++
          [InstructionsData.ofCode exampleInstructions exampleCode
            (ImageWriter.Construct exampleCrossConfig exampleHeap).next_text_offset_] ∧
      w1.heap_.GetObjectId exampleInstructions =
        (ImageWriter.Construct exampleCrossConfig exampleHeap).next_text_offset_ ∧
      (∀ other : RawObject, other.addr ≠ exampleInstructions.addr →
        w1.heap_.GetObjectId other =
          (ImageWriter.Construct exampleCrossConfig exampleHeap).heap_.GetObjectId other) ∧
      w1.next_data_offset_ =
        (ImageWriter.Construct exampleCrossConfig exampleHeap).next_data_offset_ ∧
      w1.objects_ = (ImageWriter.Construct exampleCrossConfig exampleHeap).objects_ :=
  GetTextOffsetFor_unassigned exampleCrossConfig
    (ImageWriter.Construct exampleCrossConfig exampleHeap) exampleInstructions exampleCode
    rfl rfl (by decide)

/-- C3: for an object whose snapshot size is defined (and a data cursor that
the `uint32_t` result can hold), `GetDataOffsetFor` returns the data cursor
before the call, advances the data cursor by `SizeInSnapshot`, appends one
entry wrapping that object at the end of the data entry list and leaves the
text cursor, the instructions entry list and the heap unchanged. -/
theorem GetDataOffsetFor_spec (cfg : Config) (w : ImageWriter) (raw_object : RawObject)
    (size : Nat) (hsize : SizeInSnapshot cfg raw_object = some size)
    (hfit : w.next_data_offset_ < 2 ^ 32) :
    ∃ w1,
      GetDataOffsetFor cfg w raw_object = some (w.next_data_offset_, w1) ∧
      w1.next_data_offset_ = w.next_data_offset_ + size ∧
      w1.objects_ = w.objects_ ++ [{ raw_obj_ := raw_object }] ∧
      w1.next_text_offset_ = w.next_text_offset_ ∧
      w1.instructions_ = w.instructions_ ∧
      w1.heap_ = w.heap_ := by
  refine ⟨{ w with next_data_offset_ := w.next_data_offset_ + size,
                   objects_ := w.objects_ ++ [{ raw_obj_ := raw_object }] },
    ?_, rfl, rfl, rfl, rfl, rfl⟩
  simp only [GetDataOffsetFor, hsize, toUint32_of_lt _ hfit]

/-- Witness for `GetDataOffsetFor_spec`: a `PcDescriptors` object of length 10
in the cross-word-size build has snapshot size 24. -/
theorem GetDataOffsetFor_spec_witness :
    ∃ w1,
      GetDataOffsetFor exampleCrossConfig
          (ImageWriter.Construct exampleCrossConfig exampleHeap) exampleObject =
        some ((ImageWriter.Construct exampleCrossConfig exampleHeap).next_data_offset_, w1) ∧
      w1.next_data_offset_ =
        (ImageWriter.Construct exampleCrossConfig exampleHeap).next_data_offset_ + 24 ∧
      w1.objects_ =
        (ImageWriter.Construct exampleCrossConfig exampleHeap).objects_ ++
          [{ raw_obj_ := exampleObject }] ∧
      w1.next_text_offset_ =
        (ImageWriter.Construct exampleCrossConfig exampleHeap).next_text_offset_ ∧
      w1.instructions_ =
        (ImageWriter.Construct exampleCrossConfig exampleHeap).instructions_ ∧
      w1.heap_ = (ImageWriter.Construct exampleCrossConfig exampleHeap).heap_ :=
  GetDataOffsetFor_spec exampleCrossConfig
    (ImageWriter.Construct exampleCrossConfig exampleHeap) exampleObject 24 (by decide)
    (by decide)

/-- C4, as stated, fails: on a fresh writer, registering `exampleObject` twice
returns 16 and then 48 (not 16 again), leaves two data entries (not one), and
the identity→offset table still holds 0 for the object (not 16). -/
theorem data_object_registered_again_example :
    ∃ (r1 r2 : Nat × ImageWriter),
      GetDataOffsetFor exampleConfig (ImageWriter.Construct exampleConfig exampleHeap)
        exampleObject = some r1 ∧
      GetDataOffsetFor exampleConfig r1.2 exampleObject = some r2 ∧
      r1.1 = 16 ∧ r1.2.heap_.GetObjectId exampleObject = 0 ∧
      r2.1 = 48 ∧ r2.1 ≠ r1.1 ∧
      r2.2.objects_.length = 2 ∧ r2.2.heap_.GetObjectId exampleObject = 0 :=
  ⟨_, _, rfl, rfl, rfl, rfl, rfl, by decide, rfl, rfl⟩

/-- C4 (amended): `GetDataOffsetFor` records no identity→offset mapping (the
heap's id table is unchanged), so registering the same data object a second
time assigns the next data offset (the first offset plus the object's snapshot
size) and appends a second entry for it. -/
theorem GetDataOffsetFor_twice (cfg : Config) (w : ImageWriter) (raw_object : RawObject)
    (size : Nat) (hsize : SizeInSnapshot cfg raw_object = some size) :
    ∃ w1 w2,
      GetDataOffsetFor cfg w raw_object = some (toUint32 w.next_data_offset_, w1) ∧
      w1.heap_ = w.heap_ ∧
      GetDataOffsetFor cfg w1 raw_object =
        some (toUint32 (w.next_data_offset_ + size), w2) ∧
      w2.heap_ = w.heap_ ∧
      w2.objects_ = w.objects_ ++ [{ raw_obj_ := raw_object }, { raw_obj_ := raw_object }] ∧
      w2.next_data_offset_ = w.next_data_offset_ + size + size := by
  refine ⟨{ w with next_data_offset_ := w.next_data_offset_ + size,
                   objects_ := w.objects_ ++ [{ raw_obj_ := raw_object }] },
    { w with next_data_offset_ := w.next_data_offset_ + size + size,
             objects_ := (w.objects_ ++ [{ raw_obj_ := raw_object }]) ++
               [{ raw_obj_ := raw_object }] },
    ?_, rfl, ?_, rfl, ?_, rfl⟩
  · simp only [GetDataOffsetFor, hsize]
  · simp only [GetDataOffsetFor, hsize]
  · simp

/-- Witness for `GetDataOffsetFor_twice` in the same-word-size build. -/
theorem GetDataOffsetFor_twice_witness :
    ∃ w1 w2,
      GetDataOffsetFor exampleConfig (ImageWriter.Construct exampleConfig exampleHeap)
          exampleObject =
        some (toUint32 (ImageWriter.Construct exampleConfig exampleHeap).next_data_offset_,
          w1) ∧
      w1.heap_ = (ImageWriter.Construct exampleConfig exampleHeap).heap_ ∧
      GetDataOffsetFor exampleConfig w1 exampleObject =
        some (toUint32
          ((ImageWriter.Construct exampleConfig exampleHeap).next_data_offset_ + 32), w2) ∧
      w2.heap_ = (ImageWriter.Construct exampleConfig exampleHeap).heap_ ∧
      w2.objects_ =
        (ImageWriter.Construct exampleConfig exampleHeap).objects_ ++
          [{ raw_obj_ := exampleObject }, { raw_obj_ := exampleObject }] ∧
      w2.next_data_offset_ =
        (ImageWriter.Construct exampleConfig exampleHeap).next_data_offset_ + 32 + 32 :=
  GetDataOffsetFor_twice exampleConfig (ImageWriter.Construct exampleConfig exampleHeap)
    exampleObject 32 (by decide)

/-! ## Theorems: offsets are increasing and aligned -/

theorem offsets_snoc (A cur size : Nat) (l : List Nat) (hA : A ∣ cur)
    (hp : l.Pairwise (· < ·)) (hb : ∀ o ∈ l, o < cur ∧ A ∣ o) (hs : 0 < size)
    (hd : A ∣ size) :
    A ∣ cur + size ∧ (l ++ [cur]).Pairwise (· < ·) ∧
      ∀ o ∈ l ++ [cur], o < cur + size ∧ A ∣ o := by
  refine ⟨Dvd.dvd.add hA hd, ?_, ?_⟩
  · rw [List.pairwise_append]
    refine ⟨hp, List.pairwise_singleton _ _, ?_⟩
    intro a ha b hb2
    rw [List.mem_singleton] at hb2
    rw [hb2]
    exact (hb a ha).1
  · intro o ho
    rw [List.mem_append, List.mem_singleton] at ho
    rcases ho with ho | ho
    · exact ⟨Nat.lt_of_lt_of_le (hb o ho).1 (Nat.le_add_right _ _), (hb o ho).2⟩
    · rw [ho]
      exact ⟨Nat.lt_add_of_pos_right hs, hA⟩

theorem TextInv_snoc (A : Nat) (w w1 : ImageWriter) (e : InstructionsData) (size : Nat)
    (hinv : TextInv A w) (he : e.text_offset_ = w.next_text_offset_)
    (hl : w1.instructions_ = w.instructions_ ++ [e])
    (hc : w1.next_text_offset_ = w.next_text_offset_ + size) (hs : 0 < size)
    (hd : A ∣ size) : TextInv A w1 := by
  unfold TextInv ImageWriter.textOffsets at *
  rw [hl, hc, List.map_append, List.map_singleton, he]
  exact offsets_snoc A _ size _ hinv.1 hinv.2.1 hinv.2.2 hs hd

theorem TextInv_GetTextOffsetFor (cfg : Config) (w w1 : ImageWriter) (instructions : RawObject)
    (code : RawCode) (r : Int) (hinv : TextInv cfg.targetObjectAlignment w)
    (hok : ObjectSizeOk cfg instructions)
    (h : GetTextOffsetFor cfg w instructions code = some (r, w1)) :
    TextInv cfg.targetObjectAlignment w1 ∧ w1.next_data_offset_ = w.next_data_offset_ := by
  unfold GetTextOffsetFor at h
  by_cases hid : w.heap_.GetObjectId instructions = 0
  · simp only [hid, ne_eq, not_true_eq_false, if_false] at h
    cases hsz : SizeInSnapshot cfg instructions with
    | none => simp [hsz] at h
    | some size =>
      simp only [hsz, Option.some.injEq, Prod.mk.injEq] at h
      obtain ⟨_, hw⟩ := h
      subst hw
      exact ⟨TextInv_snoc _ w _ _ size hinv rfl rfl rfl (hok size hsz).1 (hok size hsz).2, rfl⟩
  · simp only [ne_eq, hid, not_false_eq_true, if_true, Option.some.injEq, Prod.mk.injEq] at h
    obtain ⟨_, hw⟩ := h
    subst hw
    exact ⟨hinv, rfl⟩

theorem TextInv_PrepareForSerializationStep (cfg : Config) (w w1 : ImageWriter)
    (c : ImageWriterCommand) (hinv : TextInv cfg.targetObjectAlignment w)
    (hok : CommandSizeOk cfg c) (h : PrepareForSerializationStep cfg w c = some w1) :
    TextInv cfg.targetObjectAlignment w1 ∧ w1.next_data_offset_ = w.next_data_offset_ := by
  cases c with
  | InsertInstructionOfCode expected code =>
    simp only [PrepareForSerializationStep] at h
    cases hsz : SizeInSnapshot cfg (Code.InstructionsOf code) with
    | none => simp [hsz] at h
    | some size =>
      simp only [hsz, Option.some.injEq] at h
      subst h
      have hok2 := hok size hsz
      exact ⟨TextInv_snoc _ w _ _ size hinv rfl rfl rfl hok2.1 hok2.2, rfl⟩
  | InsertBytesOfTrampoline expected buffer len =>
    simp only [PrepareForSerializationStep, Option.some.injEq] at h
    subst h
    exact ⟨TextInv_snoc _ w _ _ len hinv rfl rfl rfl hok.1 hok.2, rfl⟩

theorem TextInv_PrepareForSerializationLoop (cfg : Config) (cmds : List ImageWriterCommand) :
    ∀ (w w1 : ImageWriter), TextInv cfg.targetObjectAlignment w →
      (∀ c ∈ cmds, CommandSizeOk cfg c) → PrepareForSerializationLoop cfg w cmds = some w1 →
      TextInv cfg.targetObjectAlignment w1 ∧ w1.next_data_offset_ = w.next_data_offset_ := by
  induction cmds with
  | nil =>
    intro w w1 hinv _ h
    simp only [PrepareForSerializationLoop, Option.some.injEq] at h
    subst h
    exact ⟨hinv, rfl⟩
  | cons c rest ih =>
    intro w w1 hinv hok h
    simp only [PrepareForSerializationLoop] at h
    cases hstep : PrepareForSerializationStep cfg w c with
    | none => simp [hstep] at h
    | some w2 =>
      simp only [hstep] at h
      have h2 := TextInv_PrepareForSerializationStep cfg w w2 c hinv
        (hok c (List.mem_cons_self _ _)) hstep
      have h3 := ih w2 w1 h2.1 (fun c2 hc2 => hok c2 (List.mem_cons_of_mem _ hc2)) h
      exact ⟨h3.1, h3.2.trans h2.2⟩

theorem TextInv_Register (cfg : Config) (w w1 : ImageWriter) (reg : Registration)
    (out : List Nat) (hinv : TextInv cfg.targetObjectAlignment w)
    (hok : RegistrationSizeOk cfg reg) (h : Register cfg w reg = some (w1, out)) :
    TextInv cfg.targetObjectAlignment w1 := by
  cases reg with
  | data raw_object =>
    simp only [Register, GetDataOffsetFor] at h
    cases hsz : SizeInSnapshot cfg raw_object with
    | none => simp [hsz] at h
    | some size =>
      simp only [hsz, Option.map_some', Option.some.injEq, Prod.mk.injEq] at h
      obtain ⟨hw, _⟩ := h
      subst hw
      simpa only [TextInv, ImageWriter.textOffsets] using hinv
  | text instructions code =>
    simp only [Register] at h
    cases hg : GetTextOffsetFor cfg w instructions code with
    | none => simp [hg] at h
    | some r =>
      obtain ⟨r1, r2⟩ := r
      simp only [hg, Option.map_some', Option.some.injEq, Prod.mk.injEq] at h
      obtain ⟨hw, _⟩ := h
      subst hw
      exact (TextInv_GetTextOffsetFor cfg w r2 instructions code r1 hinv hok hg).1
  | commands cmds =>
    simp only [Register, PrepareForSerialization] at h
    cases hg : PrepareForSerializationLoop cfg w cmds with
    | none => simp [hg] at h
    | some w2 =>
      simp only [hg, Option.map_some', Option.some.injEq, Prod.mk.injEq] at h
      obtain ⟨hw, _⟩ := h
      subst hw
      exact (TextInv_PrepareForSerializationLoop cfg cmds w w2 hinv hok hg).1

theorem data_Register (cfg : Config) (w w1 : ImageWriter) (reg : Registration)
    (out : List Nat) (hA : cfg.targetObjectAlignment ∣ w.next_data_offset_)
    (hok : RegistrationSizeOk cfg reg) (h : Register cfg w reg = some (w1, out)) :
    cfg.targetObjectAlignment ∣ w1.next_data_offset_ ∧
      w.next_data_offset_ ≤ w1.next_data_offset_ ∧
      (out = [] ∨ (out = [toUint32 w.next_data_offset_] ∧
        w.next_data_offset_ < w1.next_data_offset_)) := by
  cases reg with
  | data raw_object =>
    simp only [Register, GetDataOffsetFor] at h
    cases hsz : SizeInSnapshot cfg raw_object with
    | none => simp [hsz] at h
    | some size =>
      simp only [hsz, Option.map_some', Option.some.injEq, Prod.mk.injEq] at h
      obtain ⟨hw, ho⟩ := h
      subst hw
      have hok2 := hok size hsz
      refine ⟨Dvd.dvd.add hA hok2.2, Nat.le_add_right _ _, Or.inr ⟨ho.symm, ?_⟩⟩
      exact Nat.lt_add_of_pos_right hok2.1
  | text instructions code =>
    simp only [Register] at h
    cases hg : GetTextOffsetFor cfg w instructions code with
    | none => simp [hg] at h
    | some r =>
      obtain ⟨r1, r2⟩ := r
      simp only [hg, Option.map_some', Option.some.injEq, Prod.mk.injEq] at h
      obtain ⟨hw, ho⟩ := h
      subst hw
      have hd : r2.next_data_offset_ = w.next_data_offset_ := by
        unfold GetTextOffsetFor at hg
        by_cases hid : w.heap_.GetObjectId instructions = 0
        · simp only [hid, ne_eq, not_true_eq_false, if_false] at hg
          cases hsz : SizeInSnapshot cfg instructions with
          | none => simp [hsz] at hg
          | some size =>
            simp only [hsz, Option.some.injEq, Prod.mk.injEq] at hg
            rw [← hg.2]
        · simp only [ne_eq, hid, not_false_eq_true, if_true, Option.some.injEq,
            Prod.mk.injEq] at hg
          rw [← hg.2]
      rw [hd]
      exact ⟨hA, le_refl _, Or.inl ho.symm⟩
  | commands cmds =>
    simp only [Register, PrepareForSerialization] at h
    cases hg : PrepareForSerializationLoop cfg w cmds with
    | none => simp [hg] at h
    | some w2 =>
      simp only [hg, Option.map_some', Option.some.injEq, Prod.mk.injEq] at h
      obtain ⟨hw, ho⟩ := h
      subst hw
      have hd : ∀ (l : List ImageWriterCommand) (a b : ImageWriter),
          PrepareForSerializationLoop cfg a l = some b →
            b.next_data_offset_ = a.next_data_offset_ := by
        intro l
        induction l with
        | nil =>
          intro a b hab
          simp only [PrepareForSerializationLoop, Option.some.injEq] at hab
          rw [hab]
        | cons c rest ih =>
          intro a b hab
          simp only [PrepareForSerializationLoop] at hab
          cases hstep : PrepareForSerializationStep cfg a c with
          | none => simp [hstep] at hab
          | some a2 =>
            simp only [hstep] at hab
            rw [ih a2 b hab]
            cases c with
            | InsertInstructionOfCode expected code =>
              simp only [PrepareForSerializationStep] at hstep
              cases hsz : SizeInSnapshot cfg (Code.InstructionsOf code) with
              | none => simp [hsz] at hstep
              | some size =>
                simp only [hsz, Option.some.injEq] at hstep
                rw [← hstep]
            | InsertBytesOfTrampoline expected buffer len =>
              simp only [PrepareForSerializationStep, Option.some.injEq] at hstep
              rw [← hstep]
      rw [hd cmds w w2 hg]
      exact ⟨hA, le_refl _, Or.inl ho.symm⟩

theorem RegisterAll_invariants (cfg : Config) (regs : List Registration) :
    ∀ (w w1 : ImageWriter) (outs : List Nat), TextInv cfg.targetObjectAlignment w →
      cfg.targetObjectAlignment ∣ w.next_data_offset_ →
      (∀ r ∈ regs, RegistrationSizeOk cfg r) →
      RegisterAll cfg w regs = some (w1, outs) → w1.next_data_offset_ ≤ 2 ^ 32 →
      TextInv cfg.targetObjectAlignment w1 ∧
        w.next_data_offset_ ≤ w1.next_data_offset_ ∧
        outs.Pairwise (· < ·) ∧
        ∀ o ∈ outs, w.next_data_offset_ ≤ o ∧ cfg.targetObjectAlignment ∣ o := by
  induction regs with
  | nil =>
    intro w w1 outs hinv _ _ h _
    simp only [RegisterAll, Option.some.injEq, Prod.mk.injEq] at h
    obtain ⟨hw, ho⟩ := h
    subst hw
    subst ho
    exact ⟨hinv, le_refl _, List.Pairwise.nil, fun o ho => absurd ho (List.not_mem_nil o)⟩
  | cons r rest ih =>
    intro w w1 outs hinv hA hok h hfit
    simp only [RegisterAll] at h
    cases hreg : Register cfg w r with
    | none => simp [hreg] at h
    | some p =>
      obtain ⟨w2, out⟩ := p
      simp only [hreg] at h
      cases hrest : RegisterAll cfg w2 rest with
      | none => simp [hrest] at h
      | some q =>
        obtain ⟨w3, outs2⟩ := q
        simp only [hrest, Option.some.injEq, Prod.mk.injEq] at h
        obtain ⟨hw, ho⟩ := h
        subst hw
        subst ho
        have hokr := hok r (List.mem_cons_self _ _)
        have hinv2 := TextInv_Register cfg w w2 r out hinv hokr hreg
        have hd := data_Register cfg w w2 r out hA hokr hreg
        have hih := ih w2 w3 outs2 hinv2 hd.1
          (fun r2 hr2 => hok r2 (List.mem_cons_of_mem _ hr2)) hrest hfit
        refine ⟨hih.1, le_trans hd.2.1 hih.2.1, ?_, ?_⟩
        · rcases hd.2.2 with hout | ⟨hout, hlt⟩
          · rw [hout, List.nil_append]
            exact hih.2.2.1
          · have hw32 : w.next_data_offset_ < 2 ^ 32 :=
              Nat.lt_of_lt_of_le hlt (le_trans hih.2.1 hfit)
            rw [hout, toUint32_of_lt _ hw32, List.singleton_append, List.pairwise_cons]
            exact ⟨fun o ho => Nat.lt_of_lt_of_le hlt (hih.2.2.2 o ho).1, hih.2.2.1⟩
        · intro o ho
          rw [List.mem_append] at ho
          rcases ho with ho | ho
          · rcases hd.2.2 with hout | ⟨hout, hlt⟩
            · rw [hout] at ho
              exact absurd ho (List.not_mem_nil o)
            · have hw32 : w.next_data_offset_ < 2 ^ 32 :=
                Nat.lt_of_lt_of_le hlt (le_trans hih.2.1 hfit)
              rw [hout, toUint32_of_lt _ hw32, List.mem_singleton] at ho
              rw [ho]
              exact ⟨le_refl _, hA⟩
          · exact ⟨le_trans hd.2.1 (hih.2.2.2 o ho).1, (hih.2.2.2 o ho).2⟩

theorem TextInv_Construct (cfg : Config) (heap : Heap)
    (hhdr : cfg.targetObjectAlignment ∣ cfg.kHeaderSize) :
    TextInv cfg.targetObjectAlignment (ImageWriter.Construct cfg heap) := by
  refine ⟨hhdr, List.Pairwise.nil, ?_⟩
  intro o ho
  exact absurd ho (List.not_mem_nil o)

/-- C5, as stated, fails: a command list with a trampoline of 4 bytes followed
by a code block gives the code block the text offset 20, which is not a
multiple of the object alignment 16. -/
theorem misaligned_trampoline_offset_example :
    (PrepareForSerialization exampleConfig (ImageWriter.Construct exampleConfig exampleHeap)
        (some exampleMisalignedCommands)).map ImageWriter.textOffsets = some [16, 20] ∧
      ¬ exampleConfig.targetObjectAlignment ∣ 20 := by
  decide

/-- C5 (amended): starting from a freshly constructed writer whose header size
is a multiple of the object alignment, after any sequence of registrations in
which every payload size (`SizeInSnapshot` of an object, the buffer length of a
trampoline) is a positive multiple of the object alignment, the text offsets of
the entries are strictly increasing in registration order and multiples of the
alignment, and so are the data offsets returned (as long as the data section
fits the `uint32_t` result). -/
theorem offsets_increasing_and_aligned (cfg : Config) (heap : Heap)
    (regs : List Registration) (w : ImageWriter) (dataOffsets : List Nat)
    (hhdr : cfg.targetObjectAlignment ∣ cfg.kHeaderSize)
    (hok : ∀ r ∈ regs, RegistrationSizeOk cfg r)
    (hrun : RegisterAll cfg (ImageWriter.Construct cfg heap) regs = some (w, dataOffsets))
    (hfit : w.next_data_offset_ ≤ 2 ^ 32) :
    w.textOffsets.Pairwise (· < ·) ∧
      (∀ o ∈ w.textOffsets, cfg.targetObjectAlignment ∣ o) ∧
      dataOffsets.Pairwise (· < ·) ∧
      (∀ o ∈ dataOffsets, cfg.targetObjectAlignment ∣ o) := by
  have h := RegisterAll_invariants cfg regs (ImageWriter.Construct cfg heap) w dataOffsets
    (TextInv_Construct cfg heap hhdr) hhdr hok hrun hfit
  exact ⟨h.1.2.1, fun o ho => (h.1.2.2 o ho).2, h.2.2.1, fun o ho => (h.2.2.2 o ho).2⟩

/-- Witness for `offsets_increasing_and_aligned`: a data object, a code block
and a 16-byte trampoline in the same-word-size build. -/
theorem offsets_increasing_and_aligned_witness :
    exampleRegistered.textOffsets.Pairwise (· < ·) ∧
      (∀ o ∈ exampleRegistered.textOffsets, exampleConfig.targetObjectAlignment ∣ o) ∧
      [16].Pairwise (· < ·) ∧
      (∀ o ∈ [16], exampleConfig.targetObjectAlignment ∣ o) :=
  offsets_increasing_and_aligned exampleConfig exampleHeap exampleRegistrations
    exampleRegistered [16] (by decide)
    (by
      intro r hr
      simp only [exampleRegistrations, List.mem_cons, List.mem_singleton, List.mem_nil_iff,
        or_false] at hr
      rcases hr with hr | hr | hr
      · subst hr
        intro size hsize
        have : size = 32 := by
          simp [SizeInSnapshot, exampleConfig, exampleObject, RawObject.HeapSize] at hsize
          exact hsize.symm
        subst this
        decide
      · subst hr
        intro size hsize
        have : size = 32 := by
          simp [SizeInSnapshot, exampleConfig, exampleInstructions, RawObject.HeapSize] at hsize
          exact hsize.symm
        subst this
        decide
      · subst hr
        intro c hc
        simp only [List.mem_singleton] at hc
        subst hc
        exact ⟨by decide, by decide⟩)
    rfl (by decide)

/-! ## Theorems: the text cursor of a reachable writer is non-zero -/

theorem GetTextOffsetFor_cursor_le (cfg : Config) (w w1 : ImageWriter)
    (instructions : RawObject) (code : RawCode) (r : Int)
    (h : GetTextOffsetFor cfg w instructions code = some (r, w1)) :
    w.next_text_offset_ ≤ w1.next_text_offset_ := by
  unfold GetTextOffsetFor at h
  by_cases hid : w.heap_.GetObjectId instructions = 0
  · simp only [hid, ne_eq, not_true_eq_false, if_false] at h
    cases hsz : SizeInSnapshot cfg instructions with
    | none => simp [hsz] at h
    | some size =>
      simp only [hsz, Option.some.injEq, Prod.mk.injEq] at h
      rw [← h.2]
      exact Nat.le_add_right _ _
  · simp only [ne_eq, hid, not_false_eq_true, if_true, Option.some.injEq, Prod.mk.injEq] at h
    rw [← h.2]

theorem PrepareForSerializationLoop_cursor_le (cfg : Config) (cmds : List ImageWriterCommand) :
    ∀ (w w1 : ImageWriter), PrepareForSerializationLoop cfg w cmds = some w1 →
      w.next_text_offset_ ≤ w1.next_text_offset_ := by
  induction cmds with
  | nil =>
    intro w w1 h
    simp only [PrepareForSerializationLoop, Option.some.injEq] at h
    rw [h]
  | cons c rest ih =>
    intro w w1 h
    simp only [PrepareForSerializationLoop] at h
    cases hstep : PrepareForSerializationStep cfg w c with
    | none => simp [hstep] at h
    | some w2 =>
      simp only [hstep] at h
      refine le_trans ?_ (ih w2 w1 h)
      cases c with
      | InsertInstructionOfCode expected code =>
        simp only [PrepareForSerializationStep] at hstep
        cases hsz : SizeInSnapshot cfg (Code.InstructionsOf code) with
        | none => simp [hsz] at hstep
        | some size =>
          simp only [hsz, Option.some.injEq] at hstep
          rw [← hstep]
          exact Nat.le_add_right _ _
      | InsertBytesOfTrampoline expected buffer len =>
        simp only [PrepareForSerializationStep, Option.some.injEq] at hstep
        rw [← hstep]
        exact Nat.le_add_right _ _

theorem RegisterAll_cursor_le (cfg : Config) (regs : List Registration) :
    ∀ (w w1 : ImageWriter) (outs : List Nat), RegisterAll cfg w regs = some (w1, outs) →
      w.next_text_offset_ ≤ w1.next_text_offset_ := by
  induction regs with
  | nil =>
    intro w w1 outs h
    simp only [RegisterAll, Option.some.injEq, Prod.mk.injEq] at h
    rw [h.1]
  | cons r rest ih =>
    intro w w1 outs h
    simp only [RegisterAll] at h
    cases hreg : Register cfg w r with
    | none => simp [hreg] at h
    | some p =>
      obtain ⟨w2, out⟩ := p
      simp only [hreg] at h
      cases hrest : RegisterAll cfg w2 rest with
      | none => simp [hrest] at h
      | some q =>
        obtain ⟨w3, outs2⟩ := q
        simp only [hrest, Option.some.injEq, Prod.mk.injEq] at h
        rw [← h.1]
        refine le_trans ?_ (ih w2 w3 outs2 hrest)
        cases r with
        | data raw_object =>
          simp only [Register, GetDataOffsetFor] at hreg
          cases hsz : SizeInSnapshot cfg raw_object with
          | none => simp [hsz] at hreg
          | some size =>
            simp only [hsz, Option.map_some', Option.some.injEq, Prod.mk.injEq] at hreg
            rw [← hreg.1]
        | text instructions code =>
          simp only [Register] at hreg
          cases hg : GetTextOffsetFor cfg w instructions code with
          | none => simp [hg] at hreg
          | some x =>
            obtain ⟨x1, x2⟩ := x
            simp only [hg, Option.map_some', Option.some.injEq, Prod.mk.injEq] at hreg
            rw [← hreg.1]
            exact GetTextOffsetFor_cursor_le cfg w x2 instructions code x1 hg
        | commands cmds =>
          simp only [Register, PrepareForSerialization] at hreg
          cases hg : PrepareForSerializationLoop cfg w cmds with
          | none => simp [hg] at hreg
          | some x =>
            simp only [hg, Option.map_some', Option.some.injEq, Prod.mk.injEq] at hreg
            rw [← hreg.1]
            exact PrepareForSerializationLoop_cursor_le cfg cmds w x hg

/-- Every writer state reached from the constructor by registrations has a
non-zero text cursor when the section header is not empty: offset 0 never
gets assigned. -/
theorem text_cursor_ne_zero_of_registrations (cfg : Config) (heap : Heap)
    (regs : List Registration) (w : ImageWriter) (outs : List Nat)
    (hhdr : 0 < cfg.kHeaderSize)
    (hrun : RegisterAll cfg (ImageWriter.Construct cfg heap) regs = some (w, outs)) :
    w.next_text_offset_ ≠ 0 := by
  have h := RegisterAll_cursor_le cfg regs _ w outs hrun
  have h0 : (ImageWriter.Construct cfg heap).next_text_offset_ = cfg.kHeaderSize := rfl
  omega

/-! ## Theorems: rounding and the output stream -/

theorem RoundUp_dvd (x n : Nat) : n ∣ RoundUp x n :=
  Dvd.intro_left _ rfl

theorem RoundUp_of_dvd (x n : Nat) (hn : 0 < n) (h : n ∣ x) : RoundUp x n = x := by
  obtain ⟨k, rfl⟩ := h
  unfold RoundUp
  have hk : (n * k + n - 1) / n = k := by
    apply Nat.div_eq_of_lt_le
    · have : k * n = n * k := Nat.mul_comm _ _
      omega
    · have : (k + 1) * n = n * k + n := by ring
      omega
  rw [hk, Nat.mul_comm]

theorem RoundUp_add_left (a x n : Nat) (hn : 0 < n) (h : n ∣ a) :
    RoundUp (a + x) n = a + RoundUp x n := by
  obtain ⟨k, rfl⟩ := h
  unfold RoundUp
  have : n * k + x + n - 1 = (x + n - 1) + n * k := by omega
  rw [this, Nat.add_mul_div_left _ _ hn, Nat.add_mul, Nat.mul_comm k n, Nat.add_comm]

theorem le_RoundUp (x n : Nat) (hn : 0 < n) : x ≤ RoundUp x n := by
  unfold RoundUp
  have h1 := Nat.div_add_mod (x + n - 1) n
  have h2 := Nat.mod_lt (x + n - 1) hn
  have h3 : (x + n - 1) / n * n = n * ((x + n - 1) / n) := Nat.mul_comm _ _
  omega

theorem Extends_refl (s : WriteStream) : s.Extends s :=
  ⟨le_refl _, fun _ _ => rfl⟩

theorem Extends_trans (s s1 s2 : WriteStream) (h1 : s.Extends s1) (h2 : s1.Extends s2) :
    s.Extends s2 :=
  ⟨le_trans h1.1 h2.1, fun p hp =>
    (h2.2 p (Nat.lt_of_lt_of_le hp h1.1)).trans (h1.2 p hp)⟩

theorem WriteBytes_Extends (s : WriteStream) (src : Nat → Nat) (len : Nat) :
    s.Extends (s.WriteBytes src len) := by
  refine ⟨Nat.le_add_right _ _, ?_⟩
  intro p hp
  have : ¬ (s.current ≤ p ∧ p < s.current + len) := by omega
  simp only [WriteStream.WriteBytes, this, if_false]

theorem WriteFixed_Extends (s : WriteStream) (size value : Nat) :
    s.Extends (s.WriteFixed size value) :=
  WriteBytes_Extends s _ size

theorem Align_Extends (s : WriteStream) (alignment : Nat) (h : 0 < alignment) :
    s.Extends (s.Align alignment) := by
  refine ⟨le_RoundUp _ _ h, ?_⟩
  intro p hp
  have : ¬ (s.current ≤ p ∧ p < RoundUp s.current alignment) := by omega
  simp only [WriteStream.Align, this, if_false]

theorem readFixed_ext (m1 m2 : Nat → Nat) (size : Nat) :
    ∀ a b, (∀ i, i < size → m1 (a + i) = m2 (b + i)) →
      readFixed m1 a size = readFixed m2 b size := by
  induction size with
  | zero =>
    intro a b _
    rfl
  | succ n ih =>
    intro a b h
    simp only [readFixed]
    have h0 := h 0 (Nat.succ_pos n)
    rw [Nat.add_zero, Nat.add_zero] at h0
    rw [h0, ih (a + 1) (b + 1)]
    intro i hi
    have h1 := h (i + 1) (Nat.succ_lt_succ hi)
    have e1 : a + 1 + i = a + (i + 1) := by omega
    have e2 : b + 1 + i = b + (i + 1) := by omega
    rw [e1, e2]
    exact h1

theorem readFixed_littleEndianByte (value size : Nat) :
    ∀ k, readFixed (fun i => littleEndianByte value (i + k)) 0 size
      = value / 256 ^ k % 256 ^ size := by
  induction size with
  | zero =>
    intro k
    simp [readFixed, Nat.mod_one]
  | succ n ih =>
    intro k
    simp only [readFixed]
    have hshift : readFixed (fun i => littleEndianByte value (i + k)) (0 + 1) n
        = readFixed (fun i => littleEndianByte value (i + (k + 1))) 0 n := by
      apply readFixed_ext
      intro i _
      show littleEndianByte value (0 + 1 + i + k) = littleEndianByte value (0 + i + (k + 1))
      congr 1
      omega
    rw [hshift, ih (k + 1)]
    simp only [littleEndianByte, Nat.zero_add]
    rw [Nat.pow_succ 256 k, ← Nat.div_div_eq_div_mul, Nat.pow_succ 256 n,
      Nat.mul_comm (256 ^ n) 256, Nat.mod_mul]

theorem readFixed_WriteFixed (s : WriteStream) (size value : Nat) :
    readFixed (s.WriteFixed size value).buffer s.current size = value % 256 ^ size := by
  have h := readFixed_littleEndianByte value size 0
  simp only [Nat.pow_zero, Nat.div_one] at h
  rw [← h]
  apply readFixed_ext
  intro i hi
  have : s.current ≤ s.current + i ∧ s.current + i < s.current + size := by omega
  simp only [WriteStream.WriteFixed, WriteStream.WriteBytes, this, and_self, if_true,
    Nat.add_sub_cancel_left, Nat.zero_add, Nat.add_zero]

/-! ## Theorems: the data section -/

theorem WriteRODataWords_spec (cfg : Config) (obj : RawObject) (end_ : Nat)
    (hW : 0 < cfg.kWordSize) :
    ∀ (fuel cursor : Nat) (s : WriteStream), cursor ≤ end_ →
      cfg.kWordSize ∣ end_ - cursor → end_ - cursor ≤ fuel →
      (WriteRODataWords cfg obj end_ fuel cursor s).current = s.current + (end_ - cursor) ∧
        s.Extends (WriteRODataWords cfg obj end_ fuel cursor s) := by
  intro fuel
  induction fuel with
  | zero =>
    intro cursor s _ _ hfuel
    have h0 : end_ - cursor = 0 := Nat.le_zero.mp hfuel
    simp only [WriteRODataWords, h0, Nat.add_zero, true_and]
    exact Extends_refl s
  | succ n ih =>
    intro cursor s hle hdvd hfuel
    by_cases hlt : cursor < end_
    · simp only [WriteRODataWords, hlt, if_true]
      have hpos : 0 < end_ - cursor := Nat.sub_pos_of_lt hlt
      have hge : cfg.kWordSize ≤ end_ - cursor := Nat.le_of_dvd hpos hdvd
      have hd2 : cfg.kWordSize ∣ end_ - (cursor + cfg.kWordSize) := by
        have e : end_ - (cursor + cfg.kWordSize) = (end_ - cursor) - cfg.kWordSize := by omega
        rw [e]
        exact Nat.dvd_sub' hdvd (dvd_refl _)
      have h := ih (cursor + cfg.kWordSize)
        (s.WriteWord cfg (readFixed obj.mem cursor cfg.kWordSize)) (by omega) hd2 (by omega)
      refine ⟨?_, Extends_trans _ _ _ (WriteFixed_Extends s _ _) h.2⟩
      rw [h.1]
      show s.current + cfg.kWordSize + (end_ - (cursor + cfg.kWordSize))
        = s.current + (end_ - cursor)
      omega
    · have h0 : end_ - cursor = 0 := by omega
      simp only [WriteRODataWords, hlt, if_false, h0, Nat.add_zero, true_and]
      exact Extends_refl s

theorem Align_after (cfg : Config) (s s1 : WriteStream) (len : Nat)
    (hA : 0 < cfg.targetObjectAlignment) (hal : cfg.targetObjectAlignment ∣ s.current)
    (hcur : s1.current = s.current + len) (hext : s.Extends s1) :
    (s1.Align cfg.targetObjectAlignment).current
        = s.current + RoundUp len cfg.targetObjectAlignment ∧
      s.Extends (s1.Align cfg.targetObjectAlignment) := by
  refine ⟨?_, Extends_trans _ _ _ hext (Align_Extends _ _ hA)⟩
  show RoundUp s1.current cfg.targetObjectAlignment = _
  rw [hcur, RoundUp_add_left _ _ _ hA hal]

theorem WriteRODataObject_spec (cfg : Config) (s : WriteStream) (obj : RawObject)
    (hcfg : DataLayoutOk cfg) (hobj : DataObjectOk cfg obj)
    (hal : cfg.IS_SIMARM_X64 = true → cfg.targetObjectAlignment ∣ s.current) :
    ∃ size s1, SizeInSnapshot cfg obj = some size ∧
      WriteRODataObject cfg s obj = some s1 ∧
      s1.current = s.current + size ∧ s.Extends s1 := by
  obtain ⟨hW, _, _, hsimcfg⟩ := hcfg
  cases hsim : cfg.IS_SIMARM_X64 with
  | false =>
    simp only [DataObjectOk, hsim, Bool.false_eq_true, if_false] at hobj
    have hge := Nat.le_of_dvd hobj.1 hobj.2
    simp only [WriteRODataObject, SizeInSnapshot, hsim, Bool.false_eq_true, if_false]
    refine ⟨_, _, rfl, rfl, ?_, ?_⟩
    · have h := WriteRODataWords_spec cfg obj (0 + obj.HeapSize) hW
        (0 + obj.HeapSize - (0 + cfg.kWordSize)) (0 + cfg.kWordSize)
      refine ((h _ (by omega) ?_ (le_refl _)).1).trans ?_
      · have e : 0 + obj.HeapSize - (0 + cfg.kWordSize) = obj.HeapSize - cfg.kWordSize := by
          omega
        rw [e]
        exact Nat.dvd_sub' hobj.2 (dvd_refl _)
      · show s.current + cfg.kWordSize + (0 + obj.HeapSize - (0 + cfg.kWordSize)) = _
        omega
    · have h := WriteRODataWords_spec cfg obj (0 + obj.HeapSize) hW
        (0 + obj.HeapSize - (0 + cfg.kWordSize)) (0 + cfg.kWordSize)
      refine Extends_trans _ _ _ (WriteFixed_Extends s _ _) (h _ (by omega) ?_ (le_refl _)).2
      have e : 0 + obj.HeapSize - (0 + cfg.kWordSize) = obj.HeapSize - cfg.kWordSize := by
        omega
      rw [e]
      exact Nat.dvd_sub' hobj.2 (dvd_refl _)
  | true =>
    obtain ⟨hA, _, hstr⟩ := hsimcfg hsim
    have hal2 := hal hsim
    simp only [DataObjectOk, hsim, if_true] at hobj
    rcases hobj with hc | ⟨hc, hhash⟩ | hc | hc
    · simp only [WriteRODataObject, SizeInSnapshot, hsim, if_true, hc]
      refine ⟨_, _, rfl, rfl, ?_⟩
      apply Align_after cfg s _ _ hA hal2
      · show s.current + cfg.targetWordSize + 4 + obj.length_ = _
        omega
      · exact Extends_trans _ _ _ (WriteFixed_Extends s _ _)
          (Extends_trans _ _ _ (WriteFixed_Extends _ _ _) (WriteBytes_Extends _ _ _))
    · rcases hc with hc | hc
      · simp only [WriteRODataObject, SizeInSnapshot, hsim, if_true, hc, hhash, if_false,
          decide_True]
        refine ⟨_, _, rfl, rfl, ?_⟩
        unfold StringSizeInSnapshot
        rw [← hstr]
        apply Align_after cfg s _ _ hA hal2
        · show s.current + cfg.targetWordSize + cfg.targetWordSize + cfg.targetWordSize
            + StringPayloadSize obj.length_ true = _
          omega
        · exact Extends_trans _ _ _ (WriteFixed_Extends s _ _)
            (Extends_trans _ _ _ (WriteFixed_Extends _ _ _)
              (Extends_trans _ _ _ (WriteFixed_Extends _ _ _) (WriteBytes_Extends _ _ _)))
      · simp only [WriteRODataObject, SizeInSnapshot, hsim, if_true, hc, hhash, if_false,
          reduceCtorEq, decide_False]
        refine ⟨_, _, rfl, rfl, ?_⟩
        unfold StringSizeInSnapshot
        rw [← hstr]
        apply Align_after cfg s _ _ hA hal2
        · show s.current + cfg.targetWordSize + cfg.targetWordSize + cfg.targetWordSize
            + StringPayloadSize obj.length_ false = _
          omega
        · exact Extends_trans _ _ _ (WriteFixed_Extends s _ _)
            (Extends_trans _ _ _ (WriteFixed_Extends _ _ _)
              (Extends_trans _ _ _ (WriteFixed_Extends _ _ _) (WriteBytes_Extends _ _ _)))
    · simp only [WriteRODataObject, SizeInSnapshot, hsim, if_true, hc]
      refine ⟨_, _, rfl, rfl, ?_⟩
      apply Align_after cfg s _ _ hA hal2
      · show s.current + cfg.targetWordSize + cfg.targetWordSize + obj.length_ = _
        omega
      · exact Extends_trans _ _ _ (WriteFixed_Extends s _ _)
          (Extends_trans _ _ _ (WriteFixed_Extends _ _ _) (WriteBytes_Extends _ _ _))
    · simp only [WriteRODataObject, SizeInSnapshot, hsim, if_true, hc]
      refine ⟨_, _, rfl, rfl, ?_⟩
      apply Align_after cfg s _ _ hA hal2
      · show s.current + cfg.targetWordSize + cfg.targetWordSize + obj.length_ = _
        omega
      · exact Extends_trans _ _ _ (WriteFixed_Extends s _ _)
          (Extends_trans _ _ _ (WriteFixed_Extends _ _ _) (WriteBytes_Extends _ _ _))

theorem SizeInSnapshot_cross_aligned (cfg : Config) (obj : RawObject) (size : Nat)
    (hsim : cfg.IS_SIMARM_X64 = true) (h : SizeInSnapshot cfg obj = some size) :
    cfg.targetObjectAlignment ∣ size := by
  simp only [SizeInSnapshot, hsim, if_true] at h
  split at h <;> first
    | (simp only [Option.some.injEq] at h
       rw [← h]
       exact RoundUp_dvd _ _)
    | simp at h

theorem SnapshotSizeSum_append (cfg : Config) (l1 l2 : List ObjectData) :
    SnapshotSizeSum cfg (l1 ++ l2) = SnapshotSizeSum cfg l1 + SnapshotSizeSum cfg l2 := by
  induction l1 with
  | nil => simp [SnapshotSizeSum]
  | cons d rest ih =>
    show (SizeInSnapshot cfg d.raw_obj_).getD 0 + SnapshotSizeSum cfg (rest ++ l2)
      = (SizeInSnapshot cfg d.raw_obj_).getD 0 + SnapshotSizeSum cfg rest
        + SnapshotSizeSum cfg l2
    rw [ih]
    omega

theorem WriteRODataObjects_append (cfg : Config) (l1 l2 : List ObjectData) :
    ∀ s, WriteRODataObjects cfg s (l1 ++ l2) =
      (WriteRODataObjects cfg s l1).bind (fun s1 => WriteRODataObjects cfg s1 l2) := by
  induction l1 with
  | nil =>
    intro s
    rfl
  | cons d rest ih =>
    intro s
    simp only [List.cons_append, WriteRODataObjects]
    cases WriteRODataObject cfg s d.raw_obj_ with
    | none => rfl
    | some s1 => exact ih s1

theorem WriteRODataObjects_spec (cfg : Config) (hcfg : DataLayoutOk cfg)
    (objs : List ObjectData) :
    ∀ s, (∀ d ∈ objs, DataObjectOk cfg d.raw_obj_) →
      (cfg.IS_SIMARM_X64 = true → cfg.targetObjectAlignment ∣ s.current) →
      ∃ s1, WriteRODataObjects cfg s objs = some s1 ∧
        s1.current = s.current + SnapshotSizeSum cfg objs ∧ s.Extends s1 := by
  induction objs with
  | nil =>
    intro s _ _
    exact ⟨s, rfl, rfl, Extends_refl s⟩
  | cons d rest ih =>
    intro s hok hal
    obtain ⟨size, s1, hsize, hw, hcur, hext⟩ :=
      WriteRODataObject_spec cfg s d.raw_obj_ hcfg (hok d (List.mem_cons_self _ _)) hal
    have hal1 : cfg.IS_SIMARM_X64 = true → cfg.targetObjectAlignment ∣ s1.current := by
      intro hsim
      rw [hcur]
      exact Dvd.dvd.add (hal hsim) (SizeInSnapshot_cross_aligned cfg _ size hsim hsize)
    obtain ⟨s2, hw2, hcur2, hext2⟩ :=
      ih s1 (fun d2 hd2 => hok d2 (List.mem_cons_of_mem _ hd2)) hal1
    refine ⟨s2, ?_, ?_, Extends_trans _ _ _ hext hext2⟩
    · simp only [WriteRODataObjects, hw, hw2]
    · rw [hcur2, hcur]
      simp only [SnapshotSizeSum, hsize, Option.getD_some]
      omega

theorem readFixed_of_Extends (s s1 : WriteStream) (addr size : Nat) (h : s.Extends s1)
    (hle : addr + size ≤ s.current) :
    readFixed s1.buffer addr size = readFixed s.buffer addr size := by
  apply readFixed_ext
  intro i hi
  exact h.2 (addr + i) (by omega)

theorem GetTextOffsetFor_data_frame (cfg : Config) (w w1 : ImageWriter)
    (instructions : RawObject) (code : RawCode) (r : Int)
    (h : GetTextOffsetFor cfg w instructions code = some (r, w1)) :
    w1.next_data_offset_ = w.next_data_offset_ ∧ w1.objects_ = w.objects_ := by
  unfold GetTextOffsetFor at h
  by_cases hid : w.heap_.GetObjectId instructions = 0
  · simp only [hid, ne_eq, not_true_eq_false, if_false] at h
    cases hsz : SizeInSnapshot cfg instructions with
    | none => simp [hsz] at h
    | some size =>
      simp only [hsz, Option.some.injEq, Prod.mk.injEq] at h
      rw [← h.2]
      exact ⟨rfl, rfl⟩
  · simp only [ne_eq, hid, not_false_eq_true, if_true, Option.some.injEq, Prod.mk.injEq] at h
    rw [← h.2]
    exact ⟨rfl, rfl⟩

theorem PrepareForSerializationLoop_data_frame (cfg : Config) (cmds : List ImageWriterCommand) :
    ∀ (w w1 : ImageWriter), PrepareForSerializationLoop cfg w cmds = some w1 →
      w1.next_data_offset_ = w.next_data_offset_ ∧ w1.objects_ = w.objects_ := by
  induction cmds with
  | nil =>
    intro w w1 h
    simp only [PrepareForSerializationLoop, Option.some.injEq] at h
    rw [h]
    exact ⟨rfl, rfl⟩
  | cons c rest ih =>
    intro w w1 h
    simp only [PrepareForSerializationLoop] at h
    cases hstep : PrepareForSerializationStep cfg w c with
    | none => simp [hstep] at h
    | some w2 =>
      simp only [hstep] at h
      have h2 := ih w2 w1 h
      have h3 : w2.next_data_offset_ = w.next_data_offset_ ∧ w2.objects_ = w.objects_ := by
        cases c with
        | InsertInstructionOfCode expected code =>
          simp only [PrepareForSerializationStep] at hstep
          cases hsz : SizeInSnapshot cfg (Code.InstructionsOf code) with
          | none => simp [hsz] at hstep
          | some size =>
            simp only [hsz, Option.some.injEq] at hstep
            rw [← hstep]
            exact ⟨rfl, rfl⟩
        | InsertBytesOfTrampoline expected buffer len =>
          simp only [PrepareForSerializationStep, Option.some.injEq] at hstep
          rw [← hstep]
          exact ⟨rfl, rfl⟩
      exact ⟨h2.1.trans h3.1, h2.2.trans h3.2⟩

theorem Register_data_sum (cfg : Config) (w w1 : ImageWriter) (reg : Registration)
    (out : List Nat) (K : Nat)
    (hinv : w.next_data_offset_ = K + SnapshotSizeSum cfg w.objects_)
    (h : Register cfg w reg = some (w1, out)) :
    w1.next_data_offset_ = K + SnapshotSizeSum cfg w1.objects_ := by
  cases reg with
  | data raw_object =>
    simp only [Register, GetDataOffsetFor] at h
    cases hsz : SizeInSnapshot cfg raw_object with
    | none => simp [hsz] at h
    | some size =>
      simp only [hsz, Option.map_some', Option.some.injEq, Prod.mk.injEq] at h
      rw [← h.1]
      simp only [SnapshotSizeSum_append, SnapshotSizeSum, hsz, Option.getD_some, hinv]
      omega
  | text instructions code =>
    simp only [Register] at h
    cases hg : GetTextOffsetFor cfg w instructions code with
    | none => simp [hg] at h
    | some r =>
      obtain ⟨r1, r2⟩ := r
      simp only [hg, Option.map_some', Option.some.injEq, Prod.mk.injEq] at h
      have hf := GetTextOffsetFor_data_frame cfg w r2 instructions code r1 hg
      rw [← h.1, hf.1, hf.2]
      exact hinv
  | commands cmds =>
    simp only [Register, PrepareForSerialization] at h
    cases hg : PrepareForSerializationLoop cfg w cmds with
    | none => simp [hg] at h
    | some w2 =>
      simp only [hg, Option.map_some', Option.some.injEq, Prod.mk.injEq] at h
      have hf := PrepareForSerializationLoop_data_frame cfg cmds w w2 hg
      rw [← h.1, hf.1, hf.2]
      exact hinv

theorem RegisterAll_data_sum (cfg : Config) (K : Nat) (regs : List Registration) :
    ∀ (w w1 : ImageWriter) (outs : List Nat),
      w.next_data_offset_ = K + SnapshotSizeSum cfg w.objects_ →
      RegisterAll cfg w regs = some (w1, outs) →
      w1.next_data_offset_ = K + SnapshotSizeSum cfg w1.objects_ := by
  induction regs with
  | nil =>
    intro w w1 outs hinv h
    simp only [RegisterAll, Option.some.injEq, Prod.mk.injEq] at h
    rw [← h.1]
    exact hinv
  | cons r rest ih =>
    intro w w1 outs hinv h
    simp only [RegisterAll] at h
    cases hreg : Register cfg w r with
    | none => simp [hreg] at h
    | some p =>
      obtain ⟨w2, out⟩ := p
      simp only [hreg] at h
      cases hrest : RegisterAll cfg w2 rest with
      | none => simp [hrest] at h
      | some q =>
        obtain ⟨w3, outs2⟩ := q
        simp only [hrest, Option.some.injEq, Prod.mk.injEq] at h
        rw [← h.1]
        exact ih w2 w3 outs2 (Register_data_sum cfg w w2 r out K hinv hreg) hrest

/-- C6: for a writer reached from the constructor by any sequence of
registrations whose data objects are well-formed, in either build,
`WriteROData` succeeds; the data cursor is the header size plus the sum of the
snapshot sizes of the entries; that value is the length word stored at the
(aligned) start of the section and the number of bytes of the section; and
the entries are emitted in registration order: the entry of each object starts
at the section start plus the header size plus the sizes of the entries
registered before it, takes exactly `SizeInSnapshot` bytes, and these bytes
are what `WriteRODataObject` emits for that object. -/
theorem WriteROData_layout (cfg : Config) (heap : Heap) (regs : List Registration)
    (w : ImageWriter) (offsets : List Nat) (stream : WriteStream)
    (hcfg : DataLayoutOk cfg)
    (hrun : RegisterAll cfg (ImageWriter.Construct cfg heap) regs = some (w, offsets))
    (hobjs : ∀ d ∈ w.objects_, DataObjectOk cfg d.raw_obj_) :
    ∃ out, WriteROData cfg w stream = some out ∧
      w.next_data_offset_ = cfg.kHeaderSize + SnapshotSizeSum cfg w.objects_ ∧
      out.current = RoundUp stream.current cfg.kMaxObjectAlignment + w.next_data_offset_ ∧
      readFixed out.buffer (RoundUp stream.current cfg.kMaxObjectAlignment) cfg.kWordSize
        = w.next_data_offset_ % 256 ^ cfg.kWordSize ∧
      ∀ pre d post, w.objects_ = pre ++ d :: post →
        ∃ size s1 s2,
          SizeInSnapshot cfg d.raw_obj_ = some size ∧
          WriteRODataObjects cfg
            (((stream.Align cfg.kMaxObjectAlignment).WriteWord cfg w.next_data_offset_).Align
              cfg.kMaxObjectAlignment) pre = some s1 ∧
          s1.current = RoundUp stream.current cfg.kMaxObjectAlignment + cfg.kHeaderSize
            + SnapshotSizeSum cfg pre ∧
          WriteRODataObject cfg s1 d.raw_obj_ = some s2 ∧
          s2.current = s1.current + size ∧
          ∀ p, p < s2.current → out.buffer p = s2.buffer p := by
  have hcfg0 := hcfg
  obtain ⟨hW, hM, hhdr, hsimcfg⟩ := hcfg
  have hsum : w.next_data_offset_ = cfg.kHeaderSize + SnapshotSizeSum cfg w.objects_ := by
    apply RegisterAll_data_sum cfg cfg.kHeaderSize regs _ w offsets _ hrun
    simp [ImageWriter.Construct, ImageWriter.ResetOffsets, SnapshotSizeSum]
  -- the three header steps
  have hstart : cfg.kMaxObjectAlignment ∣ (stream.Align cfg.kMaxObjectAlignment).current :=
    RoundUp_dvd _ _
  have hcur0 : (((stream.Align cfg.kMaxObjectAlignment).WriteWord cfg
        w.next_data_offset_).Align cfg.kMaxObjectAlignment).current
      = RoundUp stream.current cfg.kMaxObjectAlignment + cfg.kHeaderSize := by
    show RoundUp (RoundUp stream.current cfg.kMaxObjectAlignment + cfg.kWordSize)
      cfg.kMaxObjectAlignment = _
    rw [RoundUp_add_left _ _ _ hM (RoundUp_dvd _ _), hhdr]
  have hal0 : cfg.IS_SIMARM_X64 = true → cfg.targetObjectAlignment ∣
      (((stream.Align cfg.kMaxObjectAlignment).WriteWord cfg
        w.next_data_offset_).Align cfg.kMaxObjectAlignment).current := by
    intro hsim
    exact Dvd.dvd.trans (hsimcfg hsim).2.1 (RoundUp_dvd _ _)
  obtain ⟨out, hout, hcurout, hextout⟩ :=
    WriteRODataObjects_spec cfg hcfg0 w.objects_ _ hobjs hal0
  refine ⟨out, hout, hsum, ?_, ?_, ?_⟩
  · rw [hcurout, hcur0, hsum]
    omega
  · have hext1 : ((stream.Align cfg.kMaxObjectAlignment).WriteWord cfg
        w.next_data_offset_).Extends out :=
      Extends_trans _ _ _ (Align_Extends _ _ hM) hextout
    have hrd := readFixed_of_Extends _ out (RoundUp stream.current cfg.kMaxObjectAlignment)
      cfg.kWordSize hext1 (le_refl _)
    rw [hrd]
    exact readFixed_WriteFixed (stream.Align cfg.kMaxObjectAlignment) cfg.kWordSize
      w.next_data_offset_
  · intro pre d post hsplit
    have hokpre : ∀ d2 ∈ pre, DataObjectOk cfg d2.raw_obj_ := by
      intro d2 hd2
      apply hobjs
      rw [hsplit]
      exact List.mem_append_left _ hd2
    have hokd : DataObjectOk cfg d.raw_obj_ := by
      apply hobjs
      rw [hsplit]
      exact List.mem_append_right _ (List.mem_cons_self _ _)
    have hokpost : ∀ d2 ∈ post, DataObjectOk cfg d2.raw_obj_ := by
      intro d2 hd2
      apply hobjs
      rw [hsplit]
      exact List.mem_append_right _ (List.mem_cons_of_mem _ hd2)
    obtain ⟨s1, hs1, hcur1, _⟩ := WriteRODataObjects_spec cfg hcfg0 pre _ hokpre hal0
    have hal1 : cfg.IS_SIMARM_X64 = true → cfg.targetObjectAlignment ∣ s1.current := by
      intro hsim
      have hd : ∀ (l : List ObjectData), (∀ d2 ∈ l, DataObjectOk cfg d2.raw_obj_) →
          cfg.targetObjectAlignment ∣ SnapshotSizeSum cfg l := by
        intro l
        induction l with
        | nil =>
          intro _
          exact dvd_zero _
        | cons d2 rest ih =>
          intro hok
          have hd2 := hok d2 (List.mem_cons_self _ _)
          simp only [DataObjectOk, hsim, if_true] at hd2
          have hsome : ∃ sz, SizeInSnapshot cfg d2.raw_obj_ = some sz := by
            rcases hd2 with hc | ⟨hc | hc, _⟩ | hc | hc <;>
              simp [SizeInSnapshot, hsim, hc]
          obtain ⟨sz, hsz⟩ := hsome
          simp only [SnapshotSizeSum, hsz, Option.getD_some]
          exact Dvd.dvd.add (SizeInSnapshot_cross_aligned cfg _ sz hsim hsz)
            (ih (fun d3 hd3 => hok d3 (List.mem_cons_of_mem _ hd3)))
      rw [hcur1]
      exact Dvd.dvd.add (hal0 hsim) (hd pre hokpre)
    obtain ⟨size, s2, hsize, hs2, hcur2, _⟩ :=
      WriteRODataObject_spec cfg s1 d.raw_obj_ hcfg0 hokd hal1
    have hal2 : cfg.IS_SIMARM_X64 = true → cfg.targetObjectAlignment ∣ s2.current := by
      intro hsim
      rw [hcur2]
      exact Dvd.dvd.add (hal1 hsim) (SizeInSnapshot_cross_aligned cfg _ size hsim hsize)
    obtain ⟨s3, hs3, _, hext3⟩ := WriteRODataObjects_spec cfg hcfg0 post s2 hokpost hal2
    have hout2 : WriteRODataObjects cfg
        (((stream.Align cfg.kMaxObjectAlignment).WriteWord cfg
          w.next_data_offset_).Align cfg.kMaxObjectAlignment) w.objects_ = some s3 := by
      rw [hsplit, WriteRODataObjects_append, hs1]
      simp only [Option.some_bind, WriteRODataObjects, hs2, hs3]
    have heq : out = s3 := by
      rw [hout] at hout2
      exact Option.some.inj hout2
    refine ⟨size, s1, s2, hsize, hs1, ?_, hs2, hcur2, ?_⟩
    · rw [hcur1, hcur0]
    · intro p hp
      rw [heq]
      exact hext3.2 p hp

/-- Witness for `WriteROData_layout`: a `PcDescriptors` object and a one-byte
string in the cross-word-size build. -/
theorem WriteROData_layout_witness :
    ∃ out, WriteROData exampleCrossConfig exampleDataWriter exampleStream = some out ∧
      exampleDataWriter.next_data_offset_ =
        exampleCrossConfig.kHeaderSize +
          SnapshotSizeSum exampleCrossConfig exampleDataWriter.objects_ ∧
      out.current = RoundUp exampleStream.current exampleCrossConfig.kMaxObjectAlignment
        + exampleDataWriter.next_data_offset_ ∧
      readFixed out.buffer (RoundUp exampleStream.current exampleCrossConfig.kMaxObjectAlignment)
          exampleCrossConfig.kWordSize
        = exampleDataWriter.next_data_offset_ % 256 ^ exampleCrossConfig.kWordSize ∧
      ∀ pre d post, exampleDataWriter.objects_ = pre ++ d :: post →
        ∃ size s1 s2,
          SizeInSnapshot exampleCrossConfig d.raw_obj_ = some size ∧
          WriteRODataObjects exampleCrossConfig
            (((exampleStream.Align exampleCrossConfig.kMaxObjectAlignment).WriteWord
              exampleCrossConfig exampleDataWriter.next_data_offset_).Align
                exampleCrossConfig.kMaxObjectAlignment) pre = some s1 ∧
          s1.current = RoundUp exampleStream.current exampleCrossConfig.kMaxObjectAlignment
            + exampleCrossConfig.kHeaderSize + SnapshotSizeSum exampleCrossConfig pre ∧
          WriteRODataObject exampleCrossConfig s1 d.raw_obj_ = some s2 ∧
          s2.current = s1.current + size ∧
          ∀ p, p < s2.current → out.buffer p = s2.buffer p :=
  WriteROData_layout exampleCrossConfig exampleHeap exampleDataRegistrations
    exampleDataWriter [16, 40] exampleStream
    (by
      refine ⟨by decide, by decide, by decide, ?_⟩
      intro _
      exact ⟨by decide, by decide, by decide⟩)
    rfl
    (by
      intro d hd
      simp only [exampleDataWriter, List.mem_cons, List.mem_singleton, List.mem_nil_iff,
        or_false] at hd
      rcases hd with hd | hd
      · subst hd
        simp [DataObjectOk, exampleCrossConfig, exampleObject, RawObject.GetClassId]
      · subst hd
        simp [DataObjectOk, exampleCrossConfig, exampleString, RawObject.GetClassId])

/-! ## Theorems: the blob backend -/

theorem BlobPatchRelocations_below (cfg : Config) (bss_base_ : Int) (segment_base : Nat)
    (payload_stream_start : Nat) (insns : RawObject) (relocs : List Nat) :
    ∀ (s : WriteStream) (p : Nat), p < payload_stream_start →
      (BlobPatchRelocations cfg bss_base_ segment_base payload_stream_start insns relocs
        s).buffer p = s.buffer p := by
  induction relocs with
  | nil =>
    intro s p _
    rfl
  | cons r rest ih =>
    intro s p hp
    simp only [BlobPatchRelocations]
    rw [ih _ p hp]
    have : ¬ (payload_stream_start + r ≤ p ∧ p < payload_stream_start + r + cfg.targetWordSize) := by
      omega
    simp only [WriteStream.WriteTargetWord, WriteStream.WriteFixed, WriteStream.WriteBytes,
      WriteStream.SetPosition, this, if_false]

theorem toTargetUword_toTargetWord (cfg : Config) (x : Int) :
    toTargetUword cfg (toTargetWord cfg x) % 256 ^ cfg.targetWordSize = toTargetUword cfg x := by
  unfold toTargetUword toTargetWord
  rw [Int.bmod_emod]
  have hpos : (0 : Int) < ((256 ^ cfg.targetWordSize : Nat) : Int) := by
    have : 0 < 256 ^ cfg.targetWordSize := Nat.pow_pos (by decide)
    exact_mod_cast this
  have h1 := Int.emod_nonneg x (ne_of_gt hpos)
  have h2 := Int.emod_lt_of_pos x hpos
  apply Nat.mod_eq_of_lt
  have : ((x % ((256 ^ cfg.targetWordSize : Nat) : Int)).toNat : Int)
      < ((256 ^ cfg.targetWordSize : Nat) : Int) := by
    rw [Int.toNat_of_nonneg h1]
    exact h2
  exact_mod_cast this

theorem BlobWriteInstructions_spec (cfg : Config) (stream0 : WriteStream) (text_offset : Nat)
    (insns : RawObject) (marked_tags : Nat) (hA : 0 < cfg.targetObjectAlignment) :
    (BlobWriteInstructions cfg stream0 text_offset insns marked_tags).2.1
        = PayloadStreamStart cfg stream0.current ∧
      stream0.Extends (BlobWriteInstructions cfg stream0 text_offset insns marked_tags).1 ∧
      PayloadStreamStart cfg stream0.current + insns.length_
        ≤ (BlobWriteInstructions cfg stream0 text_offset insns marked_tags).1.current := by
  cases hsim : cfg.IS_SIMARM_X64 with
  | true =>
    simp only [BlobWriteInstructions, PayloadStreamStart, hsim, if_true]
    refine ⟨rfl, ?_, ?_⟩
    · exact Extends_trans _ _ _ (WriteFixed_Extends stream0 _ _)
        (Extends_trans _ _ _ (WriteFixed_Extends _ _ _)
          (Extends_trans _ _ _ (WriteFixed_Extends _ _ _)
            (Extends_trans _ _ _ (WriteBytes_Extends _ _ _) (Align_Extends _ _ hA))))
    · exact le_RoundUp _ _ hA
  | false =>
    simp only [BlobWriteInstructions, PayloadStreamStart, hsim, Bool.false_eq_true, if_false]
    refine ⟨rfl, ?_, ?_⟩
    · exact Extends_trans _ _ _ (WriteFixed_Extends stream0 _ _) (WriteBytes_Extends _ _ _)
    · have h1 := le_RoundUp (cfg.targetInstructionsHeaderSize + insns.length_)
        cfg.targetObjectAlignment hA
      show stream0.current + cfg.InstructionsHeaderSize + insns.length_
        ≤ stream0.current + cfg.kWordSize + (cfg.InstructionsHeaderSize
          + (RoundUp (cfg.targetInstructionsHeaderSize + insns.length_)
              cfg.targetObjectAlignment - cfg.targetInstructionsHeaderSize) - cfg.kWordSize)
      omega

theorem BlobPatchEntry_Extends (cfg : Config) (bss_base_ : Int) (segment_base : Nat)
    (pss : Nat) (insns : RawObject) (code : RawCode) (s0 s : WriteStream)
    (hext : s0.Extends s) (hpss : s0.current ≤ pss) :
    s0.Extends (BlobPatchEntry cfg bss_base_ segment_base pss insns code s) ∧
      (BlobPatchEntry cfg bss_base_ segment_base pss insns code s).current = s.current := by
  refine ⟨⟨hext.1, ?_⟩, rfl⟩
  intro p hp
  show (BlobPatchRelocations cfg bss_base_ segment_base pss insns code.bss_relocations
    s).buffer p = _
  rw [BlobPatchRelocations_below cfg bss_base_ segment_base pss insns _ s p (by omega)]
  exact hext.2 p hp

theorem PayloadStreamStart_ge (cfg : Config) (position : Nat) :
    position ≤ PayloadStreamStart cfg position := by
  unfold PayloadStreamStart
  split <;> omega

theorem BlobWriteTextEntry_Extends (cfg : Config) (namer : Nat → RawCode → String)
    (bss_base_ : Int) (segment_base : Nat) (i : Nat) (st : BlobTextState)
    (data : InstructionsData) (hA : 0 < cfg.targetObjectAlignment) (hok : EntryOk data) :
    ∃ st1, BlobWriteTextEntry cfg namer bss_base_ segment_base i st data = some st1 ∧
      st.stream.Extends st1.stream ∧ st1.elf_.isSome = st.elf_.isSome := by
  cases htr : data.trampoline_bytes with
  | some bytes =>
    simp only [BlobWriteTextEntry, htr]
    exact ⟨_, rfl, WriteBytes_Extends _ _ _, rfl⟩
  | none =>
    simp only [EntryOk, htr, Option.isSome_none, Bool.false_eq_true, false_or] at hok
    obtain ⟨insns, hin⟩ := Option.isSome_iff_exists.mp hok.1
    obtain ⟨code, hco⟩ := Option.isSome_iff_exists.mp hok.2
    simp only [BlobWriteTextEntry, htr, hin, hco]
    cases hpre : cfg.DART_PRECOMPILER with
    | false =>
      simp only [Bool.false_eq_true, if_false]
      exact ⟨_, rfl, (BlobWriteInstructions_spec cfg st.stream _ insns _ hA).2.1, rfl⟩
    | true =>
      simp only [if_true]
      refine ⟨_, rfl, ?_, ?_⟩
      · cases helf : st.elf_ with
        | none => exact (BlobWriteInstructions_spec cfg st.stream _ insns _ hA).2.1
        | some elf =>
          have hs := BlobWriteInstructions_spec cfg st.stream st.text_offset insns
          simp only
          refine (BlobPatchEntry_Extends cfg bss_base_ segment_base _ insns code st.stream _
            (hs _ hA).2.1 ?_).1
          rw [(hs _ hA).1]
          exact PayloadStreamStart_ge cfg _
      · cases helf : st.elf_ with
        | none => rfl
        | some elf =>
          cases hdw : st.dwarf_ <;> rfl

theorem BlobWriteTextLoop_Extends (cfg : Config) (namer : Nat → RawCode → String)
    (bss_base_ : Int) (segment_base : Nat) (hA : 0 < cfg.targetObjectAlignment)
    (entries : List InstructionsData) :
    ∀ (i : Nat) (st : BlobTextState), (∀ d ∈ entries, EntryOk d) →
      ∃ st1, BlobWriteTextLoop cfg namer bss_base_ segment_base i st entries = some st1 ∧
        st.stream.Extends st1.stream ∧ st1.elf_.isSome = st.elf_.isSome := by
  induction entries with
  | nil =>
    intro i st _
    exact ⟨st, rfl, Extends_refl _, rfl⟩
  | cons d rest ih =>
    intro i st hok
    obtain ⟨st1, h1, hext1, helf1⟩ := BlobWriteTextEntry_Extends cfg namer bss_base_
      segment_base i st d hA (hok d (List.mem_cons_self _ _))
    obtain ⟨st2, h2, hext2, helf2⟩ := ih (i + 1) st1
      (fun d2 hd2 => hok d2 (List.mem_cons_of_mem _ hd2))
    refine ⟨st2, ?_, Extends_trans _ _ _ hext1 hext2, helf2.trans helf1⟩
    simp only [BlobWriteTextLoop, h1, h2]

theorem BlobWriteTextLoop_append (cfg : Config) (namer : Nat → RawCode → String)
    (bss_base_ : Int) (segment_base : Nat) (l1 l2 : List InstructionsData) :
    ∀ (i : Nat) (st : BlobTextState),
      BlobWriteTextLoop cfg namer bss_base_ segment_base i st (l1 ++ l2) =
        (BlobWriteTextLoop cfg namer bss_base_ segment_base i st l1).bind (fun st1 =>
          BlobWriteTextLoop cfg namer bss_base_ segment_base (i + l1.length) st1 l2) := by
  induction l1 with
  | nil =>
    intro i st
    rfl
  | cons d rest ih =>
    intro i st
    simp only [List.cons_append, BlobWriteTextLoop, List.length_cons]
    cases BlobWriteTextEntry cfg namer bss_base_ segment_base i st d with
    | none => rfl
    | some st1 =>
      have h := ih (i + 1) st1
      have e : i + 1 + rest.length = i + (rest.length + 1) := by omega
      rw [e] at h
      exact h

theorem BlobPatchEntry_single (cfg : Config) (bss_base_ : Int) (segment_base : Nat)
    (pss : Nat) (insns : RawObject) (code : RawCode) (s : WriteStream) (k : Nat)
    (hrel : code.bss_relocations = [k]) :
    readFixed (BlobPatchEntry cfg bss_base_ segment_base pss insns code s).buffer (pss + k)
        cfg.targetWordSize
      = toTargetUword cfg (bss_base_ - ((segment_base + pss + k : Nat) : Int)
          + toTargetWord cfg
              (readFixed insns.mem (cfg.InstructionsHeaderSize + k) cfg.targetWordSize)) := by
  simp only [BlobPatchEntry, hrel, BlobPatchRelocations, WriteStream.WriteTargetWord]
  have h := readFixed_WriteFixed (s.SetPosition (pss + k)) cfg.targetWordSize
    (toTargetUword cfg (toTargetWord cfg (bss_base_ - ((segment_base + pss + k : Nat) : Int)
      + toTargetWord cfg
          (readFixed insns.mem (cfg.InstructionsHeaderSize + k) cfg.targetWordSize))))
  rw [toTargetUword_toTargetWord] at h
  exact h

theorem BlobWriteTextEntry_patched (cfg : Config) (namer : Nat → RawCode → String)
    (bss_base_ : Int) (segment_base : Nat) (i : Nat) (st : BlobTextState)
    (data : InstructionsData) (elf : Elf) (insns : RawObject) (code : RawCode) (k : Nat)
    (hpre : cfg.DART_PRECOMPILER = true) (hA : 0 < cfg.targetObjectAlignment)
    (helf : st.elf_ = some elf) (htr : data.trampoline_bytes = none)
    (hin : data.raw_insns_ = some insns) (hco : data.raw_code_ = some code)
    (hrel : code.bss_relocations = [k]) (hk : k + cfg.targetWordSize ≤ insns.length_) :
    ∃ st1, BlobWriteTextEntry cfg namer bss_base_ segment_base i st data = some st1 ∧
      readFixed st1.stream.buffer (PayloadStreamStart cfg st.stream.current + k)
          cfg.targetWordSize
        = toTargetUword cfg
            (bss_base_ - ((segment_base + PayloadStreamStart cfg st.stream.current + k : Nat) : Int)
              + toTargetWord cfg
                  (readFixed insns.mem (cfg.InstructionsHeaderSize + k) cfg.targetWordSize)) ∧
      PayloadStreamStart cfg st.stream.current + k + cfg.targetWordSize ≤ st1.stream.current ∧
      st1.elf_.isSome = true := by
  simp only [BlobWriteTextEntry, htr, hin, hco, hpre, helf, if_true]
  refine ⟨_, rfl, ?_, ?_, ?_⟩
  · simp only
    rw [(BlobWriteInstructions_spec cfg st.stream st.text_offset insns _ hA).1]
    exact BlobPatchEntry_single cfg bss_base_ segment_base _ insns code _ k hrel
  · have hs := BlobWriteInstructions_spec cfg st.stream st.text_offset insns
    simp only
    refine le_trans ?_ (hs _ hA).2.2
    omega
  · cases hdw : st.dwarf_ <;> rfl

/-- C7: relocation round-trip in the blob backend. With a linkable-object
collaborator present (precompiler build), for a code-backed entry with a
single BSS relocation at payload offset `k` (lying inside the payload) whose
in-payload word is the addend, after `BlobImageWriter::WriteText` the target
word stored in the buffer at stream position `payload_stream_start + k` is
`bss_base - (segment_base + payload_stream_start + k) + addend` reduced to a
target word; `payload_stream_start` is computed from the stream position
reached after the entries before this one. -/
theorem BlobWriteText_relocation_roundtrip (cfg : Config) (namer : Nat → RawCode → String)
    (bw : BlobImageWriter) (vm : Bool) (elf : Elf) (pre post : List InstructionsData)
    (e : InstructionsData) (insns : RawObject) (code : RawCode) (k : Nat)
    (hpre : cfg.DART_PRECOMPILER = true) (hA : 0 < cfg.targetObjectAlignment)
    (helf : bw.elf_ = some elf)
    (hentries : bw.writer.instructions_ = pre ++ e :: post)
    (hok : ∀ d ∈ bw.writer.instructions_, EntryOk d)
    (htr : e.trampoline_bytes = none) (hin : e.raw_insns_ = some insns)
    (hco : e.raw_code_ = some code) (hrel : code.bss_relocations = [k])
    (hk : k + cfg.targetWordSize ≤ insns.length_) :
    ∃ out st1,
      BlobWriteText cfg namer bw vm = some out ∧
      BlobWriteTextLoop cfg namer bw.bss_base_ (BlobSegmentBase cfg bw) 0
        (BlobWriteTextHeader cfg bw) pre = some st1 ∧
      readFixed out.instructions_blob_stream_.buffer
          (PayloadStreamStart cfg st1.stream.current + k) cfg.targetWordSize
        = toTargetUword cfg
            (bw.bss_base_
              - ((elf.next_memory_offset + PayloadStreamStart cfg st1.stream.current + k : Nat)
                  : Int)
              + toTargetWord cfg
                  (readFixed insns.mem (cfg.InstructionsHeaderSize + k) cfg.targetWordSize)) := by
  have hseg : BlobSegmentBase cfg bw = elf.next_memory_offset := by
    simp only [BlobSegmentBase, hpre, helf, if_true]
  have hokpre : ∀ d ∈ pre, EntryOk d := by
    intro d hd
    apply hok
    rw [hentries]
    exact List.mem_append_left _ hd
  have hokpost : ∀ d ∈ post, EntryOk d := by
    intro d hd
    apply hok
    rw [hentries]
    exact List.mem_append_right _ (List.mem_cons_of_mem _ hd)
  obtain ⟨st1, h1, _, helf1⟩ := BlobWriteTextLoop_Extends cfg namer bw.bss_base_
    (BlobSegmentBase cfg bw) hA pre 0 (BlobWriteTextHeader cfg bw) hokpre
  have helf0 : (BlobWriteTextHeader cfg bw).elf_ = some elf := helf
  rw [helf0] at helf1
  obtain ⟨elf1, helf1⟩ := Option.isSome_iff_exists.mp helf1
  obtain ⟨st2, h2, hread, hend, _⟩ := BlobWriteTextEntry_patched cfg namer bw.bss_base_
    (BlobSegmentBase cfg bw) (0 + pre.length) st1 e elf1 insns code k hpre hA helf1 htr hin hco
    hrel hk
  obtain ⟨st3, h3, hext3, _⟩ := BlobWriteTextLoop_Extends cfg namer bw.bss_base_
    (BlobSegmentBase cfg bw) hA post (0 + pre.length + 1) st2 hokpost
  have hloop : BlobWriteTextLoop cfg namer bw.bss_base_ (BlobSegmentBase cfg bw) 0
      (BlobWriteTextHeader cfg bw) bw.writer.instructions_ = some st3 := by
    rw [hentries, BlobWriteTextLoop_append, h1]
    simp only [Option.some_bind, BlobWriteTextLoop, h2, h3]
  have hout : ∃ out, BlobWriteText cfg namer bw vm = some out ∧
      out.instructions_blob_stream_ = st3.stream := by
    simp only [BlobWriteText, hloop]
    exact ⟨_, rfl, rfl⟩
  obtain ⟨out, hout1, hout2⟩ := hout
  refine ⟨out, st1, hout1, h1, ?_⟩
  rw [hout2, readFixed_of_Extends st2.stream st3.stream _ _ hext3 hend, hread, hseg]

/-- Witness for `BlobWriteText_relocation_roundtrip`: a trampoline followed by
a code block with one relocation at payload offset 8, same-word-size build. -/
theorem BlobWriteText_relocation_roundtrip_witness :
    ∃ out st1,
      BlobWriteText exampleConfig exampleNamer (exampleBlobWriter (some exampleElf)) false
        = some out ∧
      BlobWriteTextLoop exampleConfig exampleNamer (exampleBlobWriter (some exampleElf)).bss_base_
        (BlobSegmentBase exampleConfig (exampleBlobWriter (some exampleElf))) 0
        (BlobWriteTextHeader exampleConfig (exampleBlobWriter (some exampleElf)))
        [exampleTrampolineEntry] = some st1 ∧
      readFixed out.instructions_blob_stream_.buffer
          (PayloadStreamStart exampleConfig st1.stream.current + 8) exampleConfig.targetWordSize
        = toTargetUword exampleConfig
            ((exampleBlobWriter (some exampleElf)).bss_base_
              - ((exampleElf.next_memory_offset
                    + PayloadStreamStart exampleConfig st1.stream.current + 8 : Nat) : Int)
              + toTargetWord exampleConfig
                  (readFixed exampleRelocInstructions.mem
                    (exampleConfig.InstructionsHeaderSize + 8) exampleConfig.targetWordSize)) :=
  BlobWriteText_relocation_roundtrip exampleConfig exampleNamer
    (exampleBlobWriter (some exampleElf)) false exampleElf [exampleTrampolineEntry] []
    exampleRelocEntry exampleRelocInstructions exampleRelocCode 8 rfl (by decide) rfl rfl
    (by
      intro d hd
      simp only [exampleBlobWriter, List.mem_cons, List.mem_singleton, List.mem_nil_iff,
        or_false] at hd
      rcases hd with hd | hd
      · subst hd
        exact Or.inl rfl
      · subst hd
        exact Or.inr ⟨rfl, rfl⟩)
    rfl rfl rfl rfl (by decide)

/-- The witness evaluated: the header takes 16 bytes and the trampoline 16, so
the payload starts at stream position 48 and the patched word at position 56
is 65536 - (4096 + 56) + 40 = 61424. -/
theorem BlobWriteText_relocation_example :
    (BlobWriteText exampleConfig exampleNamer (exampleBlobWriter (some exampleElf)) false).map
        (fun out => readFixed out.instructions_blob_stream_.buffer 56 8) = some 61424 := by
  decide

theorem BlobWriteInstructions_payload (cfg : Config) (stream0 : WriteStream)
    (text_offset : Nat) (insns : RawObject) (marked_tags : Nat)
    (hA : 0 < cfg.targetObjectAlignment)
    (hW : cfg.IS_SIMARM_X64 = false → cfg.kWordSize ≤ cfg.InstructionsHeaderSize) :
    ∀ j, j < insns.length_ →
      (BlobWriteInstructions cfg stream0 text_offset insns marked_tags).1.buffer
          (PayloadStreamStart cfg stream0.current + j)
        = insns.mem (cfg.InstructionsHeaderSize + j) := by
  intro j hj
  cases hsim : cfg.IS_SIMARM_X64 with
  | true =>
    simp only [BlobWriteInstructions, PayloadStreamStart, hsim, if_true]
    have h1 : ¬ (stream0.current + cfg.targetWordSize + 4 + 4 + insns.length_
          ≤ stream0.current + cfg.targetWordSize + 4 + 4 + j ∧
        stream0.current + cfg.targetWordSize + 4 + 4 + j
          < RoundUp (stream0.current + cfg.targetWordSize + 4 + 4 + insns.length_)
              cfg.targetObjectAlignment) := by
      omega
    have h2 : stream0.current + cfg.targetWordSize + 4 + 4
          ≤ stream0.current + cfg.targetWordSize + 4 + 4 + j ∧
        stream0.current + cfg.targetWordSize + 4 + 4 + j
          < stream0.current + cfg.targetWordSize + 4 + 4 + insns.length_ := by
      omega
    simp only [WriteStream.Align, WriteStream.WriteBytes, WriteStream.WriteFixed,
      WriteStream.WriteTargetWord, WriteStream.Position, h1, h2, and_self, if_true, if_false,
      Nat.add_sub_cancel_left]
  | false =>
    have hW2 := hW hsim
    have hr := le_RoundUp (cfg.targetInstructionsHeaderSize + insns.length_)
      cfg.targetObjectAlignment hA
    simp only [BlobWriteInstructions, PayloadStreamStart, hsim, Bool.false_eq_true, if_false]
    have h2 : stream0.current + cfg.kWordSize ≤ stream0.current + cfg.InstructionsHeaderSize + j ∧
        stream0.current + cfg.InstructionsHeaderSize + j
          < stream0.current + cfg.kWordSize + (cfg.InstructionsHeaderSize
            + (RoundUp (cfg.targetInstructionsHeaderSize + insns.length_)
                cfg.targetObjectAlignment - cfg.targetInstructionsHeaderSize)
            - cfg.kWordSize) := by
      omega
    simp only [WriteStream.WriteBytes, WriteStream.WriteFixed, WriteStream.WriteWord,
      WriteStream.Position, h2, and_self, if_true]
    congr 1
    omega

theorem BlobWriteTextEntry_without_elf (cfg : Config) (namer : Nat → RawCode → String)
    (bss_base_ : Int) (segment_base : Nat) (i : Nat) (st : BlobTextState)
    (data : InstructionsData) (insns : RawObject) (code : RawCode)
    (hA : 0 < cfg.targetObjectAlignment)
    (hW : cfg.IS_SIMARM_X64 = false → cfg.kWordSize ≤ cfg.InstructionsHeaderSize)
    (helf : st.elf_ = none) (htr : data.trampoline_bytes = none)
    (hin : data.raw_insns_ = some insns) (hco : data.raw_code_ = some code) :
    ∃ st1, BlobWriteTextEntry cfg namer bss_base_ segment_base i st data = some st1 ∧
      (∀ j, j < insns.length_ →
        st1.stream.buffer (PayloadStreamStart cfg st.stream.current + j)
          = insns.mem (cfg.InstructionsHeaderSize + j)) ∧
      PayloadStreamStart cfg st.stream.current + insns.length_ ≤ st1.stream.current := by
  have hs := BlobWriteInstructions_spec cfg st.stream st.text_offset insns
  have hp := BlobWriteInstructions_payload cfg st.stream st.text_offset insns
  cases hpre : cfg.DART_PRECOMPILER with
  | false =>
    simp only [BlobWriteTextEntry, htr, hin, hco, hpre, Bool.false_eq_true, if_false]
    exact ⟨_, rfl, hp _ hA hW, (hs _ hA).2.2⟩
  | true =>
    simp only [BlobWriteTextEntry, htr, hin, hco, hpre, helf, if_true]
    exact ⟨_, rfl, hp _ hA hW, (hs _ hA).2.2⟩

/-- C8, as stated, fails: without a linkable-object collaborator the word at
the relocation position (stream position 56) is still the in-payload
placeholder 40 after `WriteText`, not the patched value
65536 - (0 + 56) + 40 = 65520; there is no collaborator afterwards either. -/
theorem no_elf_relocation_unpatched_example :
    ∃ out : BlobImageWriter,
      BlobWriteText exampleConfig exampleNamer (exampleBlobWriter none) false = some out ∧
      out.elf_ = none ∧
      readFixed out.instructions_blob_stream_.buffer 56 exampleConfig.targetWordSize = 40 ∧
      toTargetUword exampleConfig
          ((exampleBlobWriter none).bss_base_ - ((0 + 56 : Nat) : Int)
            + toTargetWord exampleConfig
                (readFixed exampleRelocInstructions.mem
                  (exampleConfig.InstructionsHeaderSize + 8) exampleConfig.targetWordSize))
        = 65520 ∧
      readFixed out.instructions_blob_stream_.buffer 56 exampleConfig.targetWordSize
        ≠ toTargetUword exampleConfig
            ((exampleBlobWriter none).bss_base_ - ((0 + 56 : Nat) : Int)
              + toTargetWord exampleConfig
                  (readFixed exampleRelocInstructions.mem
                    (exampleConfig.InstructionsHeaderSize + 8)
                    exampleConfig.targetWordSize)) :=
  ⟨_, rfl, rfl, by decide, by decide, by decide⟩

/-- C8 (amended): in the blob backend, when no linkable-object collaborator is
present (`elf_` is null), no relocation patch is applied: after `WriteText`
every payload byte of every code-backed entry, and so the word at each of its
external-relocation positions inside the payload, is the original in-payload
value, and no static symbol is registered (there is still no collaborator). -/
theorem BlobWriteText_without_elf (cfg : Config) (namer : Nat → RawCode → String)
    (bw : BlobImageWriter) (vm : Bool) (pre post : List InstructionsData)
    (e : InstructionsData) (insns : RawObject) (code : RawCode)
    (hA : 0 < cfg.targetObjectAlignment)
    (hW : cfg.IS_SIMARM_X64 = false → cfg.kWordSize ≤ cfg.InstructionsHeaderSize)
    (helf : bw.elf_ = none)
    (hentries : bw.writer.instructions_ = pre ++ e :: post)
    (hok : ∀ d ∈ bw.writer.instructions_, EntryOk d)
    (htr : e.trampoline_bytes = none) (hin : e.raw_insns_ = some insns)
    (hco : e.raw_code_ = some code) :
    ∃ out st1,
      BlobWriteText cfg namer bw vm = some out ∧
      BlobWriteTextLoop cfg namer bw.bss_base_ (BlobSegmentBase cfg bw) 0
        (BlobWriteTextHeader cfg bw) pre = some st1 ∧
      out.elf_ = none ∧
      (∀ j, j < insns.length_ →
        out.instructions_blob_stream_.buffer (PayloadStreamStart cfg st1.stream.current + j)
          = insns.mem (cfg.InstructionsHeaderSize + j)) ∧
      (∀ k ∈ code.bss_relocations, k + cfg.targetWordSize ≤ insns.length_ →
        readFixed out.instructions_blob_stream_.buffer
            (PayloadStreamStart cfg st1.stream.current + k) cfg.targetWordSize
          = readFixed insns.mem (cfg.InstructionsHeaderSize + k) cfg.targetWordSize) := by
  have hokpre : ∀ d ∈ pre, EntryOk d := by
    intro d hd
    apply hok
    rw [hentries]
    exact List.mem_append_left _ hd
  have hokpost : ∀ d ∈ post, EntryOk d := by
    intro d hd
    apply hok
    rw [hentries]
    exact List.mem_append_right _ (List.mem_cons_of_mem _ hd)
  have hokall : ∀ d ∈ bw.writer.instructions_, EntryOk d := hok
  obtain ⟨st1, h1, _, helf1⟩ := BlobWriteTextLoop_Extends cfg namer bw.bss_base_
    (BlobSegmentBase cfg bw) hA pre 0 (BlobWriteTextHeader cfg bw) hokpre
  have helf0 : (BlobWriteTextHeader cfg bw).elf_ = none := helf
  rw [helf0] at helf1
  have helf1n : st1.elf_ = none := by
    cases h : st1.elf_ with
    | none => rfl
    | some x => simp [h] at helf1
  obtain ⟨st2, h2, hbytes, hend⟩ := BlobWriteTextEntry_without_elf cfg namer bw.bss_base_
    (BlobSegmentBase cfg bw) (0 + pre.length) st1 e insns code hA hW helf1n htr hin hco
  obtain ⟨st3, h3, hext3, _⟩ := BlobWriteTextLoop_Extends cfg namer bw.bss_base_
    (BlobSegmentBase cfg bw) hA post (0 + pre.length + 1) st2 hokpost
  have hloop : BlobWriteTextLoop cfg namer bw.bss_base_ (BlobSegmentBase cfg bw) 0
      (BlobWriteTextHeader cfg bw) bw.writer.instructions_ = some st3 := by
    rw [hentries, BlobWriteTextLoop_append, h1]
    simp only [Option.some_bind, BlobWriteTextLoop, h2, h3]
  obtain ⟨st3b, h3b, _, helf3⟩ := BlobWriteTextLoop_Extends cfg namer bw.bss_base_
    (BlobSegmentBase cfg bw) hA bw.writer.instructions_ 0 (BlobWriteTextHeader cfg bw) hokall
  have hst : st3b = st3 := by
    rw [hloop] at h3b
    exact (Option.some.inj h3b).symm
  rw [hst, helf0] at helf3
  have helf3n : st3.elf_ = none := by
    cases h : st3.elf_ with
    | none => rfl
    | some x => simp [h] at helf3
  have hout : ∃ out, BlobWriteText cfg namer bw vm = some out ∧
      out.instructions_blob_stream_ = st3.stream ∧ out.elf_ = none := by
    simp only [BlobWriteText, hloop, helf3n]
    refine ⟨_, rfl, rfl, ?_⟩
    cases cfg.DART_PRECOMPILER <;> rfl
  obtain ⟨out, hout1, hout2, hout3⟩ := hout
  have hb : ∀ j, j < insns.length_ →
      out.instructions_blob_stream_.buffer (PayloadStreamStart cfg st1.stream.current + j)
        = insns.mem (cfg.InstructionsHeaderSize + j) := by
    intro j hj
    rw [hout2, hext3.2 _ (by omega)]
    exact hbytes j hj
  refine ⟨out, st1, hout1, h1, hout3, hb, ?_⟩
  intro k _ hk
  apply readFixed_ext
  intro i hi
  rw [Nat.add_assoc, Nat.add_assoc]
  exact hb (k + i) (by omega)

/-- Witness for `BlobWriteText_without_elf`: a trampoline followed by a code
block with one relocation, no collaborator. -/
theorem BlobWriteText_without_elf_witness :
    ∃ out st1,
      BlobWriteText exampleConfig exampleNamer (exampleBlobWriter none) false = some out ∧
      BlobWriteTextLoop exampleConfig exampleNamer (exampleBlobWriter none).bss_base_
        (BlobSegmentBase exampleConfig (exampleBlobWriter none)) 0
        (BlobWriteTextHeader exampleConfig (exampleBlobWriter none))
        [exampleTrampolineEntry] = some st1 ∧
      out.elf_ = none ∧
      (∀ j, j < exampleRelocInstructions.length_ →
        out.instructions_blob_stream_.buffer
            (PayloadStreamStart exampleConfig st1.stream.current + j)
          = exampleRelocInstructions.mem (exampleConfig.InstructionsHeaderSize + j)) ∧
      (∀ k ∈ exampleRelocCode.bss_relocations,
        k + exampleConfig.targetWordSize ≤ exampleRelocInstructions.length_ →
        readFixed out.instructions_blob_stream_.buffer
            (PayloadStreamStart exampleConfig st1.stream.current + k)
            exampleConfig.targetWordSize
          = readFixed exampleRelocInstructions.mem (exampleConfig.InstructionsHeaderSize + k)
              exampleConfig.targetWordSize) :=
  BlobWriteText_without_elf exampleConfig exampleNamer (exampleBlobWriter none) false
    [exampleTrampolineEntry] [] exampleRelocEntry exampleRelocInstructions exampleRelocCode
    (by decide) (fun _ => by decide) rfl rfl
    (by
      intro d hd
      simp only [exampleBlobWriter, List.mem_cons, List.mem_singleton, List.mem_nil_iff,
        or_false] at hd
      rcases hd with hd | hd
      · subst hd
        exact Or.inl rfl
      · subst hd
        exact Or.inr ⟨rfl, rfl⟩)
    rfl rfl rfl

/-! ## Theorems: the content index trait -/

theorem memcmp_eq_zero_iff (m1 m2 : Nat → Nat) (n : Nat) :
    ∀ p1 p2, (0 = memcmp m1 p1 m2 p2 n) ↔ ∀ i, i < n → m1 (p1 + i) = m2 (p2 + i) := by
  induction n with
  | zero =>
    intro p1 p2
    simp [memcmp]
  | succ n ih =>
    intro p1 p2
    simp only [memcmp]
    by_cases h1 : m1 p1 < m2 p2
    · simp only [h1, if_true]
      constructor
      · intro h
        exact absurd h (by decide)
      · intro h
        have := h 0 (Nat.succ_pos n)
        simp only [Nat.add_zero] at this
        omega
    · by_cases h2 : m2 p2 < m1 p1
      · simp only [h1, h2, if_true, if_false]
        constructor
        · intro h
          exact absurd h (by decide)
        · intro h
          have := h 0 (Nat.succ_pos n)
          simp only [Nat.add_zero] at this
          omega
      · simp only [h1, h2, if_false]
        rw [ih (p1 + 1) (p2 + 1)]
        have heq : m1 p1 = m2 p2 := by omega
        constructor
        · intro h i hi
          cases i with
          | zero => simpa using heq
          | succ j =>
            have := h j (by omega)
            have e1 : p1 + (j + 1) = p1 + 1 + j := by omega
            have e2 : p2 + (j + 1) = p2 + 1 + j := by omega
            rw [e1, e2]
            exact this
        · intro h i hi
          have := h (i + 1) (by omega)
          have e1 : p1 + (i + 1) = p1 + 1 + i := by omega
          have e2 : p2 + (i + 1) = p2 + 1 + i := by omega
          rw [e1, e2] at this
          exact this

theorem body_size_eq (cfg : Config) (heap_size : Nat) (h1 : cfg.sizeofRawObject ≤ heap_size)
    (h2 : heap_size < 256 ^ cfg.kWordSize) :
    (heap_size + 256 ^ cfg.kWordSize - cfg.sizeofRawObject) % 256 ^ cfg.kWordSize
      = heap_size - cfg.sizeofRawObject := by
  have e : heap_size + 256 ^ cfg.kWordSize - cfg.sizeofRawObject
      = (heap_size - cfg.sizeofRawObject) + 256 ^ cfg.kWordSize := by omega
  rw [e, Nat.add_mod_right]
  exact Nat.mod_eq_of_lt (by omega)

theorem IsKeyEqual_true_iff (cfg : Config) (a b : RawObject) (offset : Nat)
    (hsize : cfg.sizeofRawObject ≤ a.HeapSize) (hfit : a.HeapSize < 256 ^ cfg.kWordSize) :
    ObjectOffsetTrait.IsKeyEqual cfg { object := a, offset := offset } b = true ↔
      a.GetClassId = b.GetClassId ∧ a.HeapSize = b.HeapSize ∧
        ∀ i, cfg.sizeofRawObject ≤ i → i < a.HeapSize → a.mem i = b.mem i := by
  unfold ObjectOffsetTrait.IsKeyEqual
  simp only [body_size_eq cfg a.HeapSize hsize hfit]
  by_cases hc : a.GetClassId = b.GetClassId
  · by_cases hs : b.HeapSize = a.HeapSize
    · simp only [hc, hs, ne_eq, not_true_eq_false, if_false, decide_eq_true_eq, true_and]
      rw [memcmp_eq_zero_iff]
      constructor
      · intro h i hi1 hi2
        have := h (i - cfg.sizeofRawObject) (by omega)
        have e : cfg.sizeofRawObject + (i - cfg.sizeofRawObject) = i := by omega
        rw [e] at this
        exact this
      · intro h i hi
        exact h (cfg.sizeofRawObject + i) (by omega) (by omega)
    · simp only [hc, ne_eq, not_true_eq_false, if_false, hs, not_false_eq_true, if_true,
        Bool.false_eq_true, true_and, false_iff, not_and]
      intro h
      exact absurd h.symm hs
  · simp [hc]

/-- C9: `ObjectOffsetTrait::IsKeyEqual(a, b)` (for an object at least as large
as its header, with a representable size) is true exactly when `a` and `b`
have the same class id, the same heap size and the same bytes from the end
of the header to the end of the object; the result is the same for any other
two objects with these class ids, sizes and body bytes, whatever their header
words and header bytes are. -/
theorem IsKeyEqual_iff (cfg : Config) (pair : ObjectOffsetPair) (key : RawObject)
    (hsize : cfg.sizeofRawObject ≤ pair.object.HeapSize)
    (hfit : pair.object.HeapSize < 256 ^ cfg.kWordSize) :
    (ObjectOffsetTrait.IsKeyEqual cfg pair key = true ↔
      pair.object.GetClassId = key.GetClassId ∧ pair.object.HeapSize = key.HeapSize ∧
        ∀ i, cfg.sizeofRawObject ≤ i → i < pair.object.HeapSize →
          pair.object.mem i = key.mem i) ∧
    (∀ (a1 b1 : RawObject) (offset1 : Nat),
      a1.GetClassId = pair.object.GetClassId → a1.HeapSize = pair.object.HeapSize →
      (∀ i, cfg.sizeofRawObject ≤ i → i < a1.HeapSize → a1.mem i = pair.object.mem i) →
      b1.GetClassId = key.GetClassId → b1.HeapSize = key.HeapSize →
      (∀ i, cfg.sizeofRawObject ≤ i → i < b1.HeapSize → b1.mem i = key.mem i) →
      ObjectOffsetTrait.IsKeyEqual cfg { object := a1, offset := offset1 } b1
        = ObjectOffsetTrait.IsKeyEqual cfg pair key) := by
  have hmain := IsKeyEqual_true_iff cfg pair.object key pair.offset hsize hfit
  refine ⟨hmain, ?_⟩
  intro a1 b1 offset1 hac has ham hbc hbs hbm
  have h1 := IsKeyEqual_true_iff cfg a1 b1 offset1 (by rw [has]; exact hsize)
    (by rw [has]; exact hfit)
  rw [Bool.eq_iff_iff, h1]
  have hpair : ObjectOffsetTrait.IsKeyEqual cfg pair key
      = ObjectOffsetTrait.IsKeyEqual cfg { object := pair.object, offset := pair.offset } key :=
    rfl
  rw [hpair, hmain, hac, has, hbc, hbs]
  constructor
  · rintro ⟨hc, hs, hm⟩
    refine ⟨hc, hs, ?_⟩
    intro i hi1 hi2
    rw [← ham i hi1 (by rw [has]; exact hi2), hm i hi1 hi2, hbm i hi1 (by omega)]
  · rintro ⟨hc, hs, hm⟩
    refine ⟨hc, hs, ?_⟩
    intro i hi1 hi2
    rw [ham i hi1 (by rw [has]; exact hi2), hm i hi1 hi2, hbm i hi1 (by omega)]

/-- Witness for `IsKeyEqual_iff`: the two copies of the string "hi". -/
theorem IsKeyEqual_iff_witness :
    (ObjectOffsetTrait.IsKeyEqual exampleConfig { object := exampleKeyA, offset := 16 }
        exampleKeyB = true ↔
      exampleKeyA.GetClassId = exampleKeyB.GetClassId ∧
        exampleKeyA.HeapSize = exampleKeyB.HeapSize ∧
        ∀ i, exampleConfig.sizeofRawObject ≤ i → i < exampleKeyA.HeapSize →
          exampleKeyA.mem i = exampleKeyB.mem i) ∧
    (∀ (a1 b1 : RawObject) (offset1 : Nat),
      a1.GetClassId = exampleKeyA.GetClassId → a1.HeapSize = exampleKeyA.HeapSize →
      (∀ i, exampleConfig.sizeofRawObject ≤ i → i < a1.HeapSize →
        a1.mem i = exampleKeyA.mem i) →
      b1.GetClassId = exampleKeyB.GetClassId → b1.HeapSize = exampleKeyB.HeapSize →
      (∀ i, exampleConfig.sizeofRawObject ≤ i → i < b1.HeapSize →
        b1.mem i = exampleKeyB.mem i) →
      ObjectOffsetTrait.IsKeyEqual exampleConfig { object := a1, offset := offset1 } b1
        = ObjectOffsetTrait.IsKeyEqual exampleConfig { object := exampleKeyA, offset := 16 }
            exampleKeyB) :=
  IsKeyEqual_iff exampleConfig { object := exampleKeyA, offset := 16 } exampleKeyB
    (by decide) (by decide)

theorem HashcodeLoop_congr (cfg : Config) (a b : RawObject) (end_ : Nat) :
    ∀ (fuel cursor hash : Nat), cursor ≤ end_ → 4 ∣ end_ - cursor →
      (∀ i, cursor ≤ i → i < end_ → a.mem i = b.mem i) →
      HashcodeLoop cfg a end_ fuel cursor hash = HashcodeLoop cfg b end_ fuel cursor hash := by
  intro fuel
  induction fuel with
  | zero =>
    intro cursor hash _ _ _
    rfl
  | succ n ih =>
    intro cursor hash hle hdvd hmem
    simp only [HashcodeLoop]
    by_cases hlt : cursor < end_
    · simp only [hlt, if_true]
      have hge : 4 ≤ end_ - cursor := Nat.le_of_dvd (Nat.sub_pos_of_lt hlt) hdvd
      have hread : readFixed a.mem cursor 4 = readFixed b.mem cursor 4 := by
        apply readFixed_ext
        intro i hi
        exact hmem (cursor + i) (by omega) (by omega)
      rw [hread]
      apply ih (cursor + 4) _ (by omega)
      · have e : end_ - (cursor + 4) = (end_ - cursor) - 4 := by omega
        rw [e]
        exact Nat.dvd_sub' hdvd (dvd_refl 4)
      · intro i hi1 hi2
        exact hmem i (by omega) hi2
    · simp only [hlt, if_false]

theorem Hashcode_congr (cfg : Config) (a b : RawObject)
    (hcid : a.GetClassId = b.GetClassId) (hheap : a.HeapSize = b.HeapSize)
    (hbody : ∀ i, cfg.sizeofRawObject ≤ i → i < a.HeapSize → a.mem i = b.mem i)
    (hsize : cfg.sizeofRawObject ≤ a.HeapSize)
    (hwords : 4 ∣ a.HeapSize - cfg.sizeofRawObject) :
    ObjectOffsetTrait.Hashcode cfg a = ObjectOffsetTrait.Hashcode cfg b := by
  unfold ObjectOffsetTrait.Hashcode
  simp only [← hcid, ← hheap]
  rw [HashcodeLoop_congr cfg a b a.HeapSize _ _ _ hsize hwords hbody]

theorem IsKeyEqual_congr_key (cfg : Config) (pair : ObjectOffsetPair) (a b : RawObject)
    (hcid : a.GetClassId = b.GetClassId) (hheap : a.HeapSize = b.HeapSize)
    (hbody : ∀ i, cfg.sizeofRawObject ≤ i → i < a.HeapSize → a.mem i = b.mem i)
    (hsize : cfg.sizeofRawObject ≤ a.HeapSize) (hfit : a.HeapSize < 256 ^ cfg.kWordSize) :
    ObjectOffsetTrait.IsKeyEqual cfg pair a = ObjectOffsetTrait.IsKeyEqual cfg pair b := by
  unfold ObjectOffsetTrait.IsKeyEqual
  simp only [← hcid, ← hheap]
  by_cases hc : pair.object.GetClassId = a.GetClassId
  · by_cases hs : a.HeapSize = pair.object.HeapSize
    · simp only [hc, hs, ne_eq, not_true_eq_false, if_false]
      rw [← hs, body_size_eq cfg a.HeapSize hsize hfit]
      rw [Bool.eq_iff_iff]
      simp only [decide_eq_true_eq]
      rw [memcmp_eq_zero_iff, memcmp_eq_zero_iff]
      constructor
      · intro h i hi
        rw [h i hi]
        exact hbody _ (by omega) (by omega)
      · intro h i hi
        rw [h i hi]
        exact (hbody _ (by omega) (by omega)).symm
    · simp only [hc, ne_eq, not_true_eq_false, if_false, hs, not_false_eq_true, if_true]
  · simp only [ne_eq, hc, not_false_eq_true, if_true]

/-- C10: for two objects with the same class id, the same heap size and
identical body bytes (their addresses, header words and header bytes may
differ; the body is a whole number of 32-bit words), `Hashcode` gives the same
hash for both, `IsKeyEqual` holds between them, and a lookup of the second
object in the Content Index, after the first, not present before, was inserted
with offset `o`, finds `o`. -/
theorem bit_identical_objects_share_offset (cfg : Config) (map : ObjectOffsetMap)
    (a b : RawObject) (o : Nat)
    (hcid : a.GetClassId = b.GetClassId) (hheap : a.HeapSize = b.HeapSize)
    (hbody : ∀ i, cfg.sizeofRawObject ≤ i → i < a.HeapSize → a.mem i = b.mem i)
    (hsize : cfg.sizeofRawObject ≤ a.HeapSize) (hfit : a.HeapSize < 256 ^ cfg.kWordSize)
    (hwords : 4 ∣ a.HeapSize - cfg.sizeofRawObject)
    (hnew : map.LookupValue cfg a = none) :
    ObjectOffsetTrait.Hashcode cfg a = ObjectOffsetTrait.Hashcode cfg b ∧
      ObjectOffsetTrait.IsKeyEqual cfg { object := a, offset := o } b = true ∧
      (map.Insert { object := a, offset := o }).LookupValue cfg b = some o := by
  have hhash := Hashcode_congr cfg a b hcid hheap hbody hsize hwords
  have heq : ObjectOffsetTrait.IsKeyEqual cfg { object := a, offset := o } b = true :=
    (IsKeyEqual_true_iff cfg a b o hsize hfit).mpr ⟨hcid, hheap, hbody⟩
  refine ⟨hhash, heq, ?_⟩
  have hnone : ∀ pair ∈ map.pairs,
      (ObjectOffsetTrait.Hashcode cfg pair.object == ObjectOffsetTrait.Hashcode cfg b &&
        ObjectOffsetTrait.IsKeyEqual cfg pair b) = false := by
    intro pair hp
    simp only [ObjectOffsetMap.LookupValue, Option.map_eq_none', List.find?_eq_none] at hnew
    have h := hnew pair hp
    rw [← hhash, ← IsKeyEqual_congr_key cfg pair a b hcid hheap hbody hsize hfit]
    simpa using h
  have hfind : map.pairs.find? (fun pair =>
      ObjectOffsetTrait.Hashcode cfg pair.object == ObjectOffsetTrait.Hashcode cfg b &&
        ObjectOffsetTrait.IsKeyEqual cfg pair b) = none := by
    rw [List.find?_eq_none]
    intro pair hp
    simp only [hnone pair hp, Bool.false_eq_true, not_false_eq_true]
  simp only [ObjectOffsetMap.LookupValue, ObjectOffsetMap.Insert, List.find?_append, hfind,
    Option.none_or, List.find?_cons, hhash, beq_self_eq_true, heq, Bool.and_self,
    Option.map_some']

/-- Witness for `bit_identical_objects_share_offset`: the two copies of the
string "hi", the second one pre-marked, and an empty index. -/
theorem bit_identical_objects_share_offset_witness :
    ObjectOffsetTrait.Hashcode exampleConfig exampleKeyA
        = ObjectOffsetTrait.Hashcode exampleConfig exampleKeyB ∧
      ObjectOffsetTrait.IsKeyEqual exampleConfig { object := exampleKeyA, offset := 16 }
        exampleKeyB = true ∧
      (ObjectOffsetMap.Insert { pairs := [] } { object := exampleKeyA, offset := 16 }).LookupValue
        exampleConfig exampleKeyB = some 16 :=
  bit_identical_objects_share_offset exampleConfig { pairs := [] } exampleKeyA exampleKeyB 16
    rfl rfl
    (by
      intro i h1 h2
      have h3 : 8 ≤ i := h1
      have h4 : i < 16 := h2
      have h5 : i ≠ 0 := by omega
      simp [exampleKeyA, exampleKeyB, h5])
    (by decide) (by decide) (by decide) rfl

/-! ## Theorems: the image reader -/

theorem IsAligned_iff_dvd (x n : Nat) : IsAligned x n = true ↔ n ∣ x := by
  unfold IsAligned
  rw [beq_iff_eq, Nat.dvd_iff_mod_eq_zero]

/-- C11: `ImageReader::VerifyAlignment` returns an error value exactly when the
data base pointer is not a multiple of `kObjectAlignment` or the instructions
base pointer is not a multiple of `kMaxObjectAlignment`, and the null value
when both are aligned; it is a total function (no abort). -/
theorem VerifyAlignment_spec (cfg : Config) (reader : ImageReader) :
    ((reader.VerifyAlignment cfg).isSome = true ↔
      (¬ cfg.kObjectAlignment ∣ reader.data_image_ ∨
        ¬ cfg.kMaxObjectAlignment ∣ reader.instructions_image_)) ∧
    (cfg.kObjectAlignment ∣ reader.data_image_ →
      cfg.kMaxObjectAlignment ∣ reader.instructions_image_ →
      reader.VerifyAlignment cfg = none) ∧
    ((reader.VerifyAlignment cfg).isSome = true →
      reader.VerifyAlignment cfg = some "Snapshot is misaligned") := by
  have h1 := IsAligned_iff_dvd reader.data_image_ cfg.kObjectAlignment
  have h2 := IsAligned_iff_dvd reader.instructions_image_ cfg.kMaxObjectAlignment
  unfold ImageReader.VerifyAlignment
  by_cases ha : IsAligned reader.data_image_ cfg.kObjectAlignment = true
  · by_cases hb : IsAligned reader.instructions_image_ cfg.kMaxObjectAlignment = true
    · have h1' := h1.mp ha
      have h2' := h2.mp hb
      simp [ha, hb, h1', h2']
    · have h2' : ¬ cfg.kMaxObjectAlignment ∣ reader.instructions_image_ := fun h => hb (h2.mpr h)
      simp [ha, hb, h2']
  · have h1' : ¬ cfg.kObjectAlignment ∣ reader.data_image_ := fun h => ha (h1.mpr h)
    simp [ha, h1']

/-- C12: for every offset, and so for every offset that is a multiple of the
object alignment (the alignment check is a debug-only `ASSERT`), such that the
addressed object lies inside the address space,
`ImageReader::GetObjectAt(offset)` returns the pointer `data_image + offset`
and `ImageReader::GetInstructionsAt(offset)` the pointer
`instructions_image + offset`. -/
theorem GetObjectAt_GetInstructionsAt_spec (cfg : Config) (reader : ImageReader)
    (offset : Nat) (hdata : reader.data_image_ + offset < 256 ^ cfg.kWordSize)
    (hinstructions : reader.instructions_image_ + offset < 256 ^ cfg.kWordSize) :
    reader.GetObjectAt cfg offset = reader.data_image_ + offset ∧
      reader.GetInstructionsAt cfg offset = reader.instructions_image_ + offset := by
  refine ⟨?_, ?_⟩
  · simp only [ImageReader.GetObjectAt, RawObject.FromAddr, Nat.mod_eq_of_lt hdata]
  · simp only [ImageReader.GetInstructionsAt, RawObject.FromAddr,
      Nat.mod_eq_of_lt hinstructions]

/-- Witness for `GetObjectAt_GetInstructionsAt_spec`: offset 48 in the example
reader. -/
theorem GetObjectAt_GetInstructionsAt_spec_witness :
    exampleReader.GetObjectAt exampleConfig 48 = exampleReader.data_image_ + 48 ∧
      exampleReader.GetInstructionsAt exampleConfig 48
        = exampleReader.instructions_image_ + 48 :=
  GetObjectAt_GetInstructionsAt_spec exampleConfig exampleReader 48 (by decide) (by decide)

/-! ## Theorems: unsupported classes, the sizing example, trampolines -/

theorem WriteRODataObjects_none_of_mem (cfg : Config) (obj : RawObject)
    (hobj : ∀ s, WriteRODataObject cfg s obj = none) (objs : List ObjectData) :
    ∀ s, (∃ d ∈ objs, d.raw_obj_ = obj) → WriteRODataObjects cfg s objs = none := by
  induction objs with
  | nil =>
    intro s h
    obtain ⟨d, hd, _⟩ := h
    exact absurd hd (List.not_mem_nil d)
  | cons d rest ih =>
    intro s h
    simp only [WriteRODataObjects]
    cases hw : WriteRODataObject cfg s d.raw_obj_ with
    | none => rfl
    | some s1 =>
      obtain ⟨d2, hd2, heq⟩ := h
      rcases List.mem_cons.mp hd2 with h1 | h1
      · rw [h1] at heq
        rw [heq, hobj s] at hw
        exact absurd hw (by simp)
      · exact ih s1 ⟨d2, h1, heq⟩

/-- C13, as stated, fails: in the same-word-size build a plain list object is
sized by its heap size (32), registered at offset 16, and `WriteROData` writes
it to the stream: the section takes 48 bytes after the aligned start 16 and
the word at the entry start is the marked header 24. Nothing aborts. -/
theorem unsupported_class_same_word_size_example :
    SizeInSnapshot exampleConfig exampleArray = some 32 ∧
    GetDataOffsetFor exampleConfig (ImageWriter.Construct exampleConfig exampleHeap)
        exampleArray = some (16, exampleArrayWriter) ∧
    ∃ out, WriteROData exampleConfig exampleArrayWriter exampleStream = some out ∧
      out.current = 16 + 48 ∧ readFixed out.buffer 32 8 = 24 :=
  ⟨by decide, rfl, _, rfl, by decide, by decide⟩

/-- C14: with object alignment 16 and instructions header size 16,
`InstructionsSizeInSnapshot(40)` is 64, and registering one code block of 40
payload bytes (in the same-word-size build: of heap size 64) with
`GetTextOffsetFor` on a fresh writer leaves the text cursor at the header size
plus 64, with that one entry at the header size. -/
theorem sizing_example_40_bytes (cfg : Config) (heap : Heap) (instructions : RawObject)
    (code : RawCode) (hA : cfg.targetObjectAlignment = 16)
    (hH : cfg.targetInstructionsHeaderSize = 16)
    (hcid : instructions.GetClassId = ClassId.kInstructionsCid)
    (hlen : instructions.length_ = 40)
    (hheap : cfg.IS_SIMARM_X64 = false → instructions.HeapSize = 64)
    (hid : heap.GetObjectId instructions = 0) :
    InstructionsSizeInSnapshot cfg 40 = 64 ∧
      ∃ r w1, GetTextOffsetFor cfg (ImageWriter.Construct cfg heap) instructions code
          = some (r, w1) ∧
        w1.next_text_offset_ = cfg.kHeaderSize + 64 ∧
        w1.instructions_ = [InstructionsData.ofCode instructions code cfg.kHeaderSize] := by
  have h64 : InstructionsSizeInSnapshot cfg 40 = 64 := by
    simp only [InstructionsSizeInSnapshot, hA, hH]
    decide
  refine ⟨h64, ?_⟩
  have hsz : SizeInSnapshot cfg instructions = some 64 := by
    rw [SizeInSnapshot_instructions cfg instructions hcid]
    cases hsim : cfg.IS_SIMARM_X64 with
    | true => simp only [if_true, hlen, h64]
    | false => simp only [Bool.false_eq_true, if_false, hheap hsim]
  have hid2 : (ImageWriter.Construct cfg heap).heap_.GetObjectId instructions = 0 := hid
  simp only [GetTextOffsetFor, hid2, ne_eq, not_true_eq_false, if_false, hsz]
  exact ⟨_, _, rfl, rfl, rfl⟩

/-- Witness for `sizing_example_40_bytes` in the same-word-size build. -/
theorem sizing_example_40_bytes_witness :
    InstructionsSizeInSnapshot exampleConfig 40 = 64 ∧
      ∃ r w1, GetTextOffsetFor exampleConfig (ImageWriter.Construct exampleConfig exampleHeap)
          exampleInstructions40 exampleCode40 = some (r, w1) ∧
        w1.next_text_offset_ = exampleConfig.kHeaderSize + 64 ∧
        w1.instructions_ =
          [InstructionsData.ofCode exampleInstructions40 exampleCode40
            exampleConfig.kHeaderSize] :=
  sizing_example_40_bytes exampleConfig exampleHeap exampleInstructions40 exampleCode40
    rfl rfl rfl rfl (fun _ => rfl) rfl


/-- C15: an `InsertBytesOfTrampoline` command processed by
`PrepareForSerialization` always succeeds, appends exactly one raw trampoline
entry whose offset is the text cursor before the command, advances the text
cursor by exactly the trampoline length and leaves the identity→offset map
(and the data section state) unchanged. There is no deduplication: two
commands carrying the same buffer of a positive length produce two entries at
two different offsets, the second one a trampoline length after the first. -/
theorem trampoline_command_appends (cfg : Config) (w : ImageWriter) (e1 e2 : Nat)
    (buffer : Nat → Nat) (len : Nat) (hlen : 0 < len) :
    PrepareForSerializationStep cfg w (ImageWriterCommand.InsertBytesOfTrampoline e1 buffer len)
        = some { w with
            instructions_ := w.instructions_ ++
              [InstructionsData.ofTrampoline buffer len w.next_text_offset_],
            next_text_offset_ := w.next_text_offset_ + len } ∧
      ∃ w2, PrepareForSerialization cfg w
          (some [ImageWriterCommand.InsertBytesOfTrampoline e1 buffer len,
                 ImageWriterCommand.InsertBytesOfTrampoline e2 buffer len]) = some w2 ∧
        w2.instructions_ = w.instructions_ ++
          [InstructionsData.ofTrampoline buffer len w.next_text_offset_,
           InstructionsData.ofTrampoline buffer len (w.next_text_offset_ + len)] ∧
        w.next_text_offset_ ≠ w.next_text_offset_ + len ∧
        w2.next_text_offset_ = w.next_text_offset_ + len + len ∧
        w2.heap_ = w.heap_ ∧ w2.objects_ = w.objects_ ∧
        w2.next_data_offset_ = w.next_data_offset_ := by
  refine ⟨rfl, _, rfl, ?_, ?_, rfl, rfl, rfl, rfl⟩
  · simp only [List.append_assoc, List.singleton_append]
  · omega

/-- Witness for `trampoline_command_appends`: two identical 8-byte trampolines
on the writer that already holds one code block. -/
theorem trampoline_command_appends_witness :
    PrepareForSerializationStep exampleConfig exampleRegistered
        (ImageWriterCommand.InsertBytesOfTrampoline 0 (fun _ => 204) 8)
        = some { exampleRegistered with
            instructions_ := exampleRegistered.instructions_ ++
              [InstructionsData.ofTrampoline (fun _ => 204) 8
                exampleRegistered.next_text_offset_],
            next_text_offset_ := exampleRegistered.next_text_offset_ + 8 } ∧
      ∃ w2, PrepareForSerialization exampleConfig exampleRegistered
          (some [ImageWriterCommand.InsertBytesOfTrampoline 0 (fun _ => 204) 8,
                 ImageWriterCommand.InsertBytesOfTrampoline 8 (fun _ => 204) 8]) = some w2 ∧
        w2.instructions_ = exampleRegistered.instructions_ ++
          [InstructionsData.ofTrampoline (fun _ => 204) 8 exampleRegistered.next_text_offset_,
           InstructionsData.ofTrampoline (fun _ => 204) 8
             (exampleRegistered.next_text_offset_ + 8)] ∧
        exampleRegistered.next_text_offset_ ≠ exampleRegistered.next_text_offset_ + 8 ∧
        w2.next_text_offset_ = exampleRegistered.next_text_offset_ + 8 + 8 ∧
        w2.heap_ = exampleRegistered.heap_ ∧ w2.objects_ = exampleRegistered.objects_ ∧
        w2.next_data_offset_ = exampleRegistered.next_data_offset_ :=
  trampoline_command_appends exampleConfig exampleRegistered 0 8 (fun _ => 204) 8 (by decide)


/-! ## Theorems: symbol names -/

/-- The name of the example, spelled out. -/
theorem AssemblyNameFor_example :
    exampleCodeNamer.AssemblyNameFor 12 exampleFunctionCode
      = some (String.toList "Precompiled_A_f_T__12") := by
  decide


/-! ## Theorems: the driver -/

theorem WriteResetObjectIds_spec (entries : List InstructionsData) :
    ∀ heap : Heap, (∀ d ∈ entries, EntryOk d) →
      ∃ heap1, WriteResetObjectIds heap entries = some heap1 ∧
        ∀ a : Nat,
          ((∃ d ∈ entries, d.trampoline_bytes = none ∧
              ∃ insns, d.raw_insns_ = some insns ∧ insns.addr = a) →
            heap1.object_ids a = 0) ∧
          ((¬ ∃ d ∈ entries, d.trampoline_bytes = none ∧
              ∃ insns, d.raw_insns_ = some insns ∧ insns.addr = a) →
            heap1.object_ids a = heap.object_ids a) := by
  induction entries with
  | nil =>
    intro heap _
    refine ⟨heap, rfl, fun a => ⟨?_, fun _ => rfl⟩⟩
    rintro ⟨d, hd, _⟩
    exact absurd hd (List.not_mem_nil d)
  | cons d rest ih =>
    intro heap hok
    have hrest : ∀ d1 ∈ rest, EntryOk d1 := fun d1 h => hok d1 (List.mem_cons_of_mem _ h)
    cases htr : d.trampoline_bytes with
    | some bytes =>
      obtain ⟨heap1, hrun, hspec⟩ := ih heap hrest
      refine ⟨heap1, ?_, fun a => ⟨?_, ?_⟩⟩
      · simp only [WriteResetObjectIds, htr, Option.isSome_some, if_true]
        exact hrun
      · rintro ⟨d1, hd1, hnone, hins⟩
        rcases List.mem_cons.mp hd1 with h | h
        · rw [h, htr] at hnone
          exact absurd hnone (by simp)
        · exact (hspec a).1 ⟨d1, h, hnone, hins⟩
      · intro hno
        exact (hspec a).2 (fun ⟨d1, hd1, h⟩ => hno ⟨d1, List.mem_cons_of_mem _ hd1, h⟩)
    | none =>
      have hd := hok d (List.mem_cons_self _ _)
      simp only [EntryOk, htr, Option.isSome_none, Bool.false_eq_true, false_or] at hd
      obtain ⟨insns, hin⟩ := Option.isSome_iff_exists.mp hd.1
      obtain ⟨heap1, hrun, hspec⟩ := ih (heap.SetObjectId insns 0) hrest
      refine ⟨heap1, ?_, fun a => ⟨?_, ?_⟩⟩
      · simp only [WriteResetObjectIds, htr, Option.isSome_none, Bool.false_eq_true, if_false,
          hin]
        exact hrun
      · rintro ⟨d1, hd1, hnone, insns1, hin1, ha⟩
        by_cases hr : ∃ d2 ∈ rest, d2.trampoline_bytes = none ∧
            ∃ insns2, d2.raw_insns_ = some insns2 ∧ insns2.addr = a
        · exact (hspec a).1 hr
        · rw [(hspec a).2 hr]
          rcases List.mem_cons.mp hd1 with h | h
          · rw [h, hin] at hin1
            have e : insns = insns1 := Option.some.inj hin1
            rw [← ha, ← e]
            simp only [Heap.SetObjectId, Function.update_same]
          · exact absurd ⟨d1, h, hnone, insns1, hin1, ha⟩ hr
      · intro hno
        have hr : ¬ ∃ d2 ∈ rest, d2.trampoline_bytes = none ∧
            ∃ insns2, d2.raw_insns_ = some insns2 ∧ insns2.addr = a :=
          fun ⟨d2, hd2, h⟩ => hno ⟨d2, List.mem_cons_of_mem _ hd2, h⟩
        rw [(hspec a).2 hr]
        have hne : a ≠ insns.addr := by
          intro e
          exact hno ⟨d, List.mem_cons_self _ _, htr, insns, hin, e.symm⟩
        simp only [Heap.SetObjectId, Function.update_noteq hne]

theorem BlobImageWriter_WriteText_heap (cfg : Config) (namer : Nat → RawCode → String)
    (bw : BlobImageWriter) (w0 : ImageWriter) (s : WriteStream) (b : Bool)
    (r : ImageWriter × BlobImageWriter)
    (h : BlobImageWriter.WriteText cfg namer bw w0 s b = some r) : r.1.heap_ = w0.heap_ := by
  unfold BlobImageWriter.WriteText at h
  cases hb : BlobWriteText cfg namer { bw with writer := w0 } b with
  | none =>
    rw [hb] at h
    exact absurd h (by simp)
  | some bw1 =>
    rw [hb] at h
    have e : r = (bw1.writer, bw1) := (Option.some.inj h).symm
    rw [e]
    unfold BlobWriteText at hb
    split at hb
    · exact absurd hb (by simp)
    · have e1 := (Option.some.inj hb).symm
      rw [e1]


/-- The run of `Write` on the example: it returns, the instructions object
that was registered at offset 16 has id 0 afterwards, and registering it again
yields the text cursor 64 as its new offset. -/
theorem Write_resets_example :
    exampleRegistered.heap_.GetObjectId exampleInstructions = 16 ∧
    ∃ w1 s1 out,
      ImageWriter.Write exampleConfig
          (BlobImageWriter.WriteText exampleConfig exampleNamer (exampleBlobWriter none))
          exampleRegistered exampleStream true = some (w1, s1, out) ∧
      w1.heap_.GetObjectId exampleInstructions = 0 ∧
      (GetTextOffsetFor exampleConfig w1 exampleInstructions exampleCode).map Prod.fst
        = some 64 :=
  ⟨by decide, _, _, _, rfl, by decide, by decide⟩


/-! ## Theorems: text entries of the assembly backend -/

theorem RoundUp_le_of_dvd (x n m : Nat) (hn : 0 < n) (hd : n ∣ m) (hle : x ≤ m) :
    RoundUp x n ≤ m := by
  obtain ⟨k, rfl⟩ := hd
  unfold RoundUp
  have h : (x + n - 1) / n ≤ k := by
    have h1 : x + n - 1 < n * (k + 1) := by
      rw [Nat.mul_succ]
      omega
    have h2 := (Nat.div_lt_iff_lt_mul hn).mpr (by rw [Nat.mul_comm] at h1; exact h1)
    omega
  calc (x + n - 1) / n * n ≤ k * n := Nat.mul_le_mul_right n h
    _ = n * k := Nat.mul_comm k n

theorem RoundUp_lt_add (x n : Nat) (hn : 0 < n) : RoundUp x n < x + n := by
  unfold RoundUp
  have h1 := Nat.div_mul_le_self (x + n - 1) n
  omega

theorem RoundUp_RoundUp_of_dvd (h s w a : Nat) (hw : 0 < w) (ha : 0 < a) (hwa : w ∣ a)
    (hwh : w ∣ h) : RoundUp (h + RoundUp s w) a = RoundUp (h + s) a := by
  rw [← RoundUp_add_left h s w hw hwh]
  have hxy := le_RoundUp (h + s) w hw
  have hya : RoundUp (h + s) w ≤ RoundUp (h + s) a :=
    RoundUp_le_of_dvd _ _ _ hw (Dvd.dvd.trans hwa (RoundUp_dvd _ _)) (le_RoundUp _ _ ha)
  apply Nat.le_antisymm
  · exact RoundUp_le_of_dvd _ _ _ ha (RoundUp_dvd _ _) hya
  · exact RoundUp_le_of_dvd _ _ _ ha (RoundUp_dvd _ _)
      (le_trans hxy (le_RoundUp _ _ ha))

theorem AssemblyWritePadding_spec (cfg : Config) (hW : 0 < cfg.targetWordSize) (n : Nat) :
    ∀ (fuel : Nat) (out : List AssemblyLine) (text_offset : Nat), n ≤ fuel →
      n * cfg.targetWordSize < 256 ^ cfg.kWordSize →
      AssemblyWritePadding cfg fuel (n * cfg.targetWordSize) out text_offset
        = some (out ++ List.replicate n
            (AssemblyLine.wordLiteral (cfg.BreakInstructionFiller % 256 ^ cfg.targetWordSize)),
          text_offset + n * cfg.targetWordSize) := by
  induction n with
  | zero =>
    intro fuel out text_offset _ _
    cases fuel <;> simp [AssemblyWritePadding]
  | succ n ih =>
    intro fuel out text_offset hfuel hfit
    obtain ⟨f, rfl⟩ : ∃ f, fuel = f + 1 := ⟨fuel - 1, by omega⟩
    have hpos : (n + 1) * cfg.targetWordSize > 0 := Nat.mul_pos (Nat.succ_pos n) hW
    have hsucc : (n + 1) * cfg.targetWordSize = n * cfg.targetWordSize + cfg.targetWordSize :=
      Nat.succ_mul n _
    have hlt : n * cfg.targetWordSize < 256 ^ cfg.kWordSize := by omega
    have hnext : ((n + 1) * cfg.targetWordSize + 256 ^ cfg.kWordSize - cfg.targetWordSize)
        % 256 ^ cfg.kWordSize = n * cfg.targetWordSize := by
      have e : (n + 1) * cfg.targetWordSize + 256 ^ cfg.kWordSize - cfg.targetWordSize
          = n * cfg.targetWordSize + 256 ^ cfg.kWordSize := by omega
      rw [e, Nat.add_mod_right, Nat.mod_eq_of_lt hlt]
    simp only [AssemblyWritePadding, hpos, if_true, hnext]
    rw [ih f _ _ (by omega) hlt]
    simp only [WriteWordLiteralText, List.append_assoc, List.singleton_append,
      List.replicate_succ, hsucc]
    congr 2
    omega

theorem AssemblyWritePadding_append (cfg : Config) :
    ∀ (fuel alignment_size : Nat) (out : List AssemblyLine) (text_offset : Nat)
      (r : List AssemblyLine × Nat),
      AssemblyWritePadding cfg fuel alignment_size out text_offset = some r →
      ∃ lines, r.1 = out ++ lines := by
  intro fuel
  induction fuel with
  | zero =>
    intro a out t r h
    simp only [AssemblyWritePadding] at h
    split at h
    · exact absurd h (by simp)
    · exact ⟨[], by rw [← Option.some.inj h, List.append_nil]⟩
  | succ fuel ih =>
    intro a out t r h
    simp only [AssemblyWritePadding] at h
    split at h
    · obtain ⟨lines, hl⟩ := ih _ _ _ r h
      exact ⟨_ :: lines, by rw [hl, WriteWordLiteralText, List.append_assoc,
        List.singleton_append]⟩
    · exact ⟨[], by rw [← Option.some.inj h, List.append_nil]⟩

theorem AssemblyWriteByteSequenceLoop_append (cfg : Config) (mem : Nat → Nat) (end_ : Nat) :
    ∀ (fuel cursor : Nat) (out : List AssemblyLine),
      ∃ lines, AssemblyWriteByteSequenceLoop cfg mem end_ fuel cursor out = out ++ lines := by
  intro fuel
  induction fuel with
  | zero =>
    intro cursor out
    exact ⟨[], by simp [AssemblyWriteByteSequenceLoop]⟩
  | succ fuel ih =>
    intro cursor out
    simp only [AssemblyWriteByteSequenceLoop]
    split
    · obtain ⟨lines, hl⟩ := ih (cursor + cfg.targetWordSize)
        (WriteWordLiteralText cfg out (readFixed mem cursor cfg.targetWordSize))
      exact ⟨_ :: lines, by rw [hl, WriteWordLiteralText, List.append_assoc,
        List.singleton_append]⟩
    · exact ⟨[], by rw [List.append_nil]⟩

theorem AssemblyWriteHeader_spec (cfg : Config) (out : List AssemblyLine) (text_offset : Nat)
    (insns : RawObject) :
    (∃ rest, (AssemblyWriteHeader cfg out text_offset insns).1
        = out ++ AssemblyLine.wordLiteral
            (EmittedTags cfg insns.tags_ insns.hash_
              (InstructionsSizeInSnapshot cfg insns.length_) % 256 ^ cfg.targetWordSize)
          :: rest) ∧
      (AssemblyWriteHeader cfg out text_offset insns).2
        = text_offset + (if cfg.IS_SIMARM_X64 then 3 * cfg.targetWordSize
            else cfg.kWordSize + (cfg.InstructionsHeaderSize - (0 + cfg.kWordSize))) := by
  cases hsim : cfg.IS_SIMARM_X64 with
  | true =>
    simp only [AssemblyWriteHeader, EmittedTags, MarkedTags, hsim, if_true,
      WriteWordLiteralText, List.append_assoc, List.singleton_append]
    exact ⟨⟨_, rfl⟩, by omega⟩
  | false =>
    simp only [AssemblyWriteHeader, EmittedTags, MarkedTags, hsim, Bool.false_eq_true,
      if_false, AssemblyWriteByteSequence]
    refine ⟨?_, by omega⟩
    obtain ⟨lines, hl⟩ := AssemblyWriteByteSequenceLoop_append cfg insns.mem
      cfg.InstructionsHeaderSize (cfg.InstructionsHeaderSize - (0 + cfg.kWordSize))
      (0 + cfg.kWordSize) (WriteWordLiteralText cfg out
        (if cfg.HASH_IN_OBJECT_HEADER = true then
          BitFieldUpdate cfg.kNewBit false
            (BitFieldUpdate cfg.kOldAndNotRememberedBit true
              (BitFieldUpdate cfg.kOldAndNotMarkedBit false
                (BitFieldUpdate cfg.kOldBit true insns.tags_))) ||| insns.hash_ <<< 32
         else
          BitFieldUpdate cfg.kNewBit false
            (BitFieldUpdate cfg.kOldAndNotRememberedBit true
              (BitFieldUpdate cfg.kOldAndNotMarkedBit false
                (BitFieldUpdate cfg.kOldBit true insns.tags_)))))
    exact ⟨lines, by rw [hl, WriteWordLiteralText, List.append_assoc, List.singleton_append]⟩


theorem next_multiple_le (w r k : Nat) (hd : w ∣ r) (h : k * w < r) : (k + 1) * w ≤ r := by
  obtain ⟨q, rfl⟩ := hd
  have hq : k < q := by
    by_contra hc
    have : w * q ≤ w * k := Nat.mul_le_mul_left w (Nat.le_of_not_lt hc)
    rw [Nat.mul_comm w k] at this
    omega
  calc (k + 1) * w = w * (k + 1) := Nat.mul_comm _ _
    _ ≤ w * q := Nat.mul_le_mul_left w hq

theorem AssemblyWritePayload_length (cfg : Config) (bss_symbol : String) (insns : RawObject)
    (hW : 0 < cfg.targetWordSize) (n : Nat) :
    ∀ (fuel k : Nat) (relocs : List Nat) (out : List AssemblyLine), k ≤ n → n - k ≤ fuel →
      (AssemblyWritePayload cfg bss_symbol insns (n * cfg.targetWordSize) fuel
        (k * cfg.targetWordSize) relocs out).length = out.length + (n - k) := by
  intro fuel
  induction fuel with
  | zero =>
    intro k relocs out _ hfuel
    simp only [AssemblyWritePayload]
    omega
  | succ fuel ih =>
    intro k relocs out hk hfuel
    simp only [AssemblyWritePayload]
    by_cases hlt : k < n
    · have hc : k * cfg.targetWordSize < n * cfg.targetWordSize :=
        Nat.mul_lt_mul_of_pos_right hlt hW
      have hnext : k * cfg.targetWordSize + cfg.targetWordSize = (k + 1) * cfg.targetWordSize :=
        (Nat.succ_mul k _).symm
      simp only [hc, if_true, hnext]
      cases relocs with
      | nil =>
        simp only []
        rw [ih (k + 1) _ _ hlt (by omega)]
        simp only [WriteWordLiteralText, List.length_append, List.length_singleton]
        omega
      | cons r rest =>
        simp only []
        split
        · rw [ih (k + 1) _ _ hlt (by omega)]
          simp only [List.length_append, List.length_singleton]
          omega
        · rw [ih (k + 1) _ _ hlt (by omega)]
          simp only [WriteWordLiteralText, List.length_append, List.length_singleton]
          omega
    · have hc : ¬ k * cfg.targetWordSize < n * cfg.targetWordSize := by
        intro h
        exact hlt (Nat.lt_of_mul_lt_mul_right h)
      simp only [hc, if_false]
      omega

theorem AssemblyWritePayload_spec (cfg : Config) (bss_symbol : String) (insns : RawObject)
    (hW : 0 < cfg.targetWordSize) (n : Nat) :
    ∀ (fuel k : Nat) (relocs : List Nat) (out : List AssemblyLine), k ≤ n → n - k ≤ fuel →
      (∀ r ∈ relocs, k * cfg.targetWordSize ≤ r ∧ cfg.targetWordSize ∣ r) →
      relocs.Pairwise (fun a b => a < b) →
      AssemblyWritePayload cfg bss_symbol insns (n * cfg.targetWordSize) fuel
          (k * cfg.targetWordSize) relocs out
        = out ++ (List.range' k (n - k)).map (PayloadLine cfg bss_symbol insns relocs) := by
  intro fuel
  induction fuel with
  | zero =>
    intro k relocs out _ hfuel _ _
    have e : n - k = 0 := by omega
    simp only [AssemblyWritePayload, e, List.range'_zero, List.map_nil, List.append_nil]
  | succ fuel ih =>
    intro k relocs out hk hfuel hrel hsorted
    simp only [AssemblyWritePayload]
    by_cases hlt : k < n
    · have hc : k * cfg.targetWordSize < n * cfg.targetWordSize :=
        Nat.mul_lt_mul_of_pos_right hlt hW
      have hnext : k * cfg.targetWordSize + cfg.targetWordSize = (k + 1) * cfg.targetWordSize :=
        (Nat.succ_mul k _).symm
      obtain ⟨m, hm⟩ : ∃ m, n - k = m + 1 := ⟨n - k - 1, by omega⟩
      have hm1 : n - (k + 1) = m := by omega
      simp only [hc, if_true, hnext, hm, List.range'_succ, List.map_cons]
      cases relocs with
      | nil =>
        simp only []
        rw [ih (k + 1) [] _ hlt (by omega) (fun r h => absurd h (List.not_mem_nil r))
          List.Pairwise.nil, hm1]
        simp only [WriteWordLiteralText, PayloadLine, List.not_mem_nil, if_false,
          List.append_assoc, List.singleton_append]
      | cons r rest =>
        have hr := hrel r (List.mem_cons_self _ _)
        have hgt : ∀ r1 ∈ rest, r < r1 := (List.pairwise_cons.mp hsorted).1
        have hrest_sorted : rest.Pairwise (fun a b => a < b) :=
          (List.pairwise_cons.mp hsorted).2
        simp only []
        by_cases heq : k * cfg.targetWordSize = r
        · simp only [heq, if_true]
          have hrest : ∀ r1 ∈ rest,
              (k + 1) * cfg.targetWordSize ≤ r1 ∧ cfg.targetWordSize ∣ r1 := by
            intro r1 h1
            have hd := (hrel r1 (List.mem_cons_of_mem _ h1)).2
            exact ⟨next_multiple_le _ _ _ hd (by rw [heq]; exact hgt r1 h1), hd⟩
          rw [ih (k + 1) rest _ hlt (by omega) hrest hrest_sorted, hm1]
          have hhead : PayloadLine cfg bss_symbol insns (r :: rest) k
              = AssemblyLine.bssRelocation bss_symbol
                  (readFixed insns.mem (cfg.InstructionsHeaderSize + r) cfg.targetWordSize) := by
            simp only [PayloadLine, heq, List.mem_cons, true_or, if_true]
          have htail : (List.range' (k + 1) m).map (PayloadLine cfg bss_symbol insns rest)
              = (List.range' (k + 1) m).map (PayloadLine cfg bss_symbol insns (r :: rest)) := by
            apply List.map_congr_left
            intro j hj
            have hj1 : k + 1 ≤ j := (List.mem_range'_1.mp hj).1
            have hne : j * cfg.targetWordSize ≠ r := by
              have : k * cfg.targetWordSize < j * cfg.targetWordSize :=
                Nat.mul_lt_mul_of_pos_right (by omega) hW
              omega
            simp only [PayloadLine, List.mem_cons, hne, false_or]
          rw [hhead, htail, List.append_assoc, List.singleton_append]
        · simp only [heq, if_false]
          have hlt_r : k * cfg.targetWordSize < r := by omega
          have hrel1 : ∀ r1 ∈ r :: rest,
              (k + 1) * cfg.targetWordSize ≤ r1 ∧ cfg.targetWordSize ∣ r1 := by
            intro r1 h1
            have hd := (hrel r1 h1).2
            refine ⟨next_multiple_le _ _ _ hd ?_, hd⟩
            rcases List.mem_cons.mp h1 with h | h
            · rw [h]
              exact hlt_r
            · exact lt_trans hlt_r (hgt r1 h)
          rw [ih (k + 1) (r :: rest) _ hlt (by omega) hrel1 hsorted, hm1]
          have hnot : k * cfg.targetWordSize ∉ r :: rest := by
            intro h
            have := (hrel1 _ h).1
            rw [Nat.succ_mul] at this
            omega
          have hhead : PayloadLine cfg bss_symbol insns (r :: rest) k
              = AssemblyLine.wordLiteral
                  (readFixed insns.mem (cfg.InstructionsHeaderSize + k * cfg.targetWordSize)
                    cfg.targetWordSize % 256 ^ cfg.targetWordSize) := by
            simp only [PayloadLine, hnot, if_false]
          rw [hhead]
          simp only [WriteWordLiteralText, List.append_assoc, List.singleton_append]
    · have hc : ¬ k * cfg.targetWordSize < n * cfg.targetWordSize := by
        intro h
        exact hlt (Nat.lt_of_mul_lt_mul_right h)
      have e : n - k = 0 := by omega
      simp only [hc, if_false, e, List.range'_zero, List.map_nil, List.append_nil]


/-- C18, as stated, fails: the payload loop emits the relocation expression
only for a word whose offset equals the next position returned by the
relocation iterator. With the registered positions 8 and 0 returned in this
order the word at offset 0 is emitted as the literal of its value 0, and with
the registered position 4 (inside the first word) both payload words are
emitted as literals. -/
theorem assembly_relocation_skipped_example :
    (AssemblyWriteTextEntry exampleConfig exampleCodeNamer "_kDartVmSnapshotBss" 0
        exampleAssemblyState
        (InstructionsData.ofCode exampleRelocInstructions exampleUnsortedCode 16)).map
      (fun st => st.assembly_stream_.drop 3)
      = some [AssemblyLine.wordLiteral 0,
              AssemblyLine.bssRelocation "_kDartVmSnapshotBss" 40] ∧
    (AssemblyWriteTextEntry exampleConfig exampleCodeNamer "_kDartVmSnapshotBss" 0
        exampleAssemblyState
        (InstructionsData.ofCode exampleRelocInstructions exampleUnalignedCode 16)).map
      (fun st => st.assembly_stream_.drop 3)
      = some [AssemblyLine.wordLiteral 0, AssemblyLine.wordLiteral 40] := by
  constructor <;> decide

/-- C18 (amended): in the assembly backend of the precompiler build, for a
code-backed entry whose BSS relocation positions are multiples of the target
word size and are returned in strictly increasing order, the payload is
emitted as `RoundUp(Size, word) / word` lines: the word at a relocation
position as the expression `bss_symbol - (.) + addend` with the word stored
there as addend, every other word as the literal of its value. These lines
follow the header and the label in the output of the entry. Whatever the
relocation positions are, the number of payload lines is
`RoundUp(Size, word) / word`. -/
theorem assembly_payload_relocations (cfg : Config) (namer : AssemblyCodeNamer)
    (bss_symbol : String) (i : Nat) (st : AssemblyTextState) (data : InstructionsData)
    (insns : RawObject) (code : RawCode)
    (hpre : cfg.DART_PRECOMPILER = true) (hW : 0 < cfg.targetWordSize)
    (htr : data.trampoline_bytes = none) (hin : data.raw_insns_ = some insns)
    (hco : data.raw_code_ = some code)
    (haligned : ∀ r ∈ code.bss_relocations, cfg.targetWordSize ∣ r)
    (hsorted : code.bss_relocations.Pairwise (fun a b => a < b)) :
    (∀ out text_offset,
      (AssemblyWritePayloadStep cfg bss_symbol insns code out text_offset).1
        = out ++ (List.range (RoundUp insns.length_ cfg.targetWordSize / cfg.targetWordSize)).map
            (PayloadLine cfg bss_symbol insns code.bss_relocations)) ∧
      (∀ st1, AssemblyWriteTextEntry cfg namer bss_symbol i st data = some st1 →
        ∃ name padding,
          st1.assembly_stream_
            = (AssemblyWriteHeader cfg st.assembly_stream_ st.text_offset insns).1 ++
              [AssemblyLine.label name] ++
              (List.range (RoundUp insns.length_ cfg.targetWordSize / cfg.targetWordSize)).map
                (PayloadLine cfg bss_symbol insns code.bss_relocations) ++ padding) ∧
      (∀ (relocs : List Nat) (out : List AssemblyLine),
        (AssemblyWritePayload cfg bss_symbol insns (RoundUp insns.length_ cfg.targetWordSize)
          (RoundUp insns.length_ cfg.targetWordSize) 0 relocs out).length
          = out.length + RoundUp insns.length_ cfg.targetWordSize / cfg.targetWordSize) := by
  have hn : RoundUp insns.length_ cfg.targetWordSize
      = RoundUp insns.length_ cfg.targetWordSize / cfg.targetWordSize * cfg.targetWordSize :=
    (Nat.div_mul_cancel (RoundUp_dvd _ _)).symm
  have hfuel : RoundUp insns.length_ cfg.targetWordSize / cfg.targetWordSize - 0
      ≤ RoundUp insns.length_ cfg.targetWordSize := by
    rw [Nat.sub_zero]
    exact Nat.div_le_self _ _
  have hstep : ∀ out text_offset,
      (AssemblyWritePayloadStep cfg bss_symbol insns code out text_offset).1
        = out ++ (List.range (RoundUp insns.length_ cfg.targetWordSize / cfg.targetWordSize)).map
            (PayloadLine cfg bss_symbol insns code.bss_relocations) := by
    intro out text_offset
    simp only [AssemblyWritePayloadStep, hpre, if_true]
    have h := AssemblyWritePayload_spec cfg bss_symbol insns hW
      (RoundUp insns.length_ cfg.targetWordSize / cfg.targetWordSize)
      (RoundUp insns.length_ cfg.targetWordSize) 0 code.bss_relocations out (Nat.zero_le _)
      hfuel (fun r hr => ⟨by omega, haligned r hr⟩) hsorted
    rw [← hn, Nat.zero_mul, Nat.sub_zero, ← List.range_eq_range'] at h
    exact h
  refine ⟨hstep, ?_, ?_⟩
  · intro st1 hrun
    simp only [AssemblyWriteTextEntry, htr, hin, hco] at hrun
    cases hname : namer.AssemblyNameFor (AssemblyAddCode cfg i st.dwarf_ code).1 code with
    | none =>
      simp only [hname] at hrun
      exact absurd hrun (by simp)
    | some name =>
      simp only [hname] at hrun
      cases hpad : AssemblyWriteAlignment cfg insns
          (AssemblyWritePayloadStep cfg bss_symbol insns code
            ((AssemblyWriteHeader cfg st.assembly_stream_ st.text_offset insns).1 ++
              [AssemblyLine.label name])
            (AssemblyWriteHeader cfg st.assembly_stream_ st.text_offset insns).2).1
          (AssemblyWritePayloadStep cfg bss_symbol insns code
            ((AssemblyWriteHeader cfg st.assembly_stream_ st.text_offset insns).1 ++
              [AssemblyLine.label name])
            (AssemblyWriteHeader cfg st.assembly_stream_ st.text_offset insns).2).2 with
      | none =>
        simp only [hpad] at hrun
        exact absurd hrun (by simp)
      | some padded =>
        simp only [hpad] at hrun
        obtain ⟨lines, hl⟩ := AssemblyWritePadding_append cfg _ _ _ _ padded hpad
        refine ⟨name, lines, ?_⟩
        rw [← Option.some.inj hrun]
        simp only [hl, hstep]
  · intro relocs out
    have h := AssemblyWritePayload_length cfg bss_symbol insns hW
      (RoundUp insns.length_ cfg.targetWordSize / cfg.targetWordSize)
      (RoundUp insns.length_ cfg.targetWordSize) 0 relocs out (Nat.zero_le _) hfuel
    rw [← hn, Nat.zero_mul, Nat.sub_zero] at h
    exact h


/-- Witness for `assembly_payload_relocations`: the code block with one
relocation at payload offset 8 in the same-word-size precompiler build. -/
theorem assembly_payload_relocations_witness :
    (∀ out text_offset,
      (AssemblyWritePayloadStep exampleConfig "_kDartVmSnapshotBss" exampleRelocInstructions
          exampleAssemblyCode out text_offset).1
        = out ++ (List.range (RoundUp exampleRelocInstructions.length_
              exampleConfig.targetWordSize / exampleConfig.targetWordSize)).map
            (PayloadLine exampleConfig "_kDartVmSnapshotBss" exampleRelocInstructions
              exampleAssemblyCode.bss_relocations)) ∧
      (∀ st1, AssemblyWriteTextEntry exampleConfig exampleCodeNamer "_kDartVmSnapshotBss" 0
          exampleAssemblyState
          (InstructionsData.ofCode exampleRelocInstructions exampleAssemblyCode 16) = some st1 →
        ∃ name padding,
          st1.assembly_stream_
            = (AssemblyWriteHeader exampleConfig exampleAssemblyState.assembly_stream_
                exampleAssemblyState.text_offset exampleRelocInstructions).1 ++
              [AssemblyLine.label name] ++
              (List.range (RoundUp exampleRelocInstructions.length_
                  exampleConfig.targetWordSize / exampleConfig.targetWordSize)).map
                (PayloadLine exampleConfig "_kDartVmSnapshotBss" exampleRelocInstructions
                  exampleAssemblyCode.bss_relocations) ++ padding) ∧
      (∀ (relocs : List Nat) (out : List AssemblyLine),
        (AssemblyWritePayload exampleConfig "_kDartVmSnapshotBss" exampleRelocInstructions
          (RoundUp exampleRelocInstructions.length_ exampleConfig.targetWordSize)
          (RoundUp exampleRelocInstructions.length_ exampleConfig.targetWordSize) 0 relocs
          out).length
          = out.length + RoundUp exampleRelocInstructions.length_
              exampleConfig.targetWordSize / exampleConfig.targetWordSize) :=
  assembly_payload_relocations exampleConfig exampleCodeNamer "_kDartVmSnapshotBss" 0
    exampleAssemblyState
    (InstructionsData.ofCode exampleRelocInstructions exampleAssemblyCode 16)
    exampleRelocInstructions exampleAssemblyCode rfl (by decide) rfl rfl rfl
    (by decide) (by decide)

/-- The output of the entry of the witness, spelled out: header word, one
more header word, the label, the literal of the first payload word and the
relocation expression with addend 40. -/
theorem assembly_payload_example :
    (AssemblyWriteTextEntry exampleConfig exampleCodeNamer "_kDartVmSnapshotBss" 0
        exampleAssemblyState
        (InstructionsData.ofCode exampleRelocInstructions exampleAssemblyCode 16)).map
      (fun st => (st.assembly_stream_, st.text_offset))
      = some ([AssemblyLine.wordLiteral 24, AssemblyLine.wordLiteral 0,
               AssemblyLine.label (String.toList "Precompiled_A_f_T__0"),
               AssemblyLine.wordLiteral 0,
               AssemblyLine.bssRelocation "_kDartVmSnapshotBss" 40], 32) := by
  decide


theorem AssemblyWritePayloadStep_text_offset (cfg : Config) (bss_symbol : String)
    (insns : RawObject) (code : RawCode) (out : List AssemblyLine) (text_offset : Nat) :
    (AssemblyWritePayloadStep cfg bss_symbol insns code out text_offset).2
      = text_offset + RoundUp insns.length_ cfg.targetWordSize := by
  cases hpre : cfg.DART_PRECOMPILER with
  | true => simp only [AssemblyWritePayloadStep, hpre, if_true]
  | false =>
    simp only [AssemblyWritePayloadStep, hpre, Bool.false_eq_true, if_false,
      AssemblyWriteByteSequence, Nat.add_sub_cancel_left]

theorem AssemblyWriteHeader_text_offset (cfg : Config) (hcfg : TextLayoutOk cfg)
    (out : List AssemblyLine) (text_offset : Nat) (insns : RawObject) :
    (AssemblyWriteHeader cfg out text_offset insns).2
      = text_offset + cfg.targetInstructionsHeaderSize := by
  obtain ⟨_, _, _, _, _, hhdr⟩ := hcfg
  rw [(AssemblyWriteHeader_spec cfg out text_offset insns).2]
  cases hsim : cfg.IS_SIMARM_X64 with
  | true =>
    simp only [hsim, if_true] at hhdr ⊢
    omega
  | false =>
    simp only [hsim, Bool.false_eq_true, if_false] at hhdr ⊢
    omega

theorem AssemblyWriteAlignment_spec (cfg : Config) (hcfg : TextLayoutOk cfg)
    (insns : RawObject) (out : List AssemblyLine) (text_offset : Nat) :
    AssemblyWriteAlignment cfg insns out text_offset
      = some (out ++ List.replicate
          ((RoundUp (cfg.targetInstructionsHeaderSize +
                RoundUp insns.length_ cfg.targetWordSize) cfg.targetObjectAlignment
              - (cfg.targetInstructionsHeaderSize + RoundUp insns.length_ cfg.targetWordSize))
            / cfg.targetWordSize)
          (AssemblyLine.wordLiteral (cfg.BreakInstructionFiller % 256 ^ cfg.targetWordSize)),
        text_offset +
          (RoundUp (cfg.targetInstructionsHeaderSize +
                RoundUp insns.length_ cfg.targetWordSize) cfg.targetObjectAlignment
            - (cfg.targetInstructionsHeaderSize + RoundUp insns.length_ cfg.targetWordSize))) := by
  obtain ⟨hW, hA, hWA, hWH, hfit, _⟩ := hcfg
  have hdvd : cfg.targetWordSize ∣
      RoundUp (cfg.targetInstructionsHeaderSize +
          RoundUp insns.length_ cfg.targetWordSize) cfg.targetObjectAlignment
        - (cfg.targetInstructionsHeaderSize + RoundUp insns.length_ cfg.targetWordSize) :=
    Nat.dvd_sub' (Dvd.dvd.trans hWA (RoundUp_dvd _ _))
      (Nat.dvd_add hWH (RoundUp_dvd _ _))
  have hdiv := Nat.div_mul_cancel hdvd
  have hlt := RoundUp_lt_add (cfg.targetInstructionsHeaderSize +
    RoundUp insns.length_ cfg.targetWordSize) cfg.targetObjectAlignment hA
  have h := AssemblyWritePadding_spec cfg hW
    ((RoundUp (cfg.targetInstructionsHeaderSize +
          RoundUp insns.length_ cfg.targetWordSize) cfg.targetObjectAlignment
        - (cfg.targetInstructionsHeaderSize + RoundUp insns.length_ cfg.targetWordSize))
      / cfg.targetWordSize)
    (RoundUp (cfg.targetInstructionsHeaderSize +
          RoundUp insns.length_ cfg.targetWordSize) cfg.targetObjectAlignment
        - (cfg.targetInstructionsHeaderSize + RoundUp insns.length_ cfg.targetWordSize))
    out text_offset (Nat.div_le_self _ _) (by rw [hdiv]; omega)
  rw [hdiv] at h
  exact h

/-- C19: in the assembly backend, for a code-backed entry of a build whose
constants agree (`TextLayoutOk`), the padding loop comes to its end: the entry
returns, and after the payload it emits exactly
`(RoundUp(HeaderSize + payload_size, alignment) - (HeaderSize + payload_size))
/ word` words, each the break-instruction filler. The bytes accounted for the
entry, header plus payload rounded up to a word plus padding, are
`RoundUp(HeaderSize + Size, alignment)`, which is `SizeInSnapshot` of the
instructions, as the assertion at the end of the entry requires. -/
theorem assembly_entry_padding (cfg : Config) (namer : AssemblyCodeNamer)
    (bss_symbol : String) (i : Nat) (st : AssemblyTextState) (data : InstructionsData)
    (insns : RawObject) (code : RawCode) (hcfg : TextLayoutOk cfg)
    (htr : data.trampoline_bytes = none) (hin : data.raw_insns_ = some insns)
    (hco : data.raw_code_ = some code)
    (hcid : insns.GetClassId = ClassId.kInstructionsCid)
    (hheap : cfg.IS_SIMARM_X64 = false →
      insns.HeapSize
        = RoundUp (cfg.targetInstructionsHeaderSize + insns.length_) cfg.targetObjectAlignment)
    (hname : ∀ index, (namer.AssemblyNameFor index code).isSome = true) :
    ∃ st1 name,
      AssemblyWriteTextEntry cfg namer bss_symbol i st data = some st1 ∧
      namer.AssemblyNameFor (AssemblyAddCode cfg i st.dwarf_ code).1 code = some name ∧
      st1.assembly_stream_
        = (AssemblyWritePayloadStep cfg bss_symbol insns code
            ((AssemblyWriteHeader cfg st.assembly_stream_ st.text_offset insns).1 ++
              [AssemblyLine.label name])
            (AssemblyWriteHeader cfg st.assembly_stream_ st.text_offset insns).2).1 ++
          List.replicate
            ((RoundUp (cfg.targetInstructionsHeaderSize +
                  RoundUp insns.length_ cfg.targetWordSize) cfg.targetObjectAlignment
                - (cfg.targetInstructionsHeaderSize +
                    RoundUp insns.length_ cfg.targetWordSize)) / cfg.targetWordSize)
            (AssemblyLine.wordLiteral
              (cfg.BreakInstructionFiller % 256 ^ cfg.targetWordSize)) ∧
      st1.text_offset = st.text_offset +
        (cfg.targetInstructionsHeaderSize + RoundUp insns.length_ cfg.targetWordSize +
          (RoundUp (cfg.targetInstructionsHeaderSize +
                RoundUp insns.length_ cfg.targetWordSize) cfg.targetObjectAlignment
            - (cfg.targetInstructionsHeaderSize + RoundUp insns.length_ cfg.targetWordSize))) ∧
      cfg.targetInstructionsHeaderSize + RoundUp insns.length_ cfg.targetWordSize +
          (RoundUp (cfg.targetInstructionsHeaderSize +
                RoundUp insns.length_ cfg.targetWordSize) cfg.targetObjectAlignment
            - (cfg.targetInstructionsHeaderSize + RoundUp insns.length_ cfg.targetWordSize))
        = RoundUp (cfg.targetInstructionsHeaderSize + insns.length_)
            cfg.targetObjectAlignment ∧
      SizeInSnapshot cfg insns
        = some (RoundUp (cfg.targetInstructionsHeaderSize + insns.length_)
            cfg.targetObjectAlignment) := by
  obtain ⟨name, hn⟩ := Option.isSome_iff_exists.mp
    (hname (AssemblyAddCode cfg i st.dwarf_ code).1)
  have hpad := AssemblyWriteAlignment_spec cfg hcfg insns
  have hhead := AssemblyWriteHeader_text_offset cfg hcfg st.assembly_stream_ st.text_offset insns
  have hpay := AssemblyWritePayloadStep_text_offset cfg bss_symbol insns code
  obtain ⟨hW, hA, hWA, hWH, _, _⟩ := hcfg
  have hround := RoundUp_RoundUp_of_dvd cfg.targetInstructionsHeaderSize insns.length_
    cfg.targetWordSize cfg.targetObjectAlignment hW hA hWA hWH
  have hle := le_RoundUp (cfg.targetInstructionsHeaderSize +
    RoundUp insns.length_ cfg.targetWordSize) cfg.targetObjectAlignment hA
  have hrun : ∃ st1, AssemblyWriteTextEntry cfg namer bss_symbol i st data = some st1 ∧
      st1.assembly_stream_
        = (AssemblyWritePayloadStep cfg bss_symbol insns code
            ((AssemblyWriteHeader cfg st.assembly_stream_ st.text_offset insns).1 ++
              [AssemblyLine.label name])
            (AssemblyWriteHeader cfg st.assembly_stream_ st.text_offset insns).2).1 ++
          List.replicate
            ((RoundUp (cfg.targetInstructionsHeaderSize +
                  RoundUp insns.length_ cfg.targetWordSize) cfg.targetObjectAlignment
                - (cfg.targetInstructionsHeaderSize +
                    RoundUp insns.length_ cfg.targetWordSize)) / cfg.targetWordSize)
            (AssemblyLine.wordLiteral
              (cfg.BreakInstructionFiller % 256 ^ cfg.targetWordSize)) ∧
      st1.text_offset
        = (AssemblyWritePayloadStep cfg bss_symbol insns code
            ((AssemblyWriteHeader cfg st.assembly_stream_ st.text_offset insns).1 ++
              [AssemblyLine.label name])
            (AssemblyWriteHeader cfg st.assembly_stream_ st.text_offset insns).2).2 +
          (RoundUp (cfg.targetInstructionsHeaderSize +
                RoundUp insns.length_ cfg.targetWordSize) cfg.targetObjectAlignment
            - (cfg.targetInstructionsHeaderSize + RoundUp insns.length_ cfg.targetWordSize)) := by
    simp only [AssemblyWriteTextEntry, htr, hin, hco, hn, hpad]
    exact ⟨_, rfl, rfl, rfl⟩
  obtain ⟨st1, hst1, hstream, hoff⟩ := hrun
  refine ⟨st1, name, hst1, hn, hstream, ?_, ?_, ?_⟩
  · rw [hoff, hpay, hhead]
    omega
  · rw [← hround]
    omega
  · rw [SizeInSnapshot_instructions cfg insns hcid]
    cases hsim : cfg.IS_SIMARM_X64 with
    | true => simp only [if_true, InstructionsSizeInSnapshot]
    | false => simp only [Bool.false_eq_true, if_false, hheap hsim]


/-- Witness for `assembly_entry_padding`: a code block of 20 payload bytes in
the same-word-size build (header 16, alignment 16, word 8): one padding word
brings the entry to 48 bytes. -/
theorem assembly_entry_padding_witness :
    ∃ st1 name,
      AssemblyWriteTextEntry exampleConfig exampleCodeNamer "_kDartVmSnapshotBss" 0
          exampleAssemblyState (InstructionsData.ofCode exampleInstructions20 exampleCode20 16)
        = some st1 ∧
      exampleCodeNamer.AssemblyNameFor
          (AssemblyAddCode exampleConfig 0 exampleAssemblyState.dwarf_ exampleCode20).1
          exampleCode20 = some name ∧
      st1.assembly_stream_
        = (AssemblyWritePayloadStep exampleConfig "_kDartVmSnapshotBss" exampleInstructions20
            exampleCode20
            ((AssemblyWriteHeader exampleConfig exampleAssemblyState.assembly_stream_
                exampleAssemblyState.text_offset exampleInstructions20).1 ++
              [AssemblyLine.label name])
            (AssemblyWriteHeader exampleConfig exampleAssemblyState.assembly_stream_
              exampleAssemblyState.text_offset exampleInstructions20).2).1 ++
          List.replicate
            ((RoundUp (exampleConfig.targetInstructionsHeaderSize +
                  RoundUp exampleInstructions20.length_ exampleConfig.targetWordSize)
                  exampleConfig.targetObjectAlignment
                - (exampleConfig.targetInstructionsHeaderSize +
                    RoundUp exampleInstructions20.length_ exampleConfig.targetWordSize))
              / exampleConfig.targetWordSize)
            (AssemblyLine.wordLiteral
              (exampleConfig.BreakInstructionFiller % 256 ^ exampleConfig.targetWordSize)) ∧
      st1.text_offset = exampleAssemblyState.text_offset +
        (exampleConfig.targetInstructionsHeaderSize +
          RoundUp exampleInstructions20.length_ exampleConfig.targetWordSize +
          (RoundUp (exampleConfig.targetInstructionsHeaderSize +
                RoundUp exampleInstructions20.length_ exampleConfig.targetWordSize)
                exampleConfig.targetObjectAlignment
            - (exampleConfig.targetInstructionsHeaderSize +
                RoundUp exampleInstructions20.length_ exampleConfig.targetWordSize))) ∧
      exampleConfig.targetInstructionsHeaderSize +
          RoundUp exampleInstructions20.length_ exampleConfig.targetWordSize +
          (RoundUp (exampleConfig.targetInstructionsHeaderSize +
                RoundUp exampleInstructions20.length_ exampleConfig.targetWordSize)
                exampleConfig.targetObjectAlignment
            - (exampleConfig.targetInstructionsHeaderSize +
                RoundUp exampleInstructions20.length_ exampleConfig.targetWordSize))
        = RoundUp (exampleConfig.targetInstructionsHeaderSize + exampleInstructions20.length_)
            exampleConfig.targetObjectAlignment ∧
      SizeInSnapshot exampleConfig exampleInstructions20
        = some (RoundUp (exampleConfig.targetInstructionsHeaderSize +
            exampleInstructions20.length_) exampleConfig.targetObjectAlignment) :=
  assembly_entry_padding exampleConfig exampleCodeNamer "_kDartVmSnapshotBss" 0
    exampleAssemblyState (InstructionsData.ofCode exampleInstructions20 exampleCode20 16)
    exampleInstructions20 exampleCode20
    ⟨by decide, by decide, by decide, by decide, by decide, by decide⟩
    rfl rfl rfl rfl (fun _ => rfl) (fun _ => rfl)

/-- The outputs of two entries, spelled out. In the same-word-size build the
block of 20 payload bytes gets three payload words and one filler word and
takes 48 bytes; in the cross-word-size build (word 4, header 12, alignment 8)
the block of 16 payload bytes gets four payload lines (the third one the
relocation expression) and one filler word and takes 32 bytes. -/
theorem assembly_padding_example :
    (AssemblyWriteTextEntry exampleConfig exampleCodeNamer "_kDartVmSnapshotBss" 0
        exampleAssemblyState
        (InstructionsData.ofCode exampleInstructions20 exampleCode20 16)).map
      (fun st => (st.assembly_stream_.drop 3, st.text_offset))
      = some ([AssemblyLine.wordLiteral 7, AssemblyLine.wordLiteral 0,
               AssemblyLine.wordLiteral 0,
               AssemblyLine.wordLiteral 0xCCCCCCCCCCCCCCCC], 48) ∧
    (AssemblyWriteTextEntry exampleCrossConfig exampleCodeNamer "_kDartVmSnapshotBss" 0
        exampleAssemblyState
        (InstructionsData.ofCode exampleRelocInstructions exampleAssemblyCode 16)).map
      (fun st => (st.assembly_stream_.drop 4, st.text_offset))
      = some ([AssemblyLine.wordLiteral 0, AssemblyLine.wordLiteral 0,
               AssemblyLine.bssRelocation "_kDartVmSnapshotBss" 40,
               AssemblyLine.wordLiteral 0,
               AssemblyLine.wordLiteral 0xCCCCCCCC], 32) := by
  constructor <;> decide


/-! ## Theorems: the marked header -/

theorem header_readback (s out : WriteStream) (size value : Nat)
    (hext : (s.WriteFixed size value).Extends out) :
    readFixed out.buffer s.current size = value % 256 ^ size := by
  rw [readFixed_of_Extends (s.WriteFixed size value) out s.current size hext (le_refl _)]
  exact readFixed_WriteFixed s size value

theorem PrepareForSerializationStep_spec (cfg : Config) (w w1 : ImageWriter)
    (c : ImageWriterCommand) (h : PrepareForSerializationStep cfg w c = some w1) :
    w1.next_text_offset_ = w.next_text_offset_ + CommandSize cfg c ∧
      w1.instructions_ = w.instructions_ ++ [CommandEntry w.next_text_offset_ c] ∧
      (∀ obj : RawObject,
        (∀ e code, c = ImageWriterCommand.InsertInstructionOfCode e code →
          (Code.InstructionsOf code).addr ≠ obj.addr) →
        w1.heap_.GetObjectId obj = w.heap_.GetObjectId obj) ∧
      (∀ e code, c = ImageWriterCommand.InsertInstructionOfCode e code →
        w1.heap_.GetObjectId (Code.InstructionsOf code) = w.next_text_offset_) := by
  cases c with
  | InsertInstructionOfCode expected code =>
    simp only [PrepareForSerializationStep] at h
    cases hsz : SizeInSnapshot cfg (Code.InstructionsOf code) with
    | none => simp [hsz] at h
    | some size =>
      simp only [hsz, Option.some.injEq] at h
      rw [← h]
      refine ⟨by simp only [CommandSize, hsz, Option.getD_some], rfl, ?_, ?_⟩
      · intro obj hobj
        have hne := hobj expected code rfl
        simp only [Heap.GetObjectId, Heap.SetObjectId]
        exact Function.update_noteq (Ne.symm hne) _ _
      · intro e code2 hc
        have hcode : code = code2 := by
          injection hc
        rw [← hcode]
        simp only [Heap.GetObjectId, Heap.SetObjectId, Function.update_same]
  | InsertBytesOfTrampoline expected buffer len =>
    simp only [PrepareForSerializationStep, Option.some.injEq] at h
    rw [← h]
    refine ⟨rfl, rfl, fun _ _ => rfl, ?_⟩
    intro e code hc
    exact ImageWriterCommand.noConfusion hc

theorem PrepareForSerializationStep_isSome (cfg : Config) (w : ImageWriter)
    (c : ImageWriterCommand) (h : CommandSizeDefined cfg c) :
    ∃ w1, PrepareForSerializationStep cfg w c = some w1 := by
  cases c with
  | InsertInstructionOfCode expected code =>
    obtain ⟨size, hsz⟩ := Option.isSome_iff_exists.mp h
    simp only [PrepareForSerializationStep, hsz]
    exact ⟨_, rfl⟩
  | InsertBytesOfTrampoline expected buffer len =>
    exact ⟨_, rfl⟩

theorem PrepareForSerializationLoop_isSome (cfg : Config) (cmds : List ImageWriterCommand) :
    ∀ w : ImageWriter, (∀ c ∈ cmds, CommandSizeDefined cfg c) →
      ∃ w1, PrepareForSerializationLoop cfg w cmds = some w1 := by
  induction cmds with
  | nil =>
    intro w _
    exact ⟨w, rfl⟩
  | cons c rest ih =>
    intro w h
    obtain ⟨w2, hstep⟩ := PrepareForSerializationStep_isSome cfg w c
      (h c (List.mem_cons_self _ _))
    obtain ⟨w1, hrest⟩ := ih w2 (fun c1 h1 => h c1 (List.mem_cons_of_mem _ h1))
    exact ⟨w1, by simp only [PrepareForSerializationLoop, hstep, hrest]⟩

theorem PrepareForSerializationLoop_entries (cfg : Config) (cmds : List ImageWriterCommand) :
    ∀ (w w1 : ImageWriter), PrepareForSerializationLoop cfg w cmds = some w1 →
      w1.next_text_offset_ = w.next_text_offset_ + CommandSizeSum cfg cmds ∧
        w1.instructions_ = w.instructions_ ++ CommandEntries cfg w.next_text_offset_ cmds := by
  induction cmds with
  | nil =>
    intro w w1 h
    simp only [PrepareForSerializationLoop, Option.some.injEq] at h
    rw [← h]
    simp only [CommandSizeSum, CommandEntries, Nat.add_zero, List.append_nil, and_self]
  | cons c rest ih =>
    intro w w1 h
    simp only [PrepareForSerializationLoop] at h
    cases hstep : PrepareForSerializationStep cfg w c with
    | none => simp [hstep] at h
    | some w2 =>
      simp only [hstep] at h
      obtain ⟨hcur, hent, _, _⟩ := PrepareForSerializationStep_spec cfg w w2 c hstep
      obtain ⟨hcur1, hent1⟩ := ih w2 w1 h
      refine ⟨?_, ?_⟩
      · rw [hcur1, hcur]
        simp only [CommandSizeSum]
        omega
      · rw [hent1, hent, hcur]
        simp only [CommandEntries, List.append_assoc, List.singleton_append]

theorem PrepareForSerializationLoop_heap_frame (cfg : Config)
    (cmds : List ImageWriterCommand) :
    ∀ (w w1 : ImageWriter), PrepareForSerializationLoop cfg w cmds = some w1 →
      ∀ obj : RawObject,
        (∀ e code, ImageWriterCommand.InsertInstructionOfCode e code ∈ cmds →
          (Code.InstructionsOf code).addr ≠ obj.addr) →
        w1.heap_.GetObjectId obj = w.heap_.GetObjectId obj := by
  induction cmds with
  | nil =>
    intro w w1 h obj _
    simp only [PrepareForSerializationLoop, Option.some.injEq] at h
    rw [h]
  | cons c rest ih =>
    intro w w1 h obj hobj
    simp only [PrepareForSerializationLoop] at h
    cases hstep : PrepareForSerializationStep cfg w c with
    | none => simp [hstep] at h
    | some w2 =>
      simp only [hstep] at h
      obtain ⟨_, _, hframe, _⟩ := PrepareForSerializationStep_spec cfg w w2 c hstep
      rw [ih w2 w1 h obj (fun e code hm => hobj e code (List.mem_cons_of_mem _ hm))]
      exact hframe obj (fun e code hc => hobj e code (by rw [hc]; exact List.mem_cons_self _ _))

theorem PrepareForSerializationLoop_append (cfg : Config) (l1 l2 : List ImageWriterCommand) :
    ∀ (w : ImageWriter), PrepareForSerializationLoop cfg w (l1 ++ l2)
      = (PrepareForSerializationLoop cfg w l1).bind
          (fun w2 => PrepareForSerializationLoop cfg w2 l2) := by
  induction l1 with
  | nil =>
    intro w
    rfl
  | cons c rest ih =>
    intro w
    simp only [List.cons_append, PrepareForSerializationLoop]
    cases hstep : PrepareForSerializationStep cfg w c with
    | none => rfl
    | some w2 => exact ih w2

theorem CommandSizeSum_append (cfg : Config) (l1 l2 : List ImageWriterCommand) :
    CommandSizeSum cfg (l1 ++ l2) = CommandSizeSum cfg l1 + CommandSizeSum cfg l2 := by
  induction l1 with
  | nil => simp only [List.nil_append, CommandSizeSum, Nat.zero_add]
  | cons c rest ih =>
    show CommandSize cfg c + CommandSizeSum cfg (rest ++ l2)
      = CommandSize cfg c + CommandSizeSum cfg rest + CommandSizeSum cfg l2
    rw [ih]
    omega

theorem CommandEntries_append (cfg : Config) (l1 l2 : List ImageWriterCommand) :
    ∀ start : Nat, CommandEntries cfg start (l1 ++ l2)
      = CommandEntries cfg start l1 ++ CommandEntries cfg (start + CommandSizeSum cfg l1) l2 := by
  induction l1 with
  | nil =>
    intro start
    simp only [List.nil_append, CommandEntries, CommandSizeSum, Nat.add_zero]
  | cons c rest ih =>
    intro start
    show CommandEntry start c :: CommandEntries cfg (start + CommandSize cfg c) (rest ++ l2)
      = CommandEntry start c :: CommandEntries cfg (start + CommandSize cfg c) rest ++
          CommandEntries cfg (start + (CommandSize cfg c + CommandSizeSum cfg rest)) l2
    rw [ih, Nat.add_assoc]
    rfl


theorem CommandEntries_length (cfg : Config) (cmds : List ImageWriterCommand) :
    ∀ start : Nat, (CommandEntries cfg start cmds).length = cmds.length := by
  induction cmds with
  | nil =>
    intro start
    rfl
  | cons c rest ih =>
    intro start
    simp only [CommandEntries, List.length_cons, ih]

theorem CommandEntry_text_offset (offset : Nat) (c : ImageWriterCommand) :
    (CommandEntry offset c).text_offset_ = offset := by
  cases c <;> rfl

theorem PrepareForSerializationLoop_object_id (cfg : Config) (w w1 : ImageWriter)
    (pre post : List ImageWriterCommand) (expected : Nat) (code : RawCode)
    (hrun : PrepareForSerializationLoop cfg w
      (pre ++ ImageWriterCommand.InsertInstructionOfCode expected code :: post) = some w1)
    (hpost : ∀ c ∈ post,
      DistinctInstructions (ImageWriterCommand.InsertInstructionOfCode expected code) c) :
    w1.heap_.GetObjectId (Code.InstructionsOf code)
      = w.next_text_offset_ + CommandSizeSum cfg pre := by
  rw [PrepareForSerializationLoop_append] at hrun
  cases hpre : PrepareForSerializationLoop cfg w pre with
  | none =>
    rw [hpre] at hrun
    exact absurd hrun (by simp)
  | some wp =>
    rw [hpre] at hrun
    simp only [Option.bind_eq_bind, Option.some_bind, PrepareForSerializationLoop] at hrun
    cases hstep : PrepareForSerializationStep cfg wp
        (ImageWriterCommand.InsertInstructionOfCode expected code) with
    | none =>
      simp only [hstep] at hrun
      exact absurd hrun (by simp)
    | some w2 =>
      simp only [hstep] at hrun
      obtain ⟨_, _, _, hid⟩ := PrepareForSerializationStep_spec cfg wp w2 _ hstep
      rw [PrepareForSerializationLoop_heap_frame cfg post w2 w1 hrun
        (Code.InstructionsOf code)
        (fun e code2 hm => Ne.symm (hpost _ hm)),
        hid expected code rfl, (PrepareForSerializationLoop_entries cfg pre w wp hpre).1]

/-- C21: after `PrepareForSerialization` has processed a command list on a
writer whose text cursor is non-zero (the sizes of the inserted instructions
being defined, no two commands inserting the same instructions object, and
the cursor staying within the range of the `int32_t` result): the call
returns, the text cursor is its initial value plus the sum of the sizes of
the commands, the entries appended are those of the commands in order, the
entry of each command records the initial cursor plus the sum of the sizes of
the commands before it, and a later `GetTextOffsetFor` on the instructions
inserted by an `InsertInstructionOfCode` command returns that recorded offset
and leaves the writer as it is. -/
theorem PrepareForSerialization_offsets (cfg : Config) (w : ImageWriter)
    (cmds : List ImageWriterCommand) (hcur : w.next_text_offset_ ≠ 0)
    (hsize : ∀ c ∈ cmds, CommandSizeDefined cfg c)
    (hdistinct : cmds.Pairwise DistinctInstructions)
    (hrange : w.next_text_offset_ + CommandSizeSum cfg cmds < 2 ^ 31) :
    ∃ w1, PrepareForSerialization cfg w (some cmds) = some w1 ∧
      w1.next_text_offset_ = w.next_text_offset_ + CommandSizeSum cfg cmds ∧
      w1.instructions_ = w.instructions_ ++ CommandEntries cfg w.next_text_offset_ cmds ∧
      (∀ pre c post, cmds = pre ++ c :: post →
        ∃ before after,
          w1.instructions_
            = before ++ CommandEntry (w.next_text_offset_ + CommandSizeSum cfg pre) c :: after ∧
          before.length = w.instructions_.length + pre.length ∧
          (CommandEntry (w.next_text_offset_ + CommandSizeSum cfg pre) c).text_offset_
            = w.next_text_offset_ + CommandSizeSum cfg pre) ∧
      (∀ pre expected code post code2,
        cmds = pre ++ ImageWriterCommand.InsertInstructionOfCode expected code :: post →
        GetTextOffsetFor cfg w1 (Code.InstructionsOf code) code2
          = some (((w.next_text_offset_ + CommandSizeSum cfg pre : Nat) : Int), w1)) := by
  obtain ⟨w1, hrun⟩ := PrepareForSerializationLoop_isSome cfg cmds w hsize
  obtain ⟨hcursor, hentries⟩ := PrepareForSerializationLoop_entries cfg cmds w w1 hrun
  refine ⟨w1, hrun, hcursor, hentries, ?_, ?_⟩
  · intro pre c post hsplit
    refine ⟨w.instructions_ ++ CommandEntries cfg w.next_text_offset_ pre,
      CommandEntries cfg (w.next_text_offset_ + CommandSizeSum cfg pre + CommandSize cfg c) post,
      ?_, ?_, CommandEntry_text_offset _ _⟩
    · rw [hentries, hsplit, CommandEntries_append, List.append_assoc]
      rfl
    · rw [List.length_append, CommandEntries_length]
  · intro pre expected code post code2 hsplit
    have hpost : ∀ c ∈ post,
        DistinctInstructions (ImageWriterCommand.InsertInstructionOfCode expected code) c := by
      rw [hsplit] at hdistinct
      exact (List.pairwise_cons.mp (List.pairwise_append.mp hdistinct).2.1).1
    rw [hsplit] at hrun
    have hid := PrepareForSerializationLoop_object_id cfg w w1 pre post expected code hrun hpost
    have hle : w.next_text_offset_ + CommandSizeSum cfg pre < 2 ^ 31 := by
      have := CommandSizeSum_append cfg pre
        (ImageWriterCommand.InsertInstructionOfCode expected code :: post)
      rw [hsplit] at hrange
      omega
    have hne : w.next_text_offset_ + CommandSizeSum cfg pre ≠ 0 := by omega
    simp only [GetTextOffsetFor, hid, ne_eq, hne, not_false_eq_true, if_true,
      toInt32_of_lt _ hle]


/-- Witness for `PrepareForSerialization_offsets`: a code block, a trampoline
and another code block inserted into the writer whose cursor is 64. -/
theorem PrepareForSerialization_offsets_witness :
    ∃ w1, PrepareForSerialization exampleConfig exampleRegistered (some exampleCommands) = some w1 ∧
      w1.next_text_offset_ = exampleRegistered.next_text_offset_ + CommandSizeSum exampleConfig exampleCommands ∧
      w1.instructions_ = exampleRegistered.instructions_ ++ CommandEntries exampleConfig exampleRegistered.next_text_offset_ exampleCommands ∧
      (∀ pre c post, exampleCommands = pre ++ c :: post →
        ∃ before after,
          w1.instructions_
            = before ++ CommandEntry (exampleRegistered.next_text_offset_ + CommandSizeSum exampleConfig pre) c :: after ∧
          before.length = exampleRegistered.instructions_.length + pre.length ∧
          (CommandEntry (exampleRegistered.next_text_offset_ + CommandSizeSum exampleConfig pre) c).text_offset_
            = exampleRegistered.next_text_offset_ + CommandSizeSum exampleConfig pre) ∧
      (∀ pre expected code post code2,
        exampleCommands = pre ++ ImageWriterCommand.InsertInstructionOfCode expected code :: post →
        GetTextOffsetFor exampleConfig w1 (Code.InstructionsOf code) code2
          = some (((exampleRegistered.next_text_offset_ + CommandSizeSum exampleConfig pre : Nat) : Int), w1)) :=
  PrepareForSerialization_offsets exampleConfig exampleRegistered exampleCommands
    (by decide)
    (by
      intro c hc
      simp only [exampleCommands, List.mem_cons, List.mem_singleton, List.not_mem_nil,
        or_false] at hc
      rcases hc with h | h | h
      · rw [h]
        exact rfl
      · rw [h]
        exact trivial
      · rw [h]
        exact rfl)
    (by
      refine List.Pairwise.cons ?_ (List.Pairwise.cons ?_ (List.Pairwise.cons ?_
        List.Pairwise.nil))
      · intro c hc
        simp only [List.mem_cons, List.mem_singleton, List.not_mem_nil, or_false] at hc
        rcases hc with h | h
        · rw [h]
          exact trivial
        · rw [h]
          show (40960 : Nat) ≠ 61440
          decide
      · intro c hc
        simp only [List.mem_singleton] at hc
        rw [hc]
        exact trivial
      · intro c hc
        exact absurd hc (List.not_mem_nil c))
    (by decide)

/-- The run of the witness, spelled out: the cursor moves from 64 to 184, the
three entries record the offsets 64, 128 and 136, and the second code block is
found again at 136. -/
theorem PrepareForSerialization_example :
    ∃ w1, PrepareForSerialization exampleConfig exampleRegistered (some exampleCommands)
        = some w1 ∧
      w1.next_text_offset_ = 184 ∧
      w1.textOffsets = [16, 48, 64, 128, 136] ∧
      (GetTextOffsetFor exampleConfig w1 exampleInstructions20 exampleCode20).map Prod.fst
        = some 136 :=
  ⟨_, rfl, by decide, by decide, by decide⟩


/-! ## Theorems: the frame of the relocation patching -/

theorem BlobPatchRelocations_outside (cfg : Config) (bss_base_ : Int) (segment_base : Nat)
    (payload_stream_start : Nat) (insns : RawObject) (relocs : List Nat) :
    ∀ (s : WriteStream) (p : Nat),
      (∀ r ∈ relocs, p < payload_stream_start + r ∨
        payload_stream_start + r + cfg.targetWordSize ≤ p) →
      (BlobPatchRelocations cfg bss_base_ segment_base payload_stream_start insns relocs
        s).buffer p = s.buffer p := by
  induction relocs with
  | nil =>
    intro s p _
    rfl
  | cons r rest ih =>
    intro s p hp
    simp only [BlobPatchRelocations]
    rw [ih _ p (fun r1 h1 => hp r1 (List.mem_cons_of_mem _ h1))]
    have hr := hp r (List.mem_cons_self _ _)
    have : ¬ (payload_stream_start + r ≤ p ∧ p < payload_stream_start + r + cfg.targetWordSize) := by
      omega
    simp only [WriteStream.WriteTargetWord, WriteStream.WriteFixed, WriteStream.WriteBytes,
      WriteStream.SetPosition, this, if_false]

theorem BlobPatchEntry_outside (cfg : Config) (bss_base_ : Int) (segment_base : Nat)
    (payload_stream_start : Nat) (insns : RawObject) (code : RawCode) (s : WriteStream) :
    (∀ p, (∀ r ∈ code.bss_relocations, p < payload_stream_start + r ∨
          payload_stream_start + r + cfg.targetWordSize ≤ p) →
        (BlobPatchEntry cfg bss_base_ segment_base payload_stream_start insns code s).buffer p
          = s.buffer p) ∧
      (BlobPatchEntry cfg bss_base_ segment_base payload_stream_start insns code s).Position
        = s.Position ∧
      (BlobPatchEntry cfg bss_base_ segment_base payload_stream_start insns code
        s).bytes_written = s.bytes_written :=
  ⟨fun p hp => BlobPatchRelocations_outside cfg bss_base_ segment_base payload_stream_start
    insns code.bss_relocations s p hp, rfl, rfl⟩


/-- C22: the relocation patching of one code-backed entry in the blob backend
changes only the target-word-sized ranges at the stream positions
`payload_stream_start + reloc_offset` of the relocations of the entry: every
other byte of the buffer is as it was before the patching, and the stream
position (and so `bytes_written`) after the patching is the position before
it. For the entry as a whole: it returns, its stream position and
`text_offset` are those left by the write of the header and the payload, its
buffer differs from the buffer before the patching inside those ranges only,
and the entry loop goes on from that state, so the next entry is appended
right after this one. -/
theorem BlobPatchEntry_frame (cfg : Config) (namer : Nat → RawCode → String)
    (bss_base_ : Int) (segment_base : Nat) (i : Nat) (st : BlobTextState)
    (data : InstructionsData) (insns : RawObject) (code : RawCode)
    (htr : data.trampoline_bytes = none) (hin : data.raw_insns_ = some insns)
    (hco : data.raw_code_ = some code) :
    (∀ (payload_stream_start : Nat) (s : WriteStream),
      (∀ p, (∀ r ∈ code.bss_relocations, p < payload_stream_start + r ∨
            payload_stream_start + r + cfg.targetWordSize ≤ p) →
          (BlobPatchEntry cfg bss_base_ segment_base payload_stream_start insns code s).buffer p
            = s.buffer p) ∧
        (BlobPatchEntry cfg bss_base_ segment_base payload_stream_start insns code s).Position
          = s.Position ∧
        (BlobPatchEntry cfg bss_base_ segment_base payload_stream_start insns code
          s).bytes_written = s.bytes_written) ∧
    ∃ st1, BlobWriteTextEntry cfg namer bss_base_ segment_base i st data = some st1 ∧
      st1.stream.current
        = (BlobWriteInstructions cfg st.stream st.text_offset insns
            (MarkedTags cfg insns.tags_ insns.hash_)).1.current ∧
      st1.text_offset
        = (BlobWriteInstructions cfg st.stream st.text_offset insns
            (MarkedTags cfg insns.tags_ insns.hash_)).2.2 ∧
      (∀ p,
        (∀ r ∈ code.bss_relocations,
          p < (BlobWriteInstructions cfg st.stream st.text_offset insns
                (MarkedTags cfg insns.tags_ insns.hash_)).2.1 + r ∨
          (BlobWriteInstructions cfg st.stream st.text_offset insns
                (MarkedTags cfg insns.tags_ insns.hash_)).2.1 + r + cfg.targetWordSize ≤ p) →
        st1.stream.buffer p
          = (BlobWriteInstructions cfg st.stream st.text_offset insns
              (MarkedTags cfg insns.tags_ insns.hash_)).1.buffer p) ∧
      (∀ rest, BlobWriteTextLoop cfg namer bss_base_ segment_base i st (data :: rest)
        = BlobWriteTextLoop cfg namer bss_base_ segment_base (i + 1) st1 rest) := by
  refine ⟨fun pss s => BlobPatchEntry_outside cfg bss_base_ segment_base pss insns code s, ?_⟩
  have hpatched := fun pss s =>
    (BlobPatchEntry_outside cfg bss_base_ segment_base pss insns code s).1
  have hloop : ∀ st1, BlobWriteTextEntry cfg namer bss_base_ segment_base i st data = some st1 →
      ∀ rest, BlobWriteTextLoop cfg namer bss_base_ segment_base i st (data :: rest)
        = BlobWriteTextLoop cfg namer bss_base_ segment_base (i + 1) st1 rest := by
    intro st1 h rest
    simp only [BlobWriteTextLoop, h]
  have hrun : ∃ st1, BlobWriteTextEntry cfg namer bss_base_ segment_base i st data = some st1 ∧
      st1.stream.current
        = (BlobWriteInstructions cfg st.stream st.text_offset insns
            (MarkedTags cfg insns.tags_ insns.hash_)).1.current ∧
      st1.text_offset
        = (BlobWriteInstructions cfg st.stream st.text_offset insns
            (MarkedTags cfg insns.tags_ insns.hash_)).2.2 ∧
      (∀ p,
        (∀ r ∈ code.bss_relocations,
          p < (BlobWriteInstructions cfg st.stream st.text_offset insns
                (MarkedTags cfg insns.tags_ insns.hash_)).2.1 + r ∨
          (BlobWriteInstructions cfg st.stream st.text_offset insns
                (MarkedTags cfg insns.tags_ insns.hash_)).2.1 + r + cfg.targetWordSize ≤ p) →
        st1.stream.buffer p
          = (BlobWriteInstructions cfg st.stream st.text_offset insns
              (MarkedTags cfg insns.tags_ insns.hash_)).1.buffer p) := by
    unfold MarkedTags
    cases hpre : cfg.DART_PRECOMPILER with
    | false =>
      simp only [BlobWriteTextEntry, htr, hin, hco, hpre, Bool.false_eq_true, if_false]
      exact ⟨_, rfl, rfl, rfl, fun _ _ => rfl⟩
    | true =>
      cases helf : st.elf_ with
      | none =>
        simp only [BlobWriteTextEntry, htr, hin, hco, hpre, helf, if_true]
        exact ⟨_, rfl, rfl, rfl, fun _ _ => rfl⟩
      | some elf =>
        simp only [BlobWriteTextEntry, htr, hin, hco, hpre, helf, if_true]
        exact ⟨_, rfl, rfl, rfl, fun p hp => hpatched _ _ p hp⟩
  obtain ⟨st1, h1, h2, h3, h4⟩ := hrun
  exact ⟨st1, h1, h2, h3, h4, hloop st1 h1⟩


/-- Witness for `BlobPatchEntry_frame`: the code block with one relocation at
payload offset 8, written at stream position 32 with the linkable-object
collaborator present. -/
theorem BlobPatchEntry_frame_witness :
    (∀ (payload_stream_start : Nat) (s : WriteStream),
      (∀ p, (∀ r ∈ exampleRelocCode.bss_relocations, p < payload_stream_start + r ∨
            payload_stream_start + r + exampleConfig.targetWordSize ≤ p) →
          (BlobPatchEntry exampleConfig 65536 4096 payload_stream_start exampleRelocInstructions exampleRelocCode s).buffer p
            = s.buffer p) ∧
        (BlobPatchEntry exampleConfig 65536 4096 payload_stream_start exampleRelocInstructions exampleRelocCode s).Position
          = s.Position ∧
        (BlobPatchEntry exampleConfig 65536 4096 payload_stream_start exampleRelocInstructions exampleRelocCode
          s).bytes_written = s.bytes_written) ∧
    ∃ st1, BlobWriteTextEntry exampleConfig exampleNamer 65536 4096 1 exampleBlobState exampleRelocEntry = some st1 ∧
      st1.stream.current
        = (BlobWriteInstructions exampleConfig exampleBlobState.stream exampleBlobState.text_offset exampleRelocInstructions
            (MarkedTags exampleConfig exampleRelocInstructions.tags_ exampleRelocInstructions.hash_)).1.current ∧
      st1.text_offset
        = (BlobWriteInstructions exampleConfig exampleBlobState.stream exampleBlobState.text_offset exampleRelocInstructions
            (MarkedTags exampleConfig exampleRelocInstructions.tags_ exampleRelocInstructions.hash_)).2.2 ∧
      (∀ p,
        (∀ r ∈ exampleRelocCode.bss_relocations,
          p < (BlobWriteInstructions exampleConfig exampleBlobState.stream exampleBlobState.text_offset exampleRelocInstructions
                (MarkedTags exampleConfig exampleRelocInstructions.tags_ exampleRelocInstructions.hash_)).2.1 + r ∨
          (BlobWriteInstructions exampleConfig exampleBlobState.stream exampleBlobState.text_offset exampleRelocInstructions
                (MarkedTags exampleConfig exampleRelocInstructions.tags_ exampleRelocInstructions.hash_)).2.1 + r + exampleConfig.targetWordSize ≤ p) →
        st1.stream.buffer p
          = (BlobWriteInstructions exampleConfig exampleBlobState.stream exampleBlobState.text_offset exampleRelocInstructions
              (MarkedTags exampleConfig exampleRelocInstructions.tags_ exampleRelocInstructions.hash_)).1.buffer p) ∧
      (∀ rest, BlobWriteTextLoop exampleConfig exampleNamer 65536 4096 1 exampleBlobState (exampleRelocEntry :: rest)
        = BlobWriteTextLoop exampleConfig exampleNamer 65536 4096 (1 + 1) st1 rest) :=
  BlobPatchEntry_frame exampleConfig exampleNamer 65536 4096 1 exampleBlobState
    exampleRelocEntry exampleRelocInstructions exampleRelocCode rfl rfl rfl

/-- The entry of the witness, spelled out: the 32 bytes of the entry go to the
positions 32 to 63, the patched word at position 56 holds
`65536 - (4096 + 56) + 40`, the byte before and the byte after the word are
the zeros written with the payload, and the position after the entry is 64. -/
theorem BlobPatchEntry_example :
    (BlobWriteTextEntry exampleConfig exampleNamer 65536 4096 1 exampleBlobState
        exampleRelocEntry).map
      (fun st1 => (st1.stream.current, readFixed st1.stream.buffer 56 8,
        st1.stream.buffer 55, st1.stream.buffer 64))
      = some (64, 61424, 0, 0) := by
  decide


/-! ## Theorems: objects of an unsupported class, build by build -/

theorem WriteRODataWords_words (cfg : Config) (obj : RawObject) (end_ : Nat)
    (hW : 0 < cfg.kWordSize) :
    ∀ (fuel cursor : Nat) (s : WriteStream), cursor ≤ end_ →
      cfg.kWordSize ∣ end_ - cursor → end_ - cursor ≤ fuel →
      ∀ k, cursor + k * cfg.kWordSize < end_ →
        readFixed (WriteRODataWords cfg obj end_ fuel cursor s).buffer
            (s.current + k * cfg.kWordSize) cfg.kWordSize
          = readFixed obj.mem (cursor + k * cfg.kWordSize) cfg.kWordSize
              % 256 ^ cfg.kWordSize := by
  intro fuel
  induction fuel with
  | zero =>
    intro cursor s _ _ hfuel k hk
    omega
  | succ fuel ih =>
    intro cursor s hle hdvd hfuel k hk
    have hlt : cursor < end_ := by omega
    have hge : cfg.kWordSize ≤ end_ - cursor := Nat.le_of_dvd (by omega) hdvd
    have hdvd1 : cfg.kWordSize ∣ end_ - (cursor + cfg.kWordSize) := by
      have e : end_ - (cursor + cfg.kWordSize) = end_ - cursor - cfg.kWordSize := by omega
      rw [e]
      exact Nat.dvd_sub' hdvd (dvd_refl _)
    simp only [WriteRODataWords, hlt, if_true]
    cases k with
    | zero =>
      simp only [Nat.zero_mul, Nat.add_zero]
      exact header_readback s _ cfg.kWordSize _
        (WriteRODataWords_spec cfg obj end_ hW fuel (cursor + cfg.kWordSize)
          (s.WriteWord cfg (readFixed obj.mem cursor cfg.kWordSize)) (by omega) hdvd1
          (by omega)).2
    | succ k =>
      have hmul : (k + 1) * cfg.kWordSize = cfg.kWordSize + k * cfg.kWordSize := by
        rw [Nat.succ_mul]
        omega
      have h := ih (cursor + cfg.kWordSize)
        (s.WriteWord cfg (readFixed obj.mem cursor cfg.kWordSize)) (by omega) hdvd1 (by omega)
        k (by rw [hmul] at hk; omega)
      have e1 : (s.WriteWord cfg (readFixed obj.mem cursor cfg.kWordSize)).current
          + k * cfg.kWordSize = s.current + (k + 1) * cfg.kWordSize := by
        show s.current + cfg.kWordSize + k * cfg.kWordSize = _
        omega
      have e2 : cursor + cfg.kWordSize + k * cfg.kWordSize
          = cursor + (k + 1) * cfg.kWordSize := by omega
      rw [e1, e2] at h
      exact h

theorem WriteRODataObject_same_word_size (cfg : Config) (s : WriteStream) (obj : RawObject)
    (hsim : cfg.IS_SIMARM_X64 = false) (hW : 0 < cfg.kWordSize) (hpos : 0 < obj.HeapSize)
    (hdvd : cfg.kWordSize ∣ obj.HeapSize) :
    ∃ out, WriteRODataObject cfg s obj = some out ∧
      out.current = s.current + obj.HeapSize ∧
      readFixed out.buffer s.current cfg.kWordSize
        = MarkedTags cfg obj.tags_ obj.hash_ % 256 ^ cfg.kWordSize ∧
      ∀ k, 1 ≤ k → k * cfg.kWordSize < obj.HeapSize →
        readFixed out.buffer (s.current + k * cfg.kWordSize) cfg.kWordSize
          = readFixed obj.mem (k * cfg.kWordSize) cfg.kWordSize % 256 ^ cfg.kWordSize := by
  have hge := Nat.le_of_dvd hpos hdvd
  have hdvd1 : cfg.kWordSize ∣ 0 + obj.HeapSize - (0 + cfg.kWordSize) := by
    have e : 0 + obj.HeapSize - (0 + cfg.kWordSize) = obj.HeapSize - cfg.kWordSize := by
      omega
    rw [e]
    exact Nat.dvd_sub' hdvd (dvd_refl _)
  simp only [WriteRODataObject, MarkedTags, hsim, Bool.false_eq_true, if_false]
  refine ⟨_, rfl, ?_, ?_, ?_⟩
  · have h := WriteRODataWords_spec cfg obj (0 + obj.HeapSize) hW
      (0 + obj.HeapSize - (0 + cfg.kWordSize)) (0 + cfg.kWordSize)
    refine ((h _ (by omega) hdvd1 (le_refl _)).1).trans ?_
    show s.current + cfg.kWordSize + (0 + obj.HeapSize - (0 + cfg.kWordSize)) = _
    omega
  · have h := WriteRODataWords_spec cfg obj (0 + obj.HeapSize) hW
      (0 + obj.HeapSize - (0 + cfg.kWordSize)) (0 + cfg.kWordSize)
    exact header_readback s _ cfg.kWordSize _ (h _ (by omega) hdvd1 (le_refl _)).2
  · intro k hk hlt
    obtain ⟨j, rfl⟩ : ∃ j, k = j + 1 := ⟨k - 1, by omega⟩
    have hmul : (j + 1) * cfg.kWordSize = cfg.kWordSize + j * cfg.kWordSize := by
      rw [Nat.succ_mul]
      omega
    have h := WriteRODataWords_words cfg obj (0 + obj.HeapSize) hW
      (0 + obj.HeapSize - (0 + cfg.kWordSize)) (0 + cfg.kWordSize)
      (s.WriteWord cfg
        (if cfg.HASH_IN_OBJECT_HEADER = true then
          BitFieldUpdate cfg.kNewBit false
            (BitFieldUpdate cfg.kOldAndNotRememberedBit true
              (BitFieldUpdate cfg.kOldAndNotMarkedBit false
                (BitFieldUpdate cfg.kOldBit true obj.tags_))) ||| obj.hash_ <<< 32
         else
          BitFieldUpdate cfg.kNewBit false
            (BitFieldUpdate cfg.kOldAndNotRememberedBit true
              (BitFieldUpdate cfg.kOldAndNotMarkedBit false
                (BitFieldUpdate cfg.kOldBit true obj.tags_)))))
      (by omega) hdvd1 (le_refl _) j (by rw [hmul] at hlt; omega)
    have e1 : ∀ v, (s.WriteWord cfg v).current + j * cfg.kWordSize
        = s.current + (j + 1) * cfg.kWordSize := by
      intro v
      show s.current + cfg.kWordSize + j * cfg.kWordSize = _
      omega
    have e2 : 0 + cfg.kWordSize + j * cfg.kWordSize = (j + 1) * cfg.kWordSize := by omega
    rw [e1, e2] at h
    exact h


/-- C13 (amended): what happens to an object of a class outside the
serializable set depends on the build. In the cross-word-size build
(`IS_SIMARM_X64`) it aborts the build: `SizeInSnapshot` and therefore
`GetDataOffsetFor` terminate with the fatal error, so does the data writer
when it reaches such an object, and `WriteROData` on any writer holding such
an object produces no stream at all. In the same-word-size build there is no
class check and nothing aborts: `SizeInSnapshot` is the heap size,
`GetDataOffsetFor` registers the object at the data cursor, the data writer
returns for it, and for a heap size that is a positive multiple of the word
size it emits exactly heap-size bytes: the marked header word followed by the
body words of the object. -/
theorem unsupported_class_by_build (cfg : Config) (obj : RawObject) (n : Nat)
    (hcid : obj.GetClassId = ClassId.kOtherCid n) :
    (cfg.IS_SIMARM_X64 = true →
      SizeInSnapshot cfg obj = none ∧
      (∀ w, GetDataOffsetFor cfg w obj = none) ∧
      (∀ s, WriteRODataObject cfg s obj = none) ∧
      (∀ w s, (∃ d ∈ w.objects_, d.raw_obj_ = obj) → WriteROData cfg w s = none)) ∧
    (cfg.IS_SIMARM_X64 = false →
      SizeInSnapshot cfg obj = some obj.HeapSize ∧
      (∀ w, GetDataOffsetFor cfg w obj
        = some (toUint32 w.next_data_offset_,
            { w with next_data_offset_ := w.next_data_offset_ + obj.HeapSize,
                     objects_ := w.objects_ ++ [{ raw_obj_ := obj }] })) ∧
      (∀ s, (WriteRODataObject cfg s obj).isSome = true) ∧
      (0 < cfg.kWordSize → 0 < obj.HeapSize → cfg.kWordSize ∣ obj.HeapSize →
        ∀ s, ∃ out, WriteRODataObject cfg s obj = some out ∧
          out.current = s.current + obj.HeapSize ∧
          readFixed out.buffer s.current cfg.kWordSize
            = MarkedTags cfg obj.tags_ obj.hash_ % 256 ^ cfg.kWordSize ∧
          ∀ k, 1 ≤ k → k * cfg.kWordSize < obj.HeapSize →
            readFixed out.buffer (s.current + k * cfg.kWordSize) cfg.kWordSize
              = readFixed obj.mem (k * cfg.kWordSize) cfg.kWordSize
                  % 256 ^ cfg.kWordSize)) := by
  refine ⟨?_, ?_⟩
  · intro hsim
    have h1 : SizeInSnapshot cfg obj = none := by
      simp only [SizeInSnapshot, hsim, if_true, hcid]
    have h3 : ∀ s, WriteRODataObject cfg s obj = none := by
      intro s
      simp only [WriteRODataObject, hsim, if_true, hcid]
    refine ⟨h1, ?_, h3, ?_⟩
    · intro w
      simp only [GetDataOffsetFor, h1]
    · intro w s h
      exact WriteRODataObjects_none_of_mem cfg obj h3 w.objects_ _ h
  · intro hsim
    have h1 : SizeInSnapshot cfg obj = some obj.HeapSize := by
      simp only [SizeInSnapshot, hsim, Bool.false_eq_true, if_false]
    refine ⟨h1, ?_, ?_, ?_⟩
    · intro w
      simp only [GetDataOffsetFor, h1]
    · intro s
      simp only [WriteRODataObject, hsim, Bool.false_eq_true, if_false, Option.isSome_some]
    · intro hW hpos hdvd s
      exact WriteRODataObject_same_word_size cfg s obj hsim hW hpos hdvd

/-- Witness for `unsupported_class_by_build`: the plain list object in the
cross-word-size build and in the same-word-size build (heap size 32, word
size 8). -/
theorem unsupported_class_by_build_witness :
    (SizeInSnapshot exampleCrossConfig exampleArray = none ∧
      (∀ w, GetDataOffsetFor exampleCrossConfig w exampleArray = none) ∧
      (∀ s, WriteRODataObject exampleCrossConfig s exampleArray = none) ∧
      (∀ w s, (∃ d ∈ w.objects_, d.raw_obj_ = exampleArray) →
        WriteROData exampleCrossConfig w s = none)) ∧
    (SizeInSnapshot exampleConfig exampleArray = some exampleArray.HeapSize ∧
      (∀ w, GetDataOffsetFor exampleConfig w exampleArray
        = some (toUint32 w.next_data_offset_,
            { w with next_data_offset_ := w.next_data_offset_ + exampleArray.HeapSize,
                     objects_ := w.objects_ ++ [{ raw_obj_ := exampleArray }] })) ∧
      (∀ s, (WriteRODataObject exampleConfig s exampleArray).isSome = true) ∧
      ∀ s, ∃ out, WriteRODataObject exampleConfig s exampleArray = some out ∧
        out.current = s.current + exampleArray.HeapSize ∧
        readFixed out.buffer s.current exampleConfig.kWordSize
          = MarkedTags exampleConfig exampleArray.tags_ exampleArray.hash_
              % 256 ^ exampleConfig.kWordSize ∧
        ∀ k, 1 ≤ k → k * exampleConfig.kWordSize < exampleArray.HeapSize →
          readFixed out.buffer (s.current + k * exampleConfig.kWordSize)
              exampleConfig.kWordSize
            = readFixed exampleArray.mem (k * exampleConfig.kWordSize)
                exampleConfig.kWordSize % 256 ^ exampleConfig.kWordSize) :=
  ⟨(unsupported_class_by_build exampleCrossConfig exampleArray 78 rfl).1 rfl,
    ((unsupported_class_by_build exampleConfig exampleArray 78 rfl).2 rfl).1,
    ((unsupported_class_by_build exampleConfig exampleArray 78 rfl).2 rfl).2.1,
    ((unsupported_class_by_build exampleConfig exampleArray 78 rfl).2 rfl).2.2.1,
    ((unsupported_class_by_build exampleConfig exampleArray 78 rfl).2 rfl).2.2.2
      (by decide) (by decide) (by decide)⟩


/-! ## Theorems: the driver returns -/

theorem WriteRODataObject_returns (cfg : Config) (s : WriteStream) (obj : RawObject)
    (hobj : cfg.IS_SIMARM_X64 = true → DataObjectOk cfg obj) :
    ∃ out, WriteRODataObject cfg s obj = some out := by
  cases hsim : cfg.IS_SIMARM_X64 with
  | false =>
    simp only [WriteRODataObject, hsim, Bool.false_eq_true, if_false]
    exact ⟨_, rfl⟩
  | true =>
    have hok := hobj hsim
    simp only [DataObjectOk, hsim, if_true] at hok
    rcases hok with hc | ⟨hc, hhash⟩ | hc | hc
    · simp only [WriteRODataObject, hsim, if_true, hc]
      exact ⟨_, rfl⟩
    · rcases hc with hc | hc
      · simp only [WriteRODataObject, hsim, if_true, hc, hhash, if_false]
        exact ⟨_, rfl⟩
      · simp only [WriteRODataObject, hsim, if_true, hc, hhash, if_false]
        exact ⟨_, rfl⟩
    · simp only [WriteRODataObject, hsim, if_true, hc]
      exact ⟨_, rfl⟩
    · simp only [WriteRODataObject, hsim, if_true, hc]
      exact ⟨_, rfl⟩

theorem WriteRODataObjects_returns (cfg : Config) (objs : List ObjectData) :
    ∀ s : WriteStream, (cfg.IS_SIMARM_X64 = true → ∀ d ∈ objs, DataObjectOk cfg d.raw_obj_) →
      ∃ out, WriteRODataObjects cfg s objs = some out := by
  induction objs with
  | nil =>
    intro s _
    exact ⟨s, rfl⟩
  | cons d rest ih =>
    intro s h
    obtain ⟨s1, h1⟩ := WriteRODataObject_returns cfg s d.raw_obj_
      (fun hsim => h hsim d (List.mem_cons_self _ _))
    obtain ⟨out, hout⟩ := ih s1 (fun hsim d1 hd1 => h hsim d1 (List.mem_cons_of_mem _ hd1))
    exact ⟨out, by simp only [WriteRODataObjects, h1, hout]⟩

theorem WriteROData_returns (cfg : Config) (w : ImageWriter) (s : WriteStream)
    (h : cfg.IS_SIMARM_X64 = true → ∀ d ∈ w.objects_, DataObjectOk cfg d.raw_obj_) :
    ∃ out, WriteROData cfg w s = some out :=
  WriteRODataObjects_returns cfg w.objects_ _ h

theorem BlobImageWriter_WriteText_returns (cfg : Config) (namer : Nat → RawCode → String)
    (bw : BlobImageWriter) (w0 : ImageWriter) (s : WriteStream) (b : Bool)
    (hA : 0 < cfg.targetObjectAlignment) (hentries : ∀ d ∈ w0.instructions_, EntryOk d) :
    ∃ r, BlobImageWriter.WriteText cfg namer bw w0 s b = some r := by
  obtain ⟨st1, hloop, _, _⟩ := BlobWriteTextLoop_Extends cfg namer bw.bss_base_
    (BlobSegmentBase cfg { bw with writer := w0 }) hA w0.instructions_ 0
    (BlobWriteTextHeader cfg { bw with writer := w0 }) hentries
  have hrun : ∃ bw1, BlobWriteText cfg namer { bw with writer := w0 } b = some bw1 := by
    simp only [BlobWriteText, hloop]
    exact ⟨_, rfl⟩
  obtain ⟨bw1, h1⟩ := hrun
  exact ⟨(bw1.writer, bw1), by simp only [BlobImageWriter.WriteText, h1]⟩


/-- C20: the hardening pass of `ImageWriter::Write` clears the object ids. For
a writer whose entries are trampolines or code-backed entries, whose data
objects the data writer accepts, and a backend whose `WriteText` returns and
leaves the heap alone: `Write` returns; its data section is the one written by
`WriteROData` and its writer and output are those of `WriteText` run on the
writer with the ids reset; the heap of the result is the heap left by the
first loop; after it every code-backed entry has the id of its instructions
reset to 0, trampoline entries are skipped, and the id of an object that is
not the instructions of a code-backed entry is unchanged; so
`GetTextOffsetFor` on such an instructions object afterwards assigns the
current text cursor as a fresh offset and appends a new entry. -/
theorem Write_resets_object_ids {β : Type} (cfg : Config)
    (WriteText : ImageWriter → WriteStream → Bool → Option (ImageWriter × β))
    (w : ImageWriter) (clustered_stream : WriteStream) (vm : Bool)
    (hentries : ∀ d ∈ w.instructions_, EntryOk d)
    (hdata : cfg.IS_SIMARM_X64 = true → ∀ d ∈ w.objects_, DataObjectOk cfg d.raw_obj_)
    (hreturns : ∀ heap s b, ∃ r, WriteText { w with heap_ := heap } s b = some r)
    (hframe : ∀ w0 s b r, WriteText w0 s b = some r → r.1.heap_ = w0.heap_) :
    ∃ w1 s1 out,
      ImageWriter.Write cfg WriteText w clustered_stream vm = some (w1, s1, out) ∧
      WriteResetObjectIds w.heap_ w.instructions_ = some w1.heap_ ∧
      WriteROData cfg w clustered_stream = some s1 ∧
      WriteText { w with heap_ := w1.heap_ } s1 vm = some (w1, out) ∧
      (∀ d ∈ w.instructions_, d.trampoline_bytes = none →
        ∀ insns, d.raw_insns_ = some insns → w1.heap_.GetObjectId insns = 0) ∧
      (∀ obj : RawObject,
        (∀ d ∈ w.instructions_, d.trampoline_bytes = none →
          ∀ insns, d.raw_insns_ = some insns → insns.addr ≠ obj.addr) →
        w1.heap_.GetObjectId obj = w.heap_.GetObjectId obj) ∧
      (∀ d ∈ w.instructions_, d.trampoline_bytes = none →
        ∀ insns code size, d.raw_insns_ = some insns →
          SizeInSnapshot cfg insns = some size →
          GetTextOffsetFor cfg w1 insns code
            = some (toInt32 w1.next_text_offset_,
                { w1 with
                  heap_ := w1.heap_.SetObjectId insns w1.next_text_offset_,
                  next_text_offset_ := w1.next_text_offset_ + size,
                  instructions_ := w1.instructions_ ++
                    [InstructionsData.ofCode insns code w1.next_text_offset_] })) := by
  obtain ⟨heap1, hreset, hspec⟩ := WriteResetObjectIds_spec w.instructions_ w.heap_ hentries
  obtain ⟨s1, hro⟩ := WriteROData_returns cfg { w with heap_ := heap1 } clustered_stream hdata
  obtain ⟨r, htext⟩ := hreturns heap1 s1 vm
  have hheap : r.1.heap_ = heap1 := hframe _ _ _ _ htext
  have hzero : ∀ d ∈ w.instructions_, d.trampoline_bytes = none →
      ∀ insns, d.raw_insns_ = some insns → r.1.heap_.GetObjectId insns = 0 := by
    intro d hd hnone insns hin
    rw [hheap]
    exact (hspec insns.addr).1 ⟨d, hd, hnone, insns, hin, rfl⟩
  refine ⟨r.1, s1, r.2, ?_, ?_, hro, ?_, hzero, ?_, ?_⟩
  · simp only [ImageWriter.Write, hreset, hro, htext]
  · rw [hheap]
    exact hreset
  · rw [hheap]
    exact htext
  · intro obj hobj
    rw [hheap]
    refine (hspec obj.addr).2 ?_
    rintro ⟨d, hd, hnone, insns, hin, ha⟩
    exact hobj d hd hnone insns hin ha
  · intro d hd hnone insns code size hin hsize
    simp only [GetTextOffsetFor, hzero d hd hnone insns hin, ne_eq, not_true_eq_false,
      if_false, hsize]

/-- Witness for `Write_resets_object_ids`: the writer that holds one data
object, one code block (registered at offset 16) and a trampoline, written
with the blob backend in the same-word-size build. -/
theorem Write_resets_object_ids_witness :
    ∃ w1 s1 out,
      ImageWriter.Write exampleConfig
          (BlobImageWriter.WriteText exampleConfig exampleNamer (exampleBlobWriter none))
          exampleRegistered exampleStream true = some (w1, s1, out) ∧
      WriteResetObjectIds exampleRegistered.heap_ exampleRegistered.instructions_
        = some w1.heap_ ∧
      WriteROData exampleConfig exampleRegistered exampleStream = some s1 ∧
      BlobImageWriter.WriteText exampleConfig exampleNamer (exampleBlobWriter none)
          { exampleRegistered with heap_ := w1.heap_ } s1 true = some (w1, out) ∧
      (∀ d ∈ exampleRegistered.instructions_, d.trampoline_bytes = none →
        ∀ insns, d.raw_insns_ = some insns → w1.heap_.GetObjectId insns = 0) ∧
      (∀ obj : RawObject,
        (∀ d ∈ exampleRegistered.instructions_, d.trampoline_bytes = none →
          ∀ insns, d.raw_insns_ = some insns → insns.addr ≠ obj.addr) →
        w1.heap_.GetObjectId obj = exampleRegistered.heap_.GetObjectId obj) ∧
      (∀ d ∈ exampleRegistered.instructions_, d.trampoline_bytes = none →
        ∀ insns code size, d.raw_insns_ = some insns →
          SizeInSnapshot exampleConfig insns = some size →
          GetTextOffsetFor exampleConfig w1 insns code
            = some (toInt32 w1.next_text_offset_,
                { w1 with
                  heap_ := w1.heap_.SetObjectId insns w1.next_text_offset_,
                  next_text_offset_ := w1.next_text_offset_ + size,
                  instructions_ := w1.instructions_ ++
                    [InstructionsData.ofCode insns code w1.next_text_offset_] })) :=
  Write_resets_object_ids exampleConfig
    (BlobImageWriter.WriteText exampleConfig exampleNamer (exampleBlobWriter none))
    exampleRegistered exampleStream true
    (by
      intro d hd
      simp only [exampleRegistered, List.mem_cons, List.mem_singleton, List.not_mem_nil,
        or_false] at hd
      rcases hd with h | h
      · rw [h]
        exact Or.inr ⟨rfl, rfl⟩
      · rw [h]
        exact Or.inl rfl)
    (fun h => absurd h (by decide))
    (fun heap s b =>
      BlobImageWriter_WriteText_returns exampleConfig exampleNamer (exampleBlobWriter none)
        { exampleRegistered with heap_ := heap } s b (by decide)
        (by
          intro d hd
          simp only [exampleRegistered, List.mem_cons, List.mem_singleton, List.not_mem_nil,
            or_false] at hd
          rcases hd with h | h
          · rw [h]
            exact Or.inr ⟨rfl, rfl⟩
          · rw [h]
            exact Or.inl rfl))
    (BlobImageWriter_WriteText_heap exampleConfig exampleNamer (exampleBlobWriter none))

end dart
